import Mathlib

/-!
# Banking application and book library

A shallow embedding of `account.js`, `transaction.js` and the loan formulas of `utils.js`
in `src/banking_application`, and of `book.js` and `library.js` in
`src/exploring_javascript_objects`.

Modelling conventions

* A JavaScript number that reaches the ledger is a `JSNumber`: a finite value,
  carried as an exact rational, or one of the three non-finite values.  The
  balance of an account is a finite value; arithmetic on finite values is exact.
* The program computes in IEEE 754 doubles.  The section `Binary64` has the
  rounding of every operator to the nearest double, and the methods whose
  results depend on it once more, with that rounding.  The closed forms of the
  interest, the loan payment and the ledger totals hold in exact arithmetic;
  the `Binary64` definitions show where the doubles leave them.
* A method that can throw returns a pair: what the call produced (`Except`) and
  the account as the call left it.  A throw keeps whatever was assigned before
  it, so "nothing changed on failure" is a property to prove, not a convention.
* `new Date()` and `#generateTransactionId()` read the clock and the random
  source.  Their values are arguments of the operations (`now`, `Stamp`).
* The private fields `#fees` and `#interestSettings` are assigned once, in the
  constructor, to literals; they are the constants `fees` and
  `interestSettings`.
-/

namespace Banking

/-! ## Values -/

/-- A JavaScript number: a finite value or `NaN`, `Infinity`, `-Infinity`. -/
inductive JSNumber where
  | finite (q : ℚ)
  | nan
  | posInf
  | negInf
deriving DecidableEq

/-- The error object of a `throw new Error(message)`. -/
structure JSError where
  message : String
deriving DecidableEq, Repr

/-- The enumeration `AccountStatus`. -/
inductive AccountStatus where
  | ACTIVE
  | FROZEN
  | CLOSED
deriving DecidableEq, Repr

/-- The string value of a status, as interpolated into error messages. -/
def AccountStatus.value : AccountStatus → String
  | .ACTIVE => "active"
  | .FROZEN => "frozen"
  | .CLOSED => "closed"

/-- The enumeration `TransactionType` of `account.js`. -/
inductive TransactionType where
  | DEPOSIT
  | WITHDRAWAL
  | INTEREST
  | FEE
deriving DecidableEq, Repr

/-- What `#generateTransactionId()` and `new Date()` give when an entry is recorded. -/
structure Stamp where
  id : String
  date : Int
deriving DecidableEq

/-- One record of the private array `#transactions`. -/
structure LogEntry where
  id : String
  type : TransactionType
  amount : ℚ
  description : String
  date : Int
  balanceAfter : ℚ
deriving DecidableEq

/-- The literal assigned to `#interestSettings`. -/
structure InterestSettings where
  baseRate : ℚ
  minimumBalance : ℚ
  bonusRate : ℚ
  highBalanceThreshold : ℚ

/-- The literal assigned to `#fees`. -/
structure Fees where
  overdraft : ℚ
  maintenance : ℚ
  minimumBalance : ℚ

/-- The value of `#interestSettings` in every account. -/
def interestSettings : InterestSettings :=
  ⟨2 / 100, 1000, 5 / 1000, 10000⟩

/-- The value of `#fees` in every account. -/
def fees : Fees :=
  ⟨35, 5, 500⟩

/-- The fields of an `Account` object that change or identify it. -/
structure Account where
  accountNumber : String
  owner : String
  balance : ℚ
  transactions : List LogEntry
  status : AccountStatus
  createdAt : Int
  lastUpdated : Int
deriving DecidableEq

/-- The object returned by a successful `deposit` or `withdraw`. -/
structure TxResult where
  success : Bool
  transaction : LogEntry
  newBalance : ℚ
deriving DecidableEq

/-! ## Strings -/

/-- The `length` of a JavaScript string: its number of UTF-16 code units. -/
def jsLength (s : String) : Nat :=
  (s.data.map (fun c => if c.toNat < 65536 then 1 else 2)).sum

/-- The characters matched by `\s`, which are also those removed by `trim()`. -/
def isJSWhiteSpace (c : Char) : Bool :=
  let n := c.toNat
  n == 9 || n == 10 || n == 11 || n == 12 || n == 13 || n == 32 || n == 160 ||
  n == 5760 || (8192 ≤ n && n ≤ 8202) || n == 8232 || n == 8233 || n == 8239 ||
  n == 8287 || n == 12288 || n == 65279

/-- The method `String.prototype.trim`. -/
def jsTrim (s : String) : String :=
  ⟨((s.data.dropWhile isJSWhiteSpace).reverse.dropWhile isJSWhiteSpace).reverse⟩

/-- The test `/^\d+$/.test(s)`. -/
def testDigits (s : String) : Bool :=
  !s.data.isEmpty && s.data.all (fun c => 48 ≤ c.toNat && c.toNat ≤ 57)

/-- The character class `[a-zA-Z\s-']`. -/
def isOwnerChar (c : Char) : Bool :=
  let n := c.toNat
  (97 ≤ n && n ≤ 122) || (65 ≤ n && n ≤ 90) || isJSWhiteSpace c || n == 45 || n == 39

/-- The test `/^[a-zA-Z\s-']+$/.test(s)`. -/
def testOwner (s : String) : Bool :=
  !s.data.isEmpty && s.data.all isOwnerChar

/-! ## Validation -/

namespace Account

/-- The method `#validateAccountNumber`. -/
def validateAccountNumber (accountNumber : String) : Except JSError Unit :=
  if accountNumber.data.isEmpty || jsLength accountNumber < 5 || !testDigits accountNumber then
    .error ⟨"Invalid account number format"⟩
  else
    .ok ()

/-- The method `#validateOwner`. -/
def validateOwner (owner : String) : Except JSError Unit :=
  if owner.data.isEmpty || jsLength (jsTrim owner) < 2 || !testOwner owner then
    .error ⟨"Invalid owner name format"⟩
  else
    .ok ()

/-- The method `#validateAmount`; on success it hands back the finite value it checked. -/
def validateAmount (amount : JSNumber) : Except JSError ℚ :=
  match amount with
  | .finite q => if q < 0 then .error ⟨"Invalid amount"⟩ else .ok q
  | _ => .error ⟨"Invalid amount"⟩

/-- The method `#validateSufficientFunds`. -/
def validateSufficientFunds (self : Account) (amount : ℚ) : Except JSError Unit :=
  if amount > self.balance then .error ⟨"Insufficient funds"⟩ else .ok ()

/-- The method `#validateAccountStatus`. -/
def validateAccountStatus (self : Account) : Except JSError Unit :=
  if self.status ≠ AccountStatus.ACTIVE then
    .error ⟨"Account is " ++ self.status.value⟩
  else
    .ok ()

/-! ## Recording -/

/-- The method `#recordTransaction`: the new record and the account with it pushed. -/
def recordTransaction (self : Account) (stamp : Stamp) (type : TransactionType)
    (amount : ℚ) (description : String) : LogEntry × Account :=
  let transaction : LogEntry :=
    ⟨stamp.id, type, amount, description, stamp.date, self.balance⟩
  (transaction, { self with transactions := self.transactions ++ [transaction] })

/-- The method `#applyFee`. -/
def applyFee (self : Account) (stamp : Stamp) (description : String) (amount : ℚ) : Account :=
  let s1 := { self with balance := self.balance - amount }
  (s1.recordTransaction stamp TransactionType.FEE (-amount) description).2

/-! ## Operations -/

/-- The constructor.  `initialBalance` is `none` when the argument is left out. -/
def create (createdAt lastUpdated : Int) (stamp : Stamp) (accountNumber owner : String)
    (initialBalance : Option JSNumber) : Except JSError Account :=
  match validateAccountNumber accountNumber with
  | .error e => .error e
  | .ok _ =>
  match validateOwner owner with
  | .error e => .error e
  | .ok _ =>
  match validateAmount (initialBalance.getD (.finite 0)) with
  | .error e => .error e
  | .ok a =>
    let s : Account :=
      ⟨accountNumber, owner, max 0 a, [], AccountStatus.ACTIVE, createdAt, lastUpdated⟩
    if a > 0 then
      .ok (s.recordTransaction stamp TransactionType.DEPOSIT a "Initial deposit").2
    else
      .ok s

/-- The method `deposit`.  `description` is `none` when the argument is left out. -/
def deposit (self : Account) (now : Int) (stamp : Stamp) (amount : JSNumber)
    (description : Option String) : Except JSError TxResult × Account :=
  match self.validateAccountStatus with
  | .error e => (.error e, self)
  | .ok _ =>
  match validateAmount amount with
  | .error e => (.error e, self)
  | .ok a =>
    let s1 := { self with balance := self.balance + a }
    let s2 := { s1 with lastUpdated := now }
    let r := s2.recordTransaction stamp TransactionType.DEPOSIT a (description.getD "Deposit")
    (.ok ⟨true, r.1, r.2.balance⟩, r.2)

/-- The method `withdraw`.  `feeStamp` is read only when the fee is charged. -/
def withdraw (self : Account) (now : Int) (feeStamp stamp : Stamp) (amount : JSNumber)
    (description : Option String) : Except JSError TxResult × Account :=
  match self.validateAccountStatus with
  | .error e => (.error e, self)
  | .ok _ =>
  match validateAmount amount with
  | .error e => (.error e, self)
  | .ok a =>
  match self.validateSufficientFunds a with
  | .error e => (.error e, self)
  | .ok _ =>
    let s1 := { self with balance := self.balance - a }
    let s2 := { s1 with lastUpdated := now }
    let s3 :=
      if s2.balance < fees.minimumBalance then
        s2.applyFee feeStamp "Overdraft fee" fees.overdraft
      else s2
    let r := s3.recordTransaction stamp TransactionType.WITHDRAWAL (-a)
      (description.getD "Withdrawal")
    (.ok ⟨true, r.1, r.2.balance⟩, r.2)

/-- The method `freeze`. -/
def freeze (self : Account) (stamp : Stamp) (reason : String) : Except JSError Unit × Account :=
  if self.status ≠ AccountStatus.ACTIVE then
    (.error ⟨"Account must be active to freeze"⟩, self)
  else
    let s1 := { self with status := AccountStatus.FROZEN }
    (.ok (), (s1.recordTransaction stamp TransactionType.FEE 0 ("Account frozen: " ++ reason)).2)

/-- The method `unfreeze`. -/
def unfreeze (self : Account) (stamp : Stamp) (reason : String) : Except JSError Unit × Account :=
  if self.status ≠ AccountStatus.FROZEN then
    (.error ⟨"Account must be frozen to unfreeze"⟩, self)
  else
    let s1 := { self with status := AccountStatus.ACTIVE }
    (.ok (), (s1.recordTransaction stamp TransactionType.FEE 0 ("Account unfrozen: " ++ reason)).2)

/-- The method `close`. -/
def close (self : Account) (stamp : Stamp) (reason : String) : Except JSError Unit × Account :=
  if self.balance ≠ 0 then
    (.error ⟨"Account must have zero balance to close"⟩, self)
  else
    let s1 := { self with status := AccountStatus.CLOSED }
    (.ok (), (s1.recordTransaction stamp TransactionType.FEE 0 ("Account closed: " ++ reason)).2)

/-! ## Interest -/

/-- The object returned by `calculateCompoundInterest`. -/
structure InterestResult where
  initialBalance : ℚ
  finalAmount : ℚ
  interestEarned : ℚ
  effectiveRate : ℚ
  years : ℚ
  compoundingFrequency : ℚ
deriving DecidableEq

/-- The function `Math.round` on a finite value: the nearest integer, halves upwards. -/
def mathRound (x : ℚ) : ℚ :=
  ((⌊x + 1 / 2⌋ : Int) : ℚ)

/-- The method `#validateInterestParams`; on success it hands back the three finite values. -/
def validateInterestParams (rate years frequency : JSNumber) : Except JSError (ℚ × ℚ × ℚ) :=
  match rate with
  | .finite r =>
    if r < 0 || r > 1 then .error ⟨"Invalid interest rate"⟩
    else
      match years with
      | .finite y =>
        if y ≤ 0 then .error ⟨"Invalid number of years"⟩
        else
          match frequency with
          | .finite n =>
            if n.den ≠ 1 || n < 1 then .error ⟨"Invalid compounding frequency"⟩
            else .ok (r, y, n)
          | _ => .error ⟨"Invalid compounding frequency"⟩
      | _ => .error ⟨"Invalid number of years"⟩
  | _ => .error ⟨"Invalid interest rate"⟩

/-- The method `calculateCompoundInterest`.  `mathPow` is the library function `Math.pow`;
`compoundingFrequency` is `none` when the argument is left out. -/
def calculateCompoundInterest (mathPow : ℚ → ℚ → ℚ) (self : Account) (rate years : JSNumber)
    (compoundingFrequency : Option JSNumber) : Except JSError InterestResult × Account :=
  match validateInterestParams rate years (compoundingFrequency.getD (.finite 12)) with
  | .error e => (.error e, self)
  | .ok (r, y, n) =>
    let effectiveRate :=
      if self.balance ≥ interestSettings.highBalanceThreshold then
        r + interestSettings.bonusRate
      else r
    let finalAmount := self.balance * mathPow (1 + effectiveRate / n) (n * y)
    let interestEarned := mathRound ((finalAmount - self.balance) * 100) / 100
    (.ok ⟨self.balance, mathRound (finalAmount * 100) / 100, interestEarned, effectiveRate, y, n⟩,
      self)

/-! ## Statements -/

/-- The object `stats` of `#calculateStatistics`. -/
structure Statistics where
  totalDeposits : ℚ
  totalWithdrawals : ℚ
  largestDeposit : ℚ
  largestWithdrawal : ℚ
  averageTransaction : ℚ
  totalFees : ℚ
deriving DecidableEq

/-- The object returned by `getStatement`. -/
structure Statement where
  accountNumber : String
  owner : String
  currentBalance : ℚ
  status : AccountStatus
  transactions : List LogEntry
  createdAt : Int
  lastUpdated : Int
  interestRate : ℚ
  statistics : Statistics
deriving DecidableEq

/-- The method `#calculateCurrentInterestRate`. -/
def calculateCurrentInterestRate (self : Account) : ℚ :=
  if self.balance ≥ interestSettings.highBalanceThreshold then
    interestSettings.baseRate + interestSettings.bonusRate
  else interestSettings.baseRate

/-- The body of the `forEach` callback of `#calculateStatistics`. -/
def statisticsStep (stats : Statistics) (transaction : LogEntry) : Statistics :=
  let amount := |transaction.amount|
  match transaction.type with
  | .DEPOSIT =>
    { stats with
      totalDeposits := stats.totalDeposits + amount
      largestDeposit := max stats.largestDeposit amount }
  | .WITHDRAWAL =>
    { stats with
      totalWithdrawals := stats.totalWithdrawals + amount
      largestWithdrawal := max stats.largestWithdrawal amount }
  | .FEE => { stats with totalFees := stats.totalFees + amount }
  | .INTEREST => stats

/-- The method `#calculateStatistics`. -/
def calculateStatistics (transactions : List LogEntry) : Statistics :=
  let stats : Statistics := ⟨0, 0, 0, 0, 0, 0⟩
  if transactions.length = 0 then stats
  else
    let stats1 := transactions.foldl statisticsStep stats
    let totalAmount := transactions.foldl (fun sum t => sum + |t.amount|) 0
    { stats1 with averageTransaction := totalAmount / transactions.length }

/-- The method `getStatement`.  A bound is `none` when it is `null` or left out. -/
def getStatement (self : Account) (startDate endDate : Option Int) : Statement × Account :=
  let filteredTransactions :=
    if startDate.isSome || endDate.isSome then
      self.transactions.filter (fun transaction =>
        let transactionDate := transaction.date
        let afterStart := startDate.all (fun d => decide (transactionDate ≥ d))
        let beforeEnd := endDate.all (fun d => decide (transactionDate ≤ d))
        afterStart && beforeEnd)
    else self.transactions
  (⟨self.accountNumber, self.owner, self.balance, self.status, filteredTransactions,
      self.createdAt, self.lastUpdated, self.calculateCurrentInterestRate,
      calculateStatistics filteredTransactions⟩, self)

end Account

/-! ## Calls and reachable states -/

/-- One call of a mutating method of `Account`, with its arguments. -/
inductive Op where
  | deposit (now : Int) (stamp : Stamp) (amount : JSNumber) (description : Option String)
  | withdraw (now : Int) (feeStamp stamp : Stamp) (amount : JSNumber)
      (description : Option String)
  | freeze (stamp : Stamp) (reason : String)
  | unfreeze (stamp : Stamp) (reason : String)
  | close (stamp : Stamp) (reason : String)

/-- The outcome of a call: the error if it threw, and the account afterwards. -/
def Op.run (op : Op) (self : Account) : Except JSError Unit × Account :=
  match op with
  | .deposit now stamp amount description =>
    let r := self.deposit now stamp amount description
    (r.1.map (fun _ => ()), r.2)
  | .withdraw now feeStamp stamp amount description =>
    let r := self.withdraw now feeStamp stamp amount description
    (r.1.map (fun _ => ()), r.2)
  | .freeze stamp reason => self.freeze stamp reason
  | .unfreeze stamp reason => self.unfreeze stamp reason
  | .close stamp reason => self.close stamp reason

/-- Whether an outcome is a throw. -/
def failed {α : Type} (r : Except JSError α) : Bool :=
  match r with
  | .error _ => true
  | .ok _ => false

/-- The accounts produced by a successful constructor call followed by any calls. -/
inductive Reachable : Account → Prop where
  | create (createdAt lastUpdated : Int) (stamp : Stamp) (accountNumber owner : String)
      (initialBalance : Option JSNumber) (acc : Account)
      (h : Account.create createdAt lastUpdated stamp accountNumber owner initialBalance
        = .ok acc) : Reachable acc
  | step (op : Op) (s : Account) (h : Reachable s) : Reachable (op.run s).2

/-- The account after a sequence of calls, each made on what the call before it left. -/
def runAll (ops : List Op) (self : Account) : Account :=
  ops.foldl (fun s op => (op.run s).2) self

/-! ## Transactions (`transaction.js`) -/

/-- The enumeration `TransactionStatus`. -/
inductive TransactionStatus where
  | PENDING
  | COMPLETED
  | FAILED
  | CANCELLED
  | REVERSED
deriving DecidableEq, Repr

/-- The string value of a transaction status, as interpolated into error messages. -/
def TransactionStatus.value : TransactionStatus → String
  | .PENDING => "pending"
  | .COMPLETED => "completed"
  | .FAILED => "failed"
  | .CANCELLED => "cancelled"
  | .REVERSED => "reversed"

/-- A value kept under a key of `#metadata`: `null`, a string, a `Date`, or an object given
by its fields. -/
inductive MetaValue where
  | null
  | text (s : String)
  | date (t : Int)
  | record (fields : List (String × String))
deriving DecidableEq

/-- The object `#metadata`: its keys, in insertion order, with their values. -/
abbrev Metadata := List (String × MetaValue)

/-- The assignment `metadata[key] = value`: an existing key keeps its place. -/
def Metadata.set (m : Metadata) (key : String) (value : MetaValue) : Metadata :=
  if m.any (fun p => p.1 == key) then
    m.map (fun p => if p.1 == key then (key, value) else p)
  else m ++ [(key, value)]

/-- A value that is a string, `null` or `undefined`. -/
inductive OptString where
  | str (s : String)
  | null
  | undefined
deriving DecidableEq

/-- The value as an optional constructor argument: `null` and `undefined` both leave the
parameter without a string. -/
def OptString.toParam : OptString → Option String
  | .str s => some s
  | .null => none
  | .undefined => none

/-- The names every plain object inherits from `Object.prototype`; each holds a function or
an object, hence a truthy value. -/
def objectPrototypeKeys : List String :=
  ["constructor", "__defineGetter__", "__defineSetter__", "hasOwnProperty",
    "__lookupGetter__", "__lookupSetter__", "isPrototypeOf", "propertyIsEnumerable",
    "toString", "valueOf", "__proto__", "toLocaleString"]

/-- The table `CONFIG.TRANSACTION.TYPES` of `config.js`. -/
def CONFIG.TRANSACTION.TYPES : List (String × String) :=
  [("DEPOSIT", "deposit"), ("WITHDRAWAL", "withdrawal"), ("TRANSFER", "transfer"),
    ("INTEREST", "interest"), ("FEE", "fee")]

/-- The constant `CONFIG.TRANSACTION.MAX_AMOUNT` of `config.js`. -/
def CONFIG.TRANSACTION.MAX_AMOUNT : ℚ := 1000000

/-- The table `TransactionCategory` of `constants.js`. -/
def TransactionCategory : List (String × String) :=
  [("INCOME", "Income"), ("EXPENSE", "Expense"), ("TRANSFER", "Transfer"),
    ("INVESTMENT", "Investment"), ("SAVINGS", "Savings"), ("BILLS", "Bills")]

/-- Whether `table[key]` is truthy for a plain object with the given own string properties:
an own property is truthy when its string is not empty, and a name inherited from
`Object.prototype` is truthy. -/
def truthyAt (table : List (String × String)) (key : String) : Bool :=
  match table.lookup key with
  | some v => v != ""
  | none => objectPrototypeKeys.contains key

/-- The value of `table.NAME` where it is read as a string: `undefined` when the object has no
such own property. -/
def propertyOf (table : List (String × String)) (name : String) : OptString :=
  match table.lookup name with
  | some v => .str v
  | none => .undefined

/-- The argument object of the `Transaction` constructor; an optional field is `none` when
it is left out. -/
structure TransactionParams where
  type : String
  amount : JSNumber
  fromAccount : Option String
  toAccount : Option String
  description : Option String
  category : Option String
  metadata : Option Metadata

/-- What the constructor reads from outside: `Utils.generateId('TXN')`, `new Date()` and
the object built by `#getDeviceInfo()`. -/
structure TransactionEnv where
  id : String
  timestamp : Int
  deviceInfo : MetaValue

/-- The fields of a `Transaction` object. -/
structure Transaction where
  id : String
  timestamp : Int
  status : TransactionStatus
  metadata : Metadata
  type : String
  amount : ℚ
  fromAccount : String
  toAccount : Option String
  description : String
  category : OptString
deriving DecidableEq

namespace Transaction

/-- The method `#validateParams`; on success it hands back the finite amount and the source
account it checked. -/
def validateParams (type : String) (amount : JSNumber) (fromAccount : Option String) :
    Except JSError (ℚ × String) :=
  if type = "" || !truthyAt CONFIG.TRANSACTION.TYPES type then
    .error ⟨"Invalid transaction type"⟩
  else
    match amount with
    | .finite a =>
      if a ≤ 0 then .error ⟨"Invalid transaction amount"⟩
      else if a > CONFIG.TRANSACTION.MAX_AMOUNT then
        .error ⟨"Transaction amount exceeds maximum limit"⟩
      else
        match fromAccount with
        | some f => if f = "" then .error ⟨"Source account is required"⟩ else .ok (a, f)
        | none => .error ⟨"Source account is required"⟩
    | _ => .error ⟨"Invalid transaction amount"⟩

/-- The method `#determineCategory`. -/
def determineCategory (category : Option String) (type : String) : OptString :=
  match category.filter (fun c => c != "" && truthyAt TransactionCategory c) with
  | some c => .str c
  | none =>
    if some type = CONFIG.TRANSACTION.TYPES.lookup "DEPOSIT" then
      propertyOf TransactionCategory "INCOME"
    else if some type = CONFIG.TRANSACTION.TYPES.lookup "WITHDRAWAL" then
      propertyOf TransactionCategory "EXPENSE"
    else if some type = CONFIG.TRANSACTION.TYPES.lookup "TRANSFER" then
      propertyOf TransactionCategory "TRANSFER"
    else if some type = CONFIG.TRANSACTION.TYPES.lookup "INTEREST" then
      propertyOf TransactionCategory "INTEREST"
    else if some type = CONFIG.TRANSACTION.TYPES.lookup "FEE" then
      propertyOf TransactionCategory "FEE"
    else .null

/-- The constructor. -/
def create (env : TransactionEnv) (params : TransactionParams) : Except JSError Transaction :=
  match validateParams params.type params.amount params.fromAccount with
  | .error e => .error e
  | .ok (a, f) =>
    .ok
      { id := env.id
        timestamp := env.timestamp
        status := TransactionStatus.PENDING
        type := params.type
        amount := a
        fromAccount := f
        toAccount := params.toAccount
        description := params.description.getD ""
        category := determineCategory params.category params.type
        metadata :=
          (Metadata.set (params.metadata.getD []) "deviceInfo" env.deviceInfo).set
            "location" MetaValue.null }

/-- The method `complete`.  `result` is `none` when the argument is left out. -/
def complete (self : Transaction) (now : Int) (result : Option MetaValue) :
    Except JSError Bool × Transaction :=
  if self.status ≠ TransactionStatus.PENDING then
    (.error ⟨"Transaction cannot be completed. Current status: " ++ self.status.value⟩, self)
  else
    let s1 := { self with status := TransactionStatus.COMPLETED }
    let s2 := { s1 with metadata := s1.metadata.set "completedAt" (.date now) }
    let s3 := { s2 with metadata := s2.metadata.set "result" (result.getD (.record [])) }
    (.ok true, s3)

/-- The method `fail`.  `details` is `none` when the argument is left out. -/
def fail (self : Transaction) (now : Int) (reason : String) (details : Option MetaValue) :
    Except JSError Unit × Transaction :=
  if self.status ≠ TransactionStatus.PENDING then
    (.error ⟨"Transaction cannot be failed. Current status: " ++ self.status.value⟩, self)
  else
    let s1 := { self with status := TransactionStatus.FAILED }
    let s2 := { s1 with metadata := s1.metadata.set "failedAt" (.date now) }
    let s3 := { s2 with metadata := s2.metadata.set "failureReason" (.text reason) }
    let s4 :=
      { s3 with metadata := s3.metadata.set "failureDetails" (details.getD (.record [])) }
    (.ok (), s4)

/-- The method `cancel`. -/
def cancel (self : Transaction) (now : Int) (reason : String) :
    Except JSError Unit × Transaction :=
  if self.status ≠ TransactionStatus.PENDING then
    (.error ⟨"Transaction cannot be cancelled. Current status: " ++ self.status.value⟩, self)
  else
    let s1 := { self with status := TransactionStatus.CANCELLED }
    let s2 := { s1 with metadata := s1.metadata.set "cancelledAt" (.date now) }
    let s3 := { s2 with metadata := s2.metadata.set "cancellationReason" (.text reason) }
    (.ok (), s3)

/-- The method `reverse`: the new transaction, or the error of the guard or of the nested
constructor call, and this transaction as the call left it.  `env` is what the nested
constructor call reads. -/
def reverse (self : Transaction) (now : Int) (env : TransactionEnv) (reason : String) :
    Except JSError Transaction × Transaction :=
  if self.status ≠ TransactionStatus.COMPLETED then
    (.error ⟨"Transaction cannot be reversed. Current status: " ++ self.status.value⟩, self)
  else
    let s1 := { self with status := TransactionStatus.REVERSED }
    let s2 := { s1 with metadata := s1.metadata.set "reversedAt" (.date now) }
    let s3 := { s2 with metadata := s2.metadata.set "reversalReason" (.text reason) }
    (create env
      { type := "REVERSAL_" ++ s3.type
        amount := .finite s3.amount
        fromAccount :=
          some (match s3.toAccount with
            | some t => if t = "" then s3.fromAccount else t
            | none => s3.fromAccount)
        toAccount := some s3.fromAccount
        description := some ("Reversal: " ++ s3.description ++ " - " ++ reason)
        category := s3.category.toParam
        metadata := some [("originalTransaction", .text s3.id), ("reversalReason", .text reason)] },
      s3)

end Transaction

/-! ## Financial formulas (`utils.js`) -/

/-- The infinity or `NaN` with the sign of `s`: `Infinity` for a positive `s`, `-Infinity`
for a negative one, `NaN` for zero. -/
def infOfSign (s : ℚ) : JSNumber :=
  if s > 0 then .posInf else if s < 0 then .negInf else .nan

/-- The sign of a number that is not `NaN`, as a finite value; `NaN` is given 0. -/
def JSNumber.signum : JSNumber → ℚ
  | .finite x => x
  | .posInf => 1
  | .negInf => -1
  | .nan => 0

/-- The operator `-` with one operand. -/
def jsNeg : JSNumber → JSNumber
  | .finite x => .finite (-x)
  | .nan => .nan
  | .posInf => .negInf
  | .negInf => .posInf

/-- The operator `+` on numbers. -/
def jsAdd : JSNumber → JSNumber → JSNumber
  | .finite x, .finite y => .finite (x + y)
  | .nan, _ => .nan
  | _, .nan => .nan
  | .posInf, .negInf => .nan
  | .negInf, .posInf => .nan
  | .posInf, _ => .posInf
  | _, .posInf => .posInf
  | .negInf, _ => .negInf
  | _, .negInf => .negInf

/-- The operator `-` with two operands. -/
def jsSub (a b : JSNumber) : JSNumber :=
  jsAdd a (jsNeg b)

/-- The operator `*` on numbers. -/
def jsMul : JSNumber → JSNumber → JSNumber
  | .finite x, .finite y => .finite (x * y)
  | .nan, _ => .nan
  | _, .nan => .nan
  | a, b => infOfSign (a.signum * b.signum)

/-- The operator `/` on finite numbers: a division by zero gives `NaN` for `0 / 0` and an
infinity with the sign of the dividend otherwise. -/
def jsDiv (x y : ℚ) : JSNumber :=
  if y = 0 then infOfSign x else .finite (x / y)

/-- The function `Math.max` of two numbers. -/
def mathMax : JSNumber → JSNumber → JSNumber
  | .nan, _ => .nan
  | _, .nan => .nan
  | .posInf, _ => .posInf
  | _, .posInf => .posInf
  | .negInf, b => b
  | a, .negInf => a
  | .finite x, .finite y => .finite (max x y)

/-- One element of the array returned by `calculateAmortizationSchedule`. -/
structure ScheduleRow where
  payment : Nat
  monthlyPayment : JSNumber
  principal : JSNumber
  interest : JSNumber
  balance : JSNumber
deriving DecidableEq

namespace Utils

/-- The function `Utils.calculateLoanPayment` on finite arguments.  `mathPow` is the library
function `Math.pow`, taken to return finite values. -/
def calculateLoanPayment (mathPow : ℚ → ℚ → ℚ) (principal rate years : ℚ) : JSNumber :=
  let monthlyRate := rate / 12
  let numberOfPayments := years * 12
  jsDiv (principal * monthlyRate * mathPow (1 + monthlyRate) numberOfPayments)
    (mathPow (1 + monthlyRate) numberOfPayments - 1)

/-- The `for` loop of `calculateAmortizationSchedule` with `remaining` iterations to go,
the next of them with counter `i`. -/
def scheduleLoop (monthlyRate : ℚ) (monthlyPayment : JSNumber) :
    (remaining : Nat) → (i : Nat) → (balance : JSNumber) → (schedule : List ScheduleRow) →
      List ScheduleRow
  | 0, _, _, schedule => schedule
  | remaining + 1, i, balance, schedule =>
    let interest := jsMul balance (.finite monthlyRate)
    let principal := jsSub monthlyPayment interest
    let balance1 := jsSub balance principal
    scheduleLoop monthlyRate monthlyPayment remaining (i + 1) balance1
      (schedule ++ [⟨i, monthlyPayment, principal, interest, mathMax (.finite 0) balance1⟩])

/-- The function `Utils.calculateAmortizationSchedule` on finite arguments.  The loop
`for (let i = 1; i <= numberOfPayments; i++)` makes `⌊numberOfPayments⌋` iterations, none
when that is below 1. -/
def calculateAmortizationSchedule (mathPow : ℚ → ℚ → ℚ) (principal rate years : ℚ) :
    List ScheduleRow :=
  let monthlyRate := rate / 12
  let numberOfPayments := years * 12
  let monthlyPayment := calculateLoanPayment mathPow principal rate years
  scheduleLoop monthlyRate monthlyPayment ⌊numberOfPayments⌋.toNat 1 (.finite principal) []

/-- The running balance of a schedule as the specification words it: it starts at the
principal and each row takes its principal portion, the payment less the interest on the
balance before the row. -/
def runningBalance (monthlyRate : ℚ) (monthlyPayment : JSNumber) (principal : ℚ) :
    Nat → JSNumber
  | 0 => .finite principal
  | j + 1 =>
    jsSub (runningBalance monthlyRate monthlyPayment principal j)
      (jsSub monthlyPayment
        (jsMul (runningBalance monthlyRate monthlyPayment principal j) (.finite monthlyRate)))

end Utils

/-! ## Binary64 arithmetic

The numbers of the program are IEEE 754 doubles, and each operator rounds its exact result
to the nearest double, ties to the even one.  The definitions above leave that rounding out.
This section has it: `Binary64.toDouble` is the rounding, and the methods below are the
methods of `account.js` and `utils.js` once more, with every operator rounded.  Finite values
are still carried as rationals; the values the program can hold are those `toDouble` leaves
alone.  The two zeros are not told apart. -/

namespace Binary64

/-- The number of binary digits of `n`.  `fuel` bounds the recursion; `n` itself is enough. -/
def bitLength : (fuel : Nat) → Nat → Nat
  | 0, _ => 0
  | fuel + 1, n => if n = 0 then 0 else bitLength fuel (n / 2) + 1

/-- The power `2 ^ k` for an integer `k`. -/
def pow2 (k : Int) : ℚ :=
  if 0 ≤ k then ((2 ^ k.toNat : ℕ) : ℚ) else 1 / ((2 ^ (-k).toNat : ℕ) : ℚ)

/-- The integer nearest to `x`; the even one of the two when `x` lies half-way. -/
def roundHalfEven (x : ℚ) : Int :=
  let f := ⌊x⌋
  if x - f < 1 / 2 then f
  else if x - f > 1 / 2 then f + 1
  else if f % 2 = 0 then f else f + 1

/-- The binary exponent of a non-zero `x`: the `k` with `2 ^ k ≤ |x| < 2 ^ (k + 1)`. -/
def exponent (x : ℚ) : Int :=
  let k : Int := (bitLength x.num.natAbs x.num.natAbs : Int) - (bitLength x.den x.den : Int)
  if pow2 k ≤ |x| then k else k - 1

/-- The double nearest to `x`, which is also the value of a numeric literal written as `x`.
A double has 53 significant binary digits and no digit below `2 ^ (-1074)`; a rounded
magnitude of `2 ^ 1024` or more is an infinity. -/
def toDouble (x : ℚ) : JSNumber :=
  if x = 0 then .finite 0
  else
    let e := max (exponent x - 52) (-1074)
    let y := (roundHalfEven (|x| / pow2 e) : ℚ) * pow2 e
    if pow2 1024 ≤ y then infOfSign x
    else .finite (if x < 0 then -y else y)

/-- The rounding of an exact result. -/
def rounded : JSNumber → JSNumber
  | .finite q => toDouble q
  | a => a

/-- The operator `+` on doubles. -/
def add (a b : JSNumber) : JSNumber :=
  rounded (jsAdd a b)

/-- The operator `-` on doubles. -/
def sub (a b : JSNumber) : JSNumber :=
  rounded (jsSub a b)

/-- The operator `*` on doubles. -/
def mul (a b : JSNumber) : JSNumber :=
  rounded (jsMul a b)

/-- The operator `/` on doubles.  A zero divisor counts as `+0`. -/
def div : JSNumber → JSNumber → JSNumber
  | .finite x, .finite y => rounded (jsDiv x y)
  | .nan, _ => .nan
  | _, .nan => .nan
  | .finite _, _ => .finite 0
  | a, .finite y => if y < 0 then jsNeg a else a
  | _, _ => .nan

/-- The operator `<` on numbers; a comparison with `NaN` is false. -/
def lt : JSNumber → JSNumber → Bool
  | .finite x, .finite y => decide (x < y)
  | .nan, _ => false
  | _, .nan => false
  | .negInf, .negInf => false
  | .negInf, _ => true
  | .posInf, _ => false
  | .finite _, .posInf => true
  | .finite _, .negInf => false

/-- The operator `<=` on numbers; a comparison with `NaN` is false. -/
def le (a b : JSNumber) : Bool :=
  a ≠ .nan && b ≠ .nan && !lt b a

/-- The function `Math.round`.  On a double the result is a double. -/
def mathRound : JSNumber → JSNumber
  | .finite x => .finite (Banking.Account.mathRound x)
  | a => a

/-- One record of the private array `#transactions`.  An amount is a validated argument, its
negation, a fee or 0, so it is finite. -/
structure LogEntry where
  id : String
  type : TransactionType
  amount : ℚ
  description : String
  date : Int
  balanceAfter : JSNumber
deriving DecidableEq

/-- The fields of an `Account` object that change or identify it. -/
structure Account where
  accountNumber : String
  owner : String
  balance : JSNumber
  transactions : List LogEntry
  status : AccountStatus
  createdAt : Int
  lastUpdated : Int
deriving DecidableEq

/-- The object returned by a successful `deposit` or `withdraw`. -/
structure TxResult where
  success : Bool
  transaction : LogEntry
  newBalance : JSNumber
deriving DecidableEq

/-- The object returned by `calculateCompoundInterest`. -/
structure InterestResult where
  initialBalance : JSNumber
  finalAmount : JSNumber
  interestEarned : JSNumber
  effectiveRate : JSNumber
  years : ℚ
  compoundingFrequency : ℚ
deriving DecidableEq

/-- The object `stats` of `#calculateStatistics`. -/
structure Statistics where
  totalDeposits : JSNumber
  totalWithdrawals : JSNumber
  largestDeposit : JSNumber
  largestWithdrawal : JSNumber
  averageTransaction : JSNumber
  totalFees : JSNumber
deriving DecidableEq

/-- The object returned by `getStatement`. -/
structure Statement where
  accountNumber : String
  owner : String
  currentBalance : JSNumber
  status : AccountStatus
  transactions : List LogEntry
  createdAt : Int
  lastUpdated : Int
  interestRate : JSNumber
  statistics : Statistics
deriving DecidableEq

namespace Account

/-- The method `#validateSufficientFunds`. -/
def validateSufficientFunds (self : Account) (amount : ℚ) : Except JSError Unit :=
  if lt self.balance (.finite amount) then .error ⟨"Insufficient funds"⟩ else .ok ()

/-- The method `#validateAccountStatus`. -/
def validateAccountStatus (self : Account) : Except JSError Unit :=
  if self.status ≠ AccountStatus.ACTIVE then
    .error ⟨"Account is " ++ self.status.value⟩
  else
    .ok ()

/-- The method `#recordTransaction`: the new record and the account with it pushed. -/
def recordTransaction (self : Account) (stamp : Stamp) (type : TransactionType)
    (amount : ℚ) (description : String) : LogEntry × Account :=
  let transaction : LogEntry :=
    ⟨stamp.id, type, amount, description, stamp.date, self.balance⟩
  (transaction, { self with transactions := self.transactions ++ [transaction] })

/-- The method `#applyFee`. -/
def applyFee (self : Account) (stamp : Stamp) (description : String) (amount : ℚ) : Account :=
  let s1 := { self with balance := sub self.balance (.finite amount) }
  (s1.recordTransaction stamp TransactionType.FEE (-amount) description).2

/-- The constructor.  `initialBalance` is `none` when the argument is left out. -/
def create (createdAt lastUpdated : Int) (stamp : Stamp) (accountNumber owner : String)
    (initialBalance : Option JSNumber) : Except JSError Account :=
  match Banking.Account.validateAccountNumber accountNumber with
  | .error e => .error e
  | .ok _ =>
  match Banking.Account.validateOwner owner with
  | .error e => .error e
  | .ok _ =>
  match Banking.Account.validateAmount (initialBalance.getD (.finite 0)) with
  | .error e => .error e
  | .ok a =>
    let s : Account :=
      ⟨accountNumber, owner, .finite (max 0 a), [], AccountStatus.ACTIVE, createdAt,
        lastUpdated⟩
    if a > 0 then
      .ok (s.recordTransaction stamp TransactionType.DEPOSIT a "Initial deposit").2
    else
      .ok s

/-- The method `deposit`.  `description` is `none` when the argument is left out. -/
def deposit (self : Account) (now : Int) (stamp : Stamp) (amount : JSNumber)
    (description : Option String) : Except JSError TxResult × Account :=
  match self.validateAccountStatus with
  | .error e => (.error e, self)
  | .ok _ =>
  match Banking.Account.validateAmount amount with
  | .error e => (.error e, self)
  | .ok a =>
    let s1 := { self with balance := add self.balance (.finite a) }
    let s2 := { s1 with lastUpdated := now }
    let r := s2.recordTransaction stamp TransactionType.DEPOSIT a (description.getD "Deposit")
    (.ok ⟨true, r.1, r.2.balance⟩, r.2)

/-- The method `withdraw`.  `feeStamp` is read only when the fee is charged. -/
def withdraw (self : Account) (now : Int) (feeStamp stamp : Stamp) (amount : JSNumber)
    (description : Option String) : Except JSError TxResult × Account :=
  match self.validateAccountStatus with
  | .error e => (.error e, self)
  | .ok _ =>
  match Banking.Account.validateAmount amount with
  | .error e => (.error e, self)
  | .ok a =>
  match self.validateSufficientFunds a with
  | .error e => (.error e, self)
  | .ok _ =>
    let s1 := { self with balance := sub self.balance (.finite a) }
    let s2 := { s1 with lastUpdated := now }
    let s3 :=
      if lt s2.balance (.finite fees.minimumBalance) then
        s2.applyFee feeStamp "Overdraft fee" fees.overdraft
      else s2
    let r := s3.recordTransaction stamp TransactionType.WITHDRAWAL (-a)
      (description.getD "Withdrawal")
    (.ok ⟨true, r.1, r.2.balance⟩, r.2)

/-- The method `calculateCompoundInterest`.  `mathPow` is the library function `Math.pow`;
`compoundingFrequency` is `none` when the argument is left out. -/
def calculateCompoundInterest (mathPow : JSNumber → JSNumber → JSNumber) (self : Account)
    (rate years : JSNumber) (compoundingFrequency : Option JSNumber) :
    Except JSError InterestResult × Account :=
  match Banking.Account.validateInterestParams rate years
    (compoundingFrequency.getD (.finite 12)) with
  | .error e => (.error e, self)
  | .ok (r, y, n) =>
    let effectiveRate :=
      if le (.finite interestSettings.highBalanceThreshold) self.balance then
        add (.finite r) (toDouble interestSettings.bonusRate)
      else .finite r
    let finalAmount := mul self.balance
      (mathPow (add (.finite 1) (div effectiveRate (.finite n))) (mul (.finite n) (.finite y)))
    let interestEarned :=
      div (mathRound (mul (sub finalAmount self.balance) (.finite 100))) (.finite 100)
    (.ok ⟨self.balance, div (mathRound (mul finalAmount (.finite 100))) (.finite 100),
      interestEarned, effectiveRate, y, n⟩, self)

/-- The method `#calculateCurrentInterestRate`. -/
def calculateCurrentInterestRate (self : Account) : JSNumber :=
  if le (.finite interestSettings.highBalanceThreshold) self.balance then
    add (toDouble interestSettings.baseRate) (toDouble interestSettings.bonusRate)
  else toDouble interestSettings.baseRate

/-- The body of the `forEach` callback of `#calculateStatistics`. -/
def statisticsStep (stats : Statistics) (transaction : LogEntry) : Statistics :=
  let amount : JSNumber := .finite |transaction.amount|
  match transaction.type with
  | .DEPOSIT =>
    { stats with
      totalDeposits := add stats.totalDeposits amount
      largestDeposit := mathMax stats.largestDeposit amount }
  | .WITHDRAWAL =>
    { stats with
      totalWithdrawals := add stats.totalWithdrawals amount
      largestWithdrawal := mathMax stats.largestWithdrawal amount }
  | .FEE => { stats with totalFees := add stats.totalFees amount }
  | .INTEREST => stats

/-- The method `#calculateStatistics`. -/
def calculateStatistics (transactions : List LogEntry) : Statistics :=
  let stats : Statistics := ⟨.finite 0, .finite 0, .finite 0, .finite 0, .finite 0, .finite 0⟩
  if transactions.length = 0 then stats
  else
    let stats1 := transactions.foldl statisticsStep stats
    let totalAmount := transactions.foldl (fun sum t => add sum (.finite |t.amount|)) (.finite 0)
    { stats1 with averageTransaction := div totalAmount (.finite transactions.length) }

/-- The method `getStatement`.  A bound is `none` when it is `null` or left out. -/
def getStatement (self : Account) (startDate endDate : Option Int) : Statement × Account :=
  let filteredTransactions :=
    if startDate.isSome || endDate.isSome then
      self.transactions.filter (fun transaction =>
        let transactionDate := transaction.date
        let afterStart := startDate.all (fun d => decide (transactionDate ≥ d))
        let beforeEnd := endDate.all (fun d => decide (transactionDate ≤ d))
        afterStart && beforeEnd)
    else self.transactions
  (⟨self.accountNumber, self.owner, self.balance, self.status, filteredTransactions,
      self.createdAt, self.lastUpdated, self.calculateCurrentInterestRate,
      calculateStatistics filteredTransactions⟩, self)

end Account

namespace Utils

/-- The function `Utils.calculateLoanPayment`.  `mathPow` is the library function
`Math.pow`. -/
def calculateLoanPayment (mathPow : JSNumber → JSNumber → JSNumber)
    (principal rate years : JSNumber) : JSNumber :=
  let monthlyRate := div rate (.finite 12)
  let numberOfPayments := mul years (.finite 12)
  div (mul (mul principal monthlyRate) (mathPow (add (.finite 1) monthlyRate) numberOfPayments))
    (sub (mathPow (add (.finite 1) monthlyRate) numberOfPayments) (.finite 1))

end Utils

end Binary64

end Banking

/-! ## The book library (`src/exploring_javascript_objects`)

`book.js` and the list operations of `library.js`.  The library's event listeners and its
copy in `localStorage` are left out: no operation modelled here reads them.  `parseInt`,
`localeCompare` and the time value of a date string are library functions and are
arguments of the definitions that call them; `parseInt` gives `NaN` (`none`) or a whole
number. -/

namespace Books

open Banking

/-- An argument value: a string, a number, or a value of any other type. -/
inductive JSValue where
  | str (s : String)
  | num (n : JSNumber)
  | other

/-- The fields of a `Book` object. -/
structure Book where
  id : String
  title : String
  author : String
  pages : Int
  dateAdded : String
  category : String
  lastModified : String
deriving DecidableEq

/-- What the constructor reads from outside: `#generateId()` and
`new Date().toISOString()`. -/
structure BookEnv where
  id : String
  now : String

/-- The object returned by `toJSON`. -/
structure BookJSON where
  id : String
  title : String
  author : String
  pages : Int
  dateAdded : String
  lastModified : String
  category : String
deriving DecidableEq

/-- The replacement `replace(/\s+/g, ' ')` on the characters of a string; `afterSpace` tells
that the character before was white space, already replaced. -/
def collapseSpaces : (afterSpace : Bool) → List Char → List Char
  | _, [] => []
  | afterSpace, c :: cs =>
    if isJSWhiteSpace c then
      if afterSpace then collapseSpaces true cs else Char.ofNat 32 :: collapseSpaces true cs
    else c :: collapseSpaces false cs

namespace Book

/-- The method `#validateAndFormat`. -/
def validateAndFormat (value : JSValue) (field : String) : Except JSError String :=
  match value with
  | .str s =>
    if s = "" then .error ⟨"Invalid " ++ field ++ ": must be a non-empty string"⟩
    else .ok ⟨collapseSpaces false (jsTrim s).data⟩
  | _ => .error ⟨"Invalid " ++ field ++ ": must be a non-empty string"⟩

/-- The method `#validatePages`. -/
def validatePages (parseInt : JSValue → Option Int) (pages : JSValue) : Except JSError Int :=
  match parseInt pages with
  | none => .error ⟨"Pages must be a positive number"⟩
  | some pageCount =>
    if pageCount ≤ 0 then .error ⟨"Pages must be a positive number"⟩ else .ok pageCount

/-- The method `#categorizeBook`, on the page count of the book. -/
def categorizeBook (pages : Int) : String :=
  if pages < 100 then "short"
  else if pages < 300 then "medium"
  else "long"

/-- The constructor. -/
def create (parseInt : JSValue → Option Int) (env : BookEnv) (title author pages : JSValue) :
    Except JSError Book :=
  match validateAndFormat title "title" with
  | .error e => .error e
  | .ok t =>
  match validateAndFormat author "author" with
  | .error e => .error e
  | .ok a =>
  match validatePages parseInt pages with
  | .error e => .error e
  | .ok p => .ok ⟨env.id, t, a, p, env.now, categorizeBook p, env.now⟩

/-- The loop of `update` over the entries of `updates`: the error of the first entry that
fails, and the book with the entries before it applied. -/
def updateLoop (parseInt : JSValue → Option Int) :
    List (String × JSValue) → Book → Except JSError Unit × Book
  | [], self => (.ok (), self)
  | (key, value) :: rest, self =>
    if key = "title" then
      match validateAndFormat value key with
      | .error e => (.error e, self)
      | .ok t => updateLoop parseInt rest { self with title := t }
    else if key = "author" then
      match validateAndFormat value key with
      | .error e => (.error e, self)
      | .ok a => updateLoop parseInt rest { self with author := a }
    else if key = "pages" then
      match validatePages parseInt value with
      | .error e => (.error e, self)
      | .ok p => updateLoop parseInt rest { self with pages := p, category := categorizeBook p }
    else updateLoop parseInt rest self

/-- The method `update`; `updates` is `Object.entries(updates)` and `now` is
`new Date().toISOString()`. -/
def update (parseInt : JSValue → Option Int) (self : Book) (updates : List (String × JSValue))
    (now : String) : Except JSError Unit × Book :=
  match updateLoop parseInt updates self with
  | (.error e, s) => (.error e, s)
  | (.ok _, s) => (.ok (), { s with lastModified := now })

/-- The method `toJSON`. -/
def toJSON (self : Book) : BookJSON :=
  ⟨self.id, self.title, self.author, self.pages, self.dateAdded, self.lastModified,
    self.category⟩

/-- The static method `fromJSON`, on an object as `toJSON` builds it. -/
def fromJSON (parseInt : JSValue → Option Int) (env : BookEnv) (json : BookJSON) :
    Except JSError Book :=
  match create parseInt env (.str json.title) (.str json.author)
      (.num (.finite (json.pages : ℚ))) with
  | .error e => .error e
  | .ok book =>
    .ok { book with id := json.id, dateAdded := json.dateAdded, lastModified := json.lastModified }

/-- The books a constructor call followed by `update` calls can give; an `update` call that
throws leaves the book with the entries before the failing one applied. -/
inductive Reachable (parseInt : JSValue → Option Int) : Book → Prop where
  | create (env : BookEnv) (title author pages : JSValue) (b : Book)
      (h : Book.create parseInt env title author pages = .ok b) : Reachable parseInt b
  | update (b : Book) (updates : List (String × JSValue)) (now : String)
      (h : Reachable parseInt b) : Reachable parseInt (b.update parseInt updates now).2

end Book

/-- The field `books` of a `Library` object. -/
structure Library where
  books : List Book
deriving DecidableEq

/-- A comparison function as `Array.prototype.sort` sees it: a function giving a number for
two books, a function that throws when called, or a value that is no function. -/
inductive Sorter where
  | compare (f : Book → Book → JSNumber)
  | throwing
  | notCallable

/-- Whether a comparison result puts the first book after the second: a number above 0.
`NaN` counts as 0. -/
def isPositive : JSNumber → Bool
  | .finite q => decide (0 < q)
  | .posInf => true
  | .negInf => false
  | .nan => false

/-- The object returned by `getStatistics`, with its `categories` laid out flat. -/
structure LibraryStatistics where
  totalBooks : Nat
  averagePages : JSNumber
  short : Nat
  medium : Nat
  long : Nat
  authors : Nat

namespace Library

/-- The method `removeBook`. -/
def removeBook (self : Library) (bookId : String) : Bool × Library :=
  let initialLength := self.books.length
  let s1 : Library := { self with books := self.books.filter (fun book => book.id ≠ bookId) }
  if s1.books.length ≠ initialLength then (true, s1) else (false, s1)

/-- The method `getBooksByCategory`. -/
def getBooksByCategory (self : Library) (category : String) : List Book :=
  self.books.filter (fun book => book.category = category)

/-- The value `sorters[criteria] || sorters.title`.  The object `sorters` has the five own
properties; any other name is looked up in `Object.prototype`, where `toString` and
`constructor` are functions that give a value converting to `NaN`, `__proto__` is an object
and no function, and the other names are functions that throw when called without a `this`;
a name found nowhere falls back to the title comparison. -/
def sorterFor (localeCompare : String → String → Int) (dateTime : String → JSNumber)
    (criteria : String) : Sorter :=
  if criteria = "title" then .compare (fun a b => .finite (localeCompare a.title b.title))
  else if criteria = "author" then
    .compare (fun a b => .finite (localeCompare a.author b.author))
  else if criteria = "pages" then .compare (fun a b => .finite ((a.pages : ℚ) - b.pages))
  else if criteria = "date" then
    .compare (fun a b => jsSub (dateTime b.dateAdded) (dateTime a.dateAdded))
  else if criteria = "category" then
    .compare (fun a b => .finite (localeCompare a.category b.category))
  else if criteria = "toString" || criteria = "constructor" then .compare (fun _ _ => .nan)
  else if criteria = "__proto__" then .notCallable
  else if objectPrototypeKeys.contains criteria then .throwing
  else .compare (fun a b => .finite (localeCompare a.title b.title))

/-- The method `sortBooks`.  `Array.prototype.sort` is stable; it is the insertion sort that
puts a book before the first one it does not come after, which is what every stable sort
gives when the comparison function orders the books consistently.  A comparison function that is no
function makes `sort` throw at once, one that throws does so at the first comparison, which
two books or more bring about. -/
def sortBooks (localeCompare : String → String → Int) (dateTime : String → JSNumber)
    (self : Library) (criteria : String) : Except JSError (List Book) × Library :=
  match sorterFor localeCompare dateTime criteria with
  | .compare f => (.ok (self.books.insertionSort (fun a b => isPositive (f a b) = false)), self)
  | .throwing =>
    if self.books.length < 2 then (.ok self.books, self)
    else (.error ⟨"TypeError"⟩, self)
  | .notCallable => (.error ⟨"TypeError"⟩, self)

/-- The method `getStatistics`. -/
def getStatistics (self : Library) : LibraryStatistics :=
  { totalBooks := self.books.length
    averagePages :=
      match jsDiv ((self.books.foldl (fun sum book => sum + book.pages) (0 : Int) : Int) : ℚ)
          (self.books.length : ℚ) with
      | .finite q => .finite (Account.mathRound q)
      | x => x
    short := (self.getBooksByCategory "short").length
    medium := (self.getBooksByCategory "medium").length
    long := (self.getBooksByCategory "long").length
    authors := (self.books.map (fun book => book.author)).dedup.length }

end Library

end Books

namespace Banking

/-! ## What a call can do to the account -/

/-- A `deposit` call either throws and leaves the account as it was, or adds a non-negative
amount and records one entry carrying the new balance. -/
lemma deposit_outcome (self : Account) (now : Int) (stamp : Stamp) (amount : JSNumber)
    (description : Option String) :
    (failed (self.deposit now stamp amount description).1 = true ∧
        (self.deposit now stamp amount description).2 = self) ∨
      ∃ a : ℚ, 0 ≤ a ∧ amount = .finite a ∧ self.status = AccountStatus.ACTIVE ∧
        failed (self.deposit now stamp amount description).1 = false ∧
        (self.deposit now stamp amount description).2 =
          { self with
            balance := self.balance + a
            lastUpdated := now
            transactions := self.transactions ++
              [⟨stamp.id, .DEPOSIT, a, description.getD "Deposit", stamp.date,
                self.balance + a⟩] } := by
  by_cases hs : self.status = AccountStatus.ACTIVE
  · cases amount with
    | finite a =>
      by_cases ha : a < 0
      · left
        simp [Account.deposit, Account.validateAccountStatus, hs, Account.validateAmount, ha,
          failed]
      · right
        refine ⟨a, not_lt.mp ha, rfl, hs, ?_, ?_⟩ <;>
          simp [Account.deposit, Account.validateAccountStatus, hs, Account.validateAmount, ha,
            failed, Account.recordTransaction]
    | nan => left; simp [Account.deposit, Account.validateAccountStatus, hs,
        Account.validateAmount, failed]
    | posInf => left; simp [Account.deposit, Account.validateAccountStatus, hs,
        Account.validateAmount, failed]
    | negInf => left; simp [Account.deposit, Account.validateAccountStatus, hs,
        Account.validateAmount, failed]
  · left
    simp [Account.deposit, Account.validateAccountStatus, hs, failed]

/-- A `withdraw` call either throws and leaves the account as it was, or takes an amount
between zero and the balance, charges the fee when less than 500 is left, and records the
fee entry (if any) and then the withdrawal entry, both carrying the final balance. -/
lemma withdraw_outcome (self : Account) (now : Int) (feeStamp stamp : Stamp)
    (amount : JSNumber) (description : Option String) :
    (failed (self.withdraw now feeStamp stamp amount description).1 = true ∧
        (self.withdraw now feeStamp stamp amount description).2 = self) ∨
      ∃ a : ℚ, 0 ≤ a ∧ a ≤ self.balance ∧ amount = .finite a ∧
        self.status = AccountStatus.ACTIVE ∧
        failed (self.withdraw now feeStamp stamp amount description).1 = false ∧
        ((500 ≤ self.balance - a ∧
            (self.withdraw now feeStamp stamp amount description).2 =
              { self with
                balance := self.balance - a
                lastUpdated := now
                transactions := self.transactions ++
                  [⟨stamp.id, .WITHDRAWAL, -a, description.getD "Withdrawal", stamp.date,
                    self.balance - a⟩] }) ∨
          (self.balance - a < 500 ∧
            (self.withdraw now feeStamp stamp amount description).2 =
              { self with
                balance := self.balance - a - 35
                lastUpdated := now
                transactions := self.transactions ++
                  [⟨feeStamp.id, .FEE, -35, "Overdraft fee", feeStamp.date,
                      self.balance - a - 35⟩,
                    ⟨stamp.id, .WITHDRAWAL, -a, description.getD "Withdrawal", stamp.date,
                      self.balance - a - 35⟩] })) := by
  by_cases hs : self.status = AccountStatus.ACTIVE
  · cases amount with
    | finite a =>
      by_cases ha : a < 0
      · left
        simp [Account.withdraw, Account.validateAccountStatus, hs, Account.validateAmount, ha,
          failed]
      · by_cases hab : self.balance < a
        · left
          simp [Account.withdraw, Account.validateAccountStatus, hs, Account.validateAmount, ha,
            Account.validateSufficientFunds, hab, failed]
        · right
          refine ⟨a, not_lt.mp ha, not_lt.mp hab, rfl, hs, ?_, ?_⟩
          · simp [Account.withdraw, Account.validateAccountStatus, hs, Account.validateAmount,
              ha, Account.validateSufficientFunds, hab, failed]
          · by_cases hf : self.balance - a < 500
            · right
              refine ⟨hf, ?_⟩
              simp [Account.withdraw, Account.validateAccountStatus, hs, Account.validateAmount,
                ha, Account.validateSufficientFunds, hab, fees, hf, Account.recordTransaction,
                Account.applyFee]
            · left
              refine ⟨not_lt.mp hf, ?_⟩
              simp [Account.withdraw, Account.validateAccountStatus, hs, Account.validateAmount,
                ha, Account.validateSufficientFunds, hab, fees, hf, Account.recordTransaction]
    | nan => left; simp [Account.withdraw, Account.validateAccountStatus, hs,
        Account.validateAmount, failed]
    | posInf => left; simp [Account.withdraw, Account.validateAccountStatus, hs,
        Account.validateAmount, failed]
    | negInf => left; simp [Account.withdraw, Account.validateAccountStatus, hs,
        Account.validateAmount, failed]
  · left
    simp [Account.withdraw, Account.validateAccountStatus, hs, failed]

/-- A `freeze` call either throws and leaves the account as it was, or sets the status and
records one zero-amount entry carrying the balance. -/
lemma freeze_outcome (self : Account) (stamp : Stamp) (reason : String) :
    (failed (self.freeze stamp reason).1 = true ∧ (self.freeze stamp reason).2 = self) ∨
      (failed (self.freeze stamp reason).1 = false ∧
        (self.freeze stamp reason).2 =
          { self with
            status := AccountStatus.FROZEN
            transactions := self.transactions ++
              [⟨stamp.id, .FEE, 0, "Account frozen: " ++ reason, stamp.date, self.balance⟩] }) := by
  by_cases hs : self.status = AccountStatus.ACTIVE
  · right; simp [Account.freeze, hs, failed, Account.recordTransaction]
  · left; simp [Account.freeze, hs, failed]

/-- An `unfreeze` call either throws and leaves the account as it was, or sets the status and
records one zero-amount entry carrying the balance. -/
lemma unfreeze_outcome (self : Account) (stamp : Stamp) (reason : String) :
    (failed (self.unfreeze stamp reason).1 = true ∧ (self.unfreeze stamp reason).2 = self) ∨
      (failed (self.unfreeze stamp reason).1 = false ∧
        (self.unfreeze stamp reason).2 =
          { self with
            status := AccountStatus.ACTIVE
            transactions := self.transactions ++
              [⟨stamp.id, .FEE, 0, "Account unfrozen: " ++ reason, stamp.date,
                self.balance⟩] }) := by
  by_cases hs : self.status = AccountStatus.FROZEN
  · right; simp [Account.unfreeze, hs, failed, Account.recordTransaction]
  · left; simp [Account.unfreeze, hs, failed]

/-- A `close` call either throws and leaves the account as it was, or, the balance being
zero, sets the status and records one zero-amount entry carrying the balance. -/
lemma close_outcome (self : Account) (stamp : Stamp) (reason : String) :
    (failed (self.close stamp reason).1 = true ∧ (self.close stamp reason).2 = self) ∨
      (self.balance = 0 ∧ failed (self.close stamp reason).1 = false ∧
        (self.close stamp reason).2 =
          { self with
            status := AccountStatus.CLOSED
            transactions := self.transactions ++
              [⟨stamp.id, .FEE, 0, "Account closed: " ++ reason, stamp.date, self.balance⟩] }) := by
  by_cases hb : self.balance = 0
  · right; simp [Account.close, hb, failed, Account.recordTransaction]
  · left; simp [Account.close, hb, failed]

/-- A successful constructor call gives an Active account whose balance is the validated
initial balance and whose log is the initial deposit entry, or empty when the balance is 0. -/
lemma create_outcome (createdAt lastUpdated : Int) (stamp : Stamp) (accountNumber owner : String)
    (initialBalance : Option JSNumber) (acc : Account)
    (h : Account.create createdAt lastUpdated stamp accountNumber owner initialBalance
      = .ok acc) :
    ∃ a : ℚ, 0 ≤ a ∧ initialBalance.getD (.finite 0) = .finite a ∧
      acc = ⟨accountNumber, owner, a,
        if 0 < a then [⟨stamp.id, .DEPOSIT, a, "Initial deposit", stamp.date, a⟩] else [],
        AccountStatus.ACTIVE, createdAt, lastUpdated⟩ := by
  unfold Account.create at h
  split at h
  · cases h
  · split at h
    · cases h
    · split at h
      · cases h
      · rename_i a hv
        have hfin : initialBalance.getD (.finite 0) = .finite a ∧ 0 ≤ a := by
          unfold Account.validateAmount at hv
          split at hv
          · rename_i q
            split at hv
            · cases hv
            · rename_i hq
              cases hv
              exact ⟨by assumption, not_lt.mp hq⟩
          · cases hv
        refine ⟨a, hfin.2, hfin.1, ?_⟩
        by_cases hpos : 0 < a
        · simp only [gt_iff_lt, hpos, if_true] at h
          cases h
          simp [Account.recordTransaction, max_eq_right hfin.2, hpos]
        · simp only [gt_iff_lt, hpos, if_false] at h
          cases h
          have h0 : a = 0 := le_antisymm (not_lt.mp hpos) hfin.2
          simp [h0]

/-- The outcome of a call through `Op.run` throws exactly when the method does. -/
lemma failed_map {α : Type} (r : Except JSError α) :
    failed (r.map (fun _ => ())) = failed r := by
  cases r <;> rfl

/-- Every call either throws and leaves the account as it was, or is one of the successful
cases of the five methods. -/
lemma run_failed_unchanged (op : Op) (self : Account)
    (h : failed (op.run self).1 = true) : (op.run self).2 = self := by
  cases op with
  | deposit now stamp amount description =>
    simp only [Op.run, failed_map] at h ⊢
    rcases deposit_outcome self now stamp amount description with ⟨_, h2⟩ | ⟨a, _, _, _, h1, _⟩
    · exact h2
    · rw [h1] at h; cases h
  | withdraw now feeStamp stamp amount description =>
    simp only [Op.run, failed_map] at h ⊢
    rcases withdraw_outcome self now feeStamp stamp amount description with
      ⟨_, h2⟩ | ⟨a, _, _, _, _, h1, _⟩
    · exact h2
    · rw [h1] at h; cases h
  | freeze stamp reason =>
    simp only [Op.run] at h ⊢
    rcases freeze_outcome self stamp reason with ⟨_, h2⟩ | ⟨h1, _⟩
    · exact h2
    · rw [h1] at h; cases h
  | unfreeze stamp reason =>
    simp only [Op.run] at h ⊢
    rcases unfreeze_outcome self stamp reason with ⟨_, h2⟩ | ⟨h1, _⟩
    · exact h2
    · rw [h1] at h; cases h
  | close stamp reason =>
    simp only [Op.run] at h ⊢
    rcases close_outcome self stamp reason with ⟨_, h2⟩ | ⟨_, h1, _⟩
    · exact h2
    · rw [h1] at h; cases h

/-- Every call leaves the old log at the front of the new one, keeps the last entry in step
with the balance, and keeps the balance at or above `-35` when it was so before. -/
lemma run_step (op : Op) (self : Account) :
    (op.run self).2 = self ∨
      ∃ added : List LogEntry, ∃ last : LogEntry,
        (op.run self).2.transactions = self.transactions ++ added ++ [last] ∧
        last.balanceAfter = (op.run self).2.balance ∧
        (self.balance ≤ (op.run self).2.balance ∨
          (0 ≤ self.balance ∧ -35 ≤ (op.run self).2.balance ∧
            ∃ now feeStamp stamp a description,
              op = .withdraw now feeStamp stamp (.finite a) description ∧
              (0 ≤ (op.run self).2.balance ∨ self.balance - a < 35))) := by
  cases op with
  | deposit now stamp amount description =>
    simp only [Op.run]
    rcases deposit_outcome self now stamp amount description with
      ⟨_, h2⟩ | ⟨a, ha, _, _, _, h2⟩
    · exact Or.inl h2
    · right
      rw [h2]
      exact ⟨[], ⟨stamp.id, .DEPOSIT, a, description.getD "Deposit", stamp.date,
        self.balance + a⟩, by simp, rfl, Or.inl (by simpa using ha)⟩
  | withdraw now feeStamp stamp amount description =>
    simp only [Op.run]
    rcases withdraw_outcome self now feeStamp stamp amount description with
      ⟨_, h2⟩ | ⟨a, ha, hab, hfin, _, _, ⟨hmin, h2⟩ | ⟨hmin, h2⟩⟩
    · exact Or.inl h2
    · right
      rw [h2]
      refine ⟨[], ⟨stamp.id, .WITHDRAWAL, -a, description.getD "Withdrawal", stamp.date,
        self.balance - a⟩, by simp, rfl, Or.inr ⟨by linarith, ?_, now, feeStamp, stamp, a,
        description, by rw [hfin], Or.inl ?_⟩⟩
      · simp only; linarith
      · simp only; linarith
    · right
      rw [h2]
      refine ⟨[⟨feeStamp.id, .FEE, -35, "Overdraft fee", feeStamp.date, self.balance - a - 35⟩],
        ⟨stamp.id, .WITHDRAWAL, -a, description.getD "Withdrawal", stamp.date,
          self.balance - a - 35⟩, by simp, rfl, Or.inr ⟨by linarith, ?_, now, feeStamp, stamp,
        a, description, by rw [hfin], ?_⟩⟩
      · simp only; linarith
      · simp only
        by_cases h35 : self.balance - a < 35
        · exact Or.inr h35
        · exact Or.inl (by linarith)
  | freeze stamp reason =>
    simp only [Op.run]
    rcases freeze_outcome self stamp reason with ⟨_, h2⟩ | ⟨_, h2⟩
    · exact Or.inl h2
    · right
      rw [h2]
      exact ⟨[], ⟨stamp.id, .FEE, 0, "Account frozen: " ++ reason, stamp.date, self.balance⟩,
        by simp, rfl, Or.inl le_rfl⟩
  | unfreeze stamp reason =>
    simp only [Op.run]
    rcases unfreeze_outcome self stamp reason with ⟨_, h2⟩ | ⟨_, h2⟩
    · exact Or.inl h2
    · right
      rw [h2]
      exact ⟨[], ⟨stamp.id, .FEE, 0, "Account unfrozen: " ++ reason, stamp.date, self.balance⟩,
        by simp, rfl, Or.inl le_rfl⟩
  | close stamp reason =>
    simp only [Op.run]
    rcases close_outcome self stamp reason with ⟨_, h2⟩ | ⟨_, _, h2⟩
    · exact Or.inl h2
    · right
      rw [h2]
      exact ⟨[], ⟨stamp.id, .FEE, 0, "Account closed: " ++ reason, stamp.date, self.balance⟩,
        by simp, rfl, Or.inl le_rfl⟩

/-! ## Deposits and withdrawals -/

/-- C1: on an Active account with balance `b`, `deposit(a)` with a finite `a ≥ 0` succeeds; the
balance becomes `b + a`, exactly one entry (type deposit, amount `+a`, balanceAfter `b + a`) is
put at the end of the log, and the call returns that entry with `newBalance = b + a`. -/
theorem deposit_active (self : Account) (now : Int) (stamp : Stamp) (a : ℚ)
    (description : Option String) (hs : self.status = AccountStatus.ACTIVE) (ha : 0 ≤ a) :
    self.deposit now stamp (.finite a) description =
      (.ok ⟨true,
          ⟨stamp.id, .DEPOSIT, a, description.getD "Deposit", stamp.date, self.balance + a⟩,
          self.balance + a⟩,
        { self with
          balance := self.balance + a
          lastUpdated := now
          transactions := self.transactions ++
            [⟨stamp.id, .DEPOSIT, a, description.getD "Deposit", stamp.date,
              self.balance + a⟩] }) := by
  have hv : Account.validateAmount (.finite a) = .ok a := by
    simp [Account.validateAmount, not_lt.mpr ha]
  simp [Account.deposit, Account.validateAccountStatus, hs, hv, Account.recordTransaction]

theorem deposit_active_witness :
    (⟨"12345", "Al", 1000, [], .ACTIVE, 0, 0⟩ : Account).deposit 7 ⟨"TXN-7", 7⟩ (.finite 500) none =
      (.ok ⟨true, ⟨"TXN-7", .DEPOSIT, 500, "Deposit", 7, 1000 + 500⟩, 1000 + 500⟩,
        ⟨"12345", "Al", 1000 + 500, [⟨"TXN-7", .DEPOSIT, 500, "Deposit", 7, 1000 + 500⟩],
          .ACTIVE, 0, 7⟩) :=
  deposit_active ⟨"12345", "Al", 1000, [], .ACTIVE, 0, 0⟩ 7 ⟨"TXN-7", 7⟩ 500 none rfl
    (by norm_num)

/-- C2: on an Active account with balance `b`, `withdraw(a)` with `0 ≤ a ≤ b` and `b - a ≥ 500`
sets the balance to `b - a` and puts exactly one entry (type withdrawal, amount `-a`,
balanceAfter `b - a`) at the end of the log; no fee entry is recorded, also at `b - a = 500`. -/
theorem withdraw_without_fee (self : Account) (now : Int) (feeStamp stamp : Stamp) (a : ℚ)
    (description : Option String) (hs : self.status = AccountStatus.ACTIVE) (ha : 0 ≤ a)
    (hab : a ≤ self.balance) (hmin : self.balance - a ≥ 500) :
    self.withdraw now feeStamp stamp (.finite a) description =
      (.ok ⟨true,
          ⟨stamp.id, .WITHDRAWAL, -a, description.getD "Withdrawal", stamp.date,
            self.balance - a⟩,
          self.balance - a⟩,
        { self with
          balance := self.balance - a
          lastUpdated := now
          transactions := self.transactions ++
            [⟨stamp.id, .WITHDRAWAL, -a, description.getD "Withdrawal", stamp.date,
              self.balance - a⟩] }) := by
  have hv : Account.validateAmount (.finite a) = .ok a := by
    simp [Account.validateAmount, not_lt.mpr ha]
  have hf : ¬ (self.balance - a < 500) := not_lt.mpr hmin
  simp [Account.withdraw, Account.validateAccountStatus, hs, hv, Account.validateSufficientFunds,
    not_lt.mpr hab, fees, hf, Account.recordTransaction]

theorem withdraw_without_fee_witness :
    (⟨"12345", "Al", 1500, [], .ACTIVE, 0, 0⟩ : Account).withdraw 9 ⟨"TXN-8", 8⟩ ⟨"TXN-9", 9⟩
        (.finite 1000) none =
      (.ok ⟨true, ⟨"TXN-9", .WITHDRAWAL, -1000, "Withdrawal", 9, 1500 - 1000⟩, 1500 - 1000⟩,
        ⟨"12345", "Al", 1500 - 1000,
          [⟨"TXN-9", .WITHDRAWAL, -1000, "Withdrawal", 9, 1500 - 1000⟩], .ACTIVE, 0, 9⟩) :=
  withdraw_without_fee ⟨"12345", "Al", 1500, [], .ACTIVE, 0, 0⟩ 9 ⟨"TXN-8", 8⟩ ⟨"TXN-9", 9⟩ 1000
    none rfl (by norm_num) (by norm_num) (by norm_num)

/-- C3: on an Active account with balance `b`, `withdraw(a)` with `0 ≤ a ≤ b` and `b - a < 500`
sets the balance to `b - a - 35` and puts exactly two entries at the end of the log, the fee
entry (type fee, amount `-35`) and then the withdrawal entry (type withdrawal, amount `-a`),
both with balanceAfter `b - a - 35`; the call returns the withdrawal entry with
`newBalance = b - a - 35`. -/
theorem withdraw_with_fee (self : Account) (now : Int) (feeStamp stamp : Stamp) (a : ℚ)
    (description : Option String) (hs : self.status = AccountStatus.ACTIVE) (ha : 0 ≤ a)
    (hab : a ≤ self.balance) (hmin : self.balance - a < 500) :
    self.withdraw now feeStamp stamp (.finite a) description =
      (.ok ⟨true,
          ⟨stamp.id, .WITHDRAWAL, -a, description.getD "Withdrawal", stamp.date,
            self.balance - a - 35⟩,
          self.balance - a - 35⟩,
        { self with
          balance := self.balance - a - 35
          lastUpdated := now
          transactions := self.transactions ++
            [⟨feeStamp.id, .FEE, -35, "Overdraft fee", feeStamp.date, self.balance - a - 35⟩,
              ⟨stamp.id, .WITHDRAWAL, -a, description.getD "Withdrawal", stamp.date,
                self.balance - a - 35⟩] }) := by
  have hv : Account.validateAmount (.finite a) = .ok a := by
    simp [Account.validateAmount, not_lt.mpr ha]
  simp [Account.withdraw, Account.validateAccountStatus, hs, hv, Account.validateSufficientFunds,
    not_lt.mpr hab, fees, hmin, Account.recordTransaction, Account.applyFee]

theorem withdraw_with_fee_witness :
    (⟨"12345", "Al", 1500, [], .ACTIVE, 0, 0⟩ : Account).withdraw 9 ⟨"TXN-8", 8⟩ ⟨"TXN-9", 9⟩
        (.finite 1200) none =
      (.ok ⟨true, ⟨"TXN-9", .WITHDRAWAL, -1200, "Withdrawal", 9, 1500 - 1200 - 35⟩,
          1500 - 1200 - 35⟩,
        ⟨"12345", "Al", 1500 - 1200 - 35,
          [⟨"TXN-8", .FEE, -35, "Overdraft fee", 8, 1500 - 1200 - 35⟩,
            ⟨"TXN-9", .WITHDRAWAL, -1200, "Withdrawal", 9, 1500 - 1200 - 35⟩], .ACTIVE, 0, 9⟩) :=
  withdraw_with_fee ⟨"12345", "Al", 1500, [], .ACTIVE, 0, 0⟩ 9 ⟨"TXN-8", 8⟩ ⟨"TXN-9", 9⟩ 1200
    none rfl (by norm_num) (by norm_num) (by norm_num)

/-- C4: on an Active account with balance `b`, `withdraw(a)` with a finite `a ≥ 0`, `a > b`
throws the error "Insufficient funds" and leaves the account, its balance and log included,
as it was. -/
theorem withdraw_insufficient_funds (self : Account) (now : Int) (feeStamp stamp : Stamp)
    (a : ℚ) (description : Option String) (hs : self.status = AccountStatus.ACTIVE)
    (ha : 0 ≤ a) (hab : a > self.balance) :
    self.withdraw now feeStamp stamp (.finite a) description =
      (.error ⟨"Insufficient funds"⟩, self) := by
  have hv : Account.validateAmount (.finite a) = .ok a := by
    simp [Account.validateAmount, not_lt.mpr ha]
  simp [Account.withdraw, Account.validateAccountStatus, hs, hv, Account.validateSufficientFunds,
    hab]

theorem withdraw_insufficient_funds_witness :
    (⟨"12345", "Al", 100, [], .ACTIVE, 0, 0⟩ : Account).withdraw 9 ⟨"TXN-8", 8⟩ ⟨"TXN-9", 9⟩
        (.finite 101) none =
      (.error ⟨"Insufficient funds"⟩, ⟨"12345", "Al", 100, [], .ACTIVE, 0, 0⟩) :=
  withdraw_insufficient_funds ⟨"12345", "Al", 100, [], .ACTIVE, 0, 0⟩ 9 ⟨"TXN-8", 8⟩
    ⟨"TXN-9", 9⟩ 101 none rfl (by norm_num) (by norm_num)

/-- C5: on an account whose status is Frozen or Closed, `deposit` and `withdraw` throw the
error "Account is frozen" or "Account is closed" for every amount, finite or not, negative or
not, and leave the account (balance, status, log) as it was. -/
theorem inactive_account_rejects (self : Account) (now : Int) (feeStamp stamp : Stamp)
    (amount : JSNumber) (description : Option String)
    (hs : self.status = AccountStatus.FROZEN ∨ self.status = AccountStatus.CLOSED) :
    self.deposit now stamp amount description =
        (.error ⟨"Account is " ++ self.status.value⟩, self) ∧
      self.withdraw now feeStamp stamp amount description =
        (.error ⟨"Account is " ++ self.status.value⟩, self) := by
  have hne : self.status ≠ AccountStatus.ACTIVE := by
    rcases hs with h | h <;> simp [h]
  simp [Account.deposit, Account.withdraw, Account.validateAccountStatus, hne]

theorem inactive_account_rejects_witness :
    (⟨"12345", "Al", 100, [], .FROZEN, 0, 0⟩ : Account).deposit 9 ⟨"TXN-9", 9⟩ .nan none =
        (.error ⟨"Account is " ++ AccountStatus.FROZEN.value⟩,
          ⟨"12345", "Al", 100, [], .FROZEN, 0, 0⟩) ∧
      (⟨"12345", "Al", 100, [], .FROZEN, 0, 0⟩ : Account).withdraw 9 ⟨"TXN-8", 8⟩ ⟨"TXN-9", 9⟩
          .nan none =
        (.error ⟨"Account is " ++ AccountStatus.FROZEN.value⟩,
          ⟨"12345", "Al", 100, [], .FROZEN, 0, 0⟩) :=
  inactive_account_rejects ⟨"12345", "Al", 100, [], .FROZEN, 0, 0⟩ 9 ⟨"TXN-8", 8⟩ ⟨"TXN-9", 9⟩
    .nan none (Or.inl rfl)

/-! ## Failure leaves no trace -/

/-- C7: for each of `deposit`, `withdraw`, `freeze`, `unfreeze` and `close`, on every account
and for all arguments: if the call throws, the account after the call (balance, status and
log included) is the account before it. -/
theorem failed_call_leaves_account (self : Account) (now : Int) (feeStamp stamp : Stamp)
    (amount : JSNumber) (description : Option String) (reason : String) :
    (failed (self.deposit now stamp amount description).1 = true →
        (self.deposit now stamp amount description).2 = self) ∧
      (failed (self.withdraw now feeStamp stamp amount description).1 = true →
        (self.withdraw now feeStamp stamp amount description).2 = self) ∧
      (failed (self.freeze stamp reason).1 = true → (self.freeze stamp reason).2 = self) ∧
      (failed (self.unfreeze stamp reason).1 = true → (self.unfreeze stamp reason).2 = self) ∧
      (failed (self.close stamp reason).1 = true → (self.close stamp reason).2 = self) := by
  refine ⟨fun h => ?_, fun h => ?_, fun h => ?_, fun h => ?_, fun h => ?_⟩
  · exact run_failed_unchanged (.deposit now stamp amount description) self
      (by simpa only [Op.run, failed_map] using h)
  · exact run_failed_unchanged (.withdraw now feeStamp stamp amount description) self
      (by simpa only [Op.run, failed_map] using h)
  · exact run_failed_unchanged (.freeze stamp reason) self h
  · exact run_failed_unchanged (.unfreeze stamp reason) self h
  · exact run_failed_unchanged (.close stamp reason) self h

theorem failed_call_leaves_account_witness :
    ((⟨"12345", "Al", 100, [], .FROZEN, 0, 0⟩ : Account).deposit 9 ⟨"TXN-9", 9⟩ (.finite 5)
          none).2 = ⟨"12345", "Al", 100, [], .FROZEN, 0, 0⟩ ∧
      ((⟨"12345", "Al", 100, [], .ACTIVE, 0, 0⟩ : Account).withdraw 9 ⟨"TXN-8", 8⟩ ⟨"TXN-9", 9⟩
          (.finite 101) none).2 = ⟨"12345", "Al", 100, [], .ACTIVE, 0, 0⟩ ∧
      ((⟨"12345", "Al", 100, [], .FROZEN, 0, 0⟩ : Account).freeze ⟨"TXN-9", 9⟩ "audit").2 =
        ⟨"12345", "Al", 100, [], .FROZEN, 0, 0⟩ ∧
      ((⟨"12345", "Al", 100, [], .ACTIVE, 0, 0⟩ : Account).unfreeze ⟨"TXN-9", 9⟩ "audit").2 =
        ⟨"12345", "Al", 100, [], .ACTIVE, 0, 0⟩ ∧
      ((⟨"12345", "Al", 100, [], .ACTIVE, 0, 0⟩ : Account).close ⟨"TXN-9", 9⟩ "moved").2 =
        ⟨"12345", "Al", 100, [], .ACTIVE, 0, 0⟩ :=
  ⟨(failed_call_leaves_account ⟨"12345", "Al", 100, [], .FROZEN, 0, 0⟩ 9 ⟨"TXN-8", 8⟩
      ⟨"TXN-9", 9⟩ (.finite 5) none "audit").1 rfl,
    (failed_call_leaves_account ⟨"12345", "Al", 100, [], .ACTIVE, 0, 0⟩ 9 ⟨"TXN-8", 8⟩
      ⟨"TXN-9", 9⟩ (.finite 101) none "audit").2.1 rfl,
    (failed_call_leaves_account ⟨"12345", "Al", 100, [], .FROZEN, 0, 0⟩ 9 ⟨"TXN-8", 8⟩
      ⟨"TXN-9", 9⟩ (.finite 5) none "audit").2.2.1 rfl,
    (failed_call_leaves_account ⟨"12345", "Al", 100, [], .ACTIVE, 0, 0⟩ 9 ⟨"TXN-8", 8⟩
      ⟨"TXN-9", 9⟩ (.finite 5) none "audit").2.2.2.1 rfl,
    (failed_call_leaves_account ⟨"12345", "Al", 100, [], .ACTIVE, 0, 0⟩ 9 ⟨"TXN-8", 8⟩
      ⟨"TXN-9", 9⟩ (.finite 5) none "moved").2.2.2.2 rfl⟩

/-! ## The log -/

/-- C8: in every account reached from a successful constructor call by `deposit`, `withdraw`,
`freeze`, `unfreeze` and `close` calls, the `balanceAfter` of the last log entry, when there is
one, is the balance, and the balance is 0 when the log is empty. -/
theorem last_entry_carries_balance (s : Account) (h : Reachable s) :
    (∀ e : LogEntry, s.transactions.getLast? = some e → e.balanceAfter = s.balance) ∧
      (s.transactions = [] → s.balance = 0) := by
  induction h with
  | create createdAt lastUpdated stamp accountNumber owner initialBalance acc hc =>
    obtain ⟨a, ha, _, rfl⟩ := create_outcome _ _ _ _ _ _ _ hc
    by_cases hpos : 0 < a
    · simp [hpos]
    · have h0 : a = 0 := le_antisymm (not_lt.mp hpos) ha
      simp [h0]
  | step op s _ ih =>
    rcases run_step op s with hsame | ⟨added, last, hlog, hbal, _⟩
    · rw [hsame]; exact ih
    · constructor
      · intro e he
        rw [hlog, List.getLast?_append] at he
        simp at he
        rw [← he]; exact hbal
      · intro hnil
        rw [hlog] at hnil
        simp at hnil

theorem last_entry_carries_balance_witness :
    Reachable ⟨"12345", "Al", 1000,
        [⟨"TXN-0", .DEPOSIT, 1000, "Initial deposit", 0, 1000⟩], .ACTIVE, 0, 0⟩ ∧
      ((∀ e : LogEntry,
          (⟨"12345", "Al", 1000, [⟨"TXN-0", .DEPOSIT, 1000, "Initial deposit", 0, 1000⟩],
            .ACTIVE, 0, 0⟩ : Account).transactions.getLast? = some e →
          e.balanceAfter =
            (⟨"12345", "Al", 1000, [⟨"TXN-0", .DEPOSIT, 1000, "Initial deposit", 0, 1000⟩],
              .ACTIVE, 0, 0⟩ : Account).balance) ∧
        ((⟨"12345", "Al", 1000, [⟨"TXN-0", .DEPOSIT, 1000, "Initial deposit", 0, 1000⟩],
            .ACTIVE, 0, 0⟩ : Account).transactions = [] →
          (⟨"12345", "Al", 1000, [⟨"TXN-0", .DEPOSIT, 1000, "Initial deposit", 0, 1000⟩],
            .ACTIVE, 0, 0⟩ : Account).balance = 0)) :=
  ⟨Reachable.create 0 0 ⟨"TXN-0", 0⟩ "12345" "Al" (some (.finite 1000)) _ rfl,
    last_entry_carries_balance _
      (Reachable.create 0 0 ⟨"TXN-0", 0⟩ "12345" "Al" (some (.finite 1000)) _ rfl)⟩

/-- C9: the log is append-only.  For every `deposit`, `withdraw`, `freeze`, `unfreeze` and
`close` call, successful or not, the log before the call is an initial segment of the log
after it, so no entry is removed, reordered or modified; `calculateCompoundInterest` and
`getStatement` leave the account, its log included, as it was. -/
theorem log_append_only (self : Account) (now : Int) (feeStamp stamp : Stamp)
    (amount rate years : JSNumber) (description : Option String) (reason : String)
    (frequency : Option JSNumber) (mathPow : ℚ → ℚ → ℚ) (startDate endDate : Option Int) :
    self.transactions <+: (self.deposit now stamp amount description).2.transactions ∧
      self.transactions <+:
        (self.withdraw now feeStamp stamp amount description).2.transactions ∧
      self.transactions <+: (self.freeze stamp reason).2.transactions ∧
      self.transactions <+: (self.unfreeze stamp reason).2.transactions ∧
      self.transactions <+: (self.close stamp reason).2.transactions ∧
      (self.calculateCompoundInterest mathPow rate years frequency).2 = self ∧
      (self.getStatement startDate endDate).2 = self := by
  have key : ∀ op : Op, self.transactions <+: (op.run self).2.transactions := by
    intro op
    rcases run_step op self with hsame | ⟨added, last, hlog, _, _⟩
    · rw [hsame]
    · rw [hlog, List.append_assoc]
      exact List.prefix_append _ _
  refine ⟨key (.deposit now stamp amount description),
    key (.withdraw now feeStamp stamp amount description), key (.freeze stamp reason),
    key (.unfreeze stamp reason), key (.close stamp reason), ?_, rfl⟩
  unfold Account.calculateCompoundInterest
  split <;> rfl

/-! ## Construction -/

/-- C10: for an account number and an owner that pass their validation and a finite initial
balance `a ≥ 0`, the constructor succeeds with balance `a` and status Active; the log is the
single deposit entry (amount `a`, description "Initial deposit", balanceAfter `a`) when
`a > 0` and is empty when `a = 0`.  Leaving the initial balance out is the case `a = 0`. -/
theorem create_valid (createdAt lastUpdated : Int) (stamp : Stamp)
    (accountNumber owner : String) (a : ℚ)
    (hn : Account.validateAccountNumber accountNumber = .ok ())
    (ho : Account.validateOwner owner = .ok ()) (ha : 0 ≤ a) :
    Account.create createdAt lastUpdated stamp accountNumber owner (some (.finite a)) =
        .ok ⟨accountNumber, owner, a,
          if 0 < a then [⟨stamp.id, .DEPOSIT, a, "Initial deposit", stamp.date, a⟩] else [],
          AccountStatus.ACTIVE, createdAt, lastUpdated⟩ ∧
      Account.create createdAt lastUpdated stamp accountNumber owner none =
        .ok ⟨accountNumber, owner, 0, [], AccountStatus.ACTIVE, createdAt, lastUpdated⟩ := by
  constructor
  · by_cases hpos : 0 < a
    · simp [Account.create, hn, ho, Account.validateAmount, not_lt.mpr ha, hpos,
        Account.recordTransaction, max_eq_right ha]
    · have h0 : a = 0 := le_antisymm (not_lt.mp hpos) ha
      simp [Account.create, hn, ho, Account.validateAmount, h0]
  · simp [Account.create, hn, ho, Account.validateAmount]

theorem create_valid_witness :
    Account.create 3 4 ⟨"TXN-0", 5⟩ "1234567890" "John Doe" (some (.finite 1000)) =
        .ok ⟨"1234567890", "John Doe", 1000,
          if (0 : ℚ) < 1000 then [⟨"TXN-0", .DEPOSIT, 1000, "Initial deposit", 5, 1000⟩] else [],
          AccountStatus.ACTIVE, 3, 4⟩ ∧
      Account.create 3 4 ⟨"TXN-0", 5⟩ "1234567890" "John Doe" none =
        .ok ⟨"1234567890", "John Doe", 0, [], AccountStatus.ACTIVE, 3, 4⟩ :=
  create_valid 3 4 ⟨"TXN-0", 5⟩ "1234567890" "John Doe" 1000 rfl rfl (by norm_num)

/-! ## The sign of the balance -/

/-- C6, as stated, fails: the constructor with initial balance 1000 followed by
`withdraw(1000)` leaves 0, which is below the threshold 500, so the fee is charged and the
reachable balance is `-35`. -/
theorem reachable_balance_negative :
    Account.create 0 0 ⟨"TXN-0", 0⟩ "12345" "Al" (some (.finite 1000)) =
        .ok ⟨"12345", "Al", 1000, [⟨"TXN-0", .DEPOSIT, 1000, "Initial deposit", 0, 1000⟩],
          .ACTIVE, 0, 0⟩ ∧
      ((⟨"12345", "Al", 1000, [⟨"TXN-0", .DEPOSIT, 1000, "Initial deposit", 0, 1000⟩],
          .ACTIVE, 0, 0⟩ : Account).withdraw 1 ⟨"TXN-1", 1⟩ ⟨"TXN-2", 1⟩ (.finite 1000)
          none).2.balance = -35 ∧
      ¬ ∀ s : Account, Reachable s → 0 ≤ s.balance := by
  have hc : Account.create 0 0 ⟨"TXN-0", 0⟩ "12345" "Al" (some (.finite 1000)) =
      .ok ⟨"12345", "Al", 1000, [⟨"TXN-0", .DEPOSIT, 1000, "Initial deposit", 0, 1000⟩],
        .ACTIVE, 0, 0⟩ := rfl
  have hw : ((⟨"12345", "Al", 1000, [⟨"TXN-0", .DEPOSIT, 1000, "Initial deposit", 0, 1000⟩],
      .ACTIVE, 0, 0⟩ : Account).withdraw 1 ⟨"TXN-1", 1⟩ ⟨"TXN-2", 1⟩ (.finite 1000)
      none).2.balance = -35 := by
    norm_num [Account.withdraw, Account.validateAccountStatus, Account.validateAmount,
      Account.validateSufficientFunds, fees, Account.applyFee, Account.recordTransaction]
  refine ⟨hc, hw, fun hall => ?_⟩
  have hr := hall _ (Reachable.step (.withdraw 1 ⟨"TXN-1", 1⟩ ⟨"TXN-2", 1⟩ (.finite 1000) none)
    _ (Reachable.create _ _ _ _ _ _ _ hc))
  simp only [Op.run] at hr
  rw [hw] at hr
  norm_num at hr

/-- C6, amended: in every account reached from a successful constructor call by `deposit`,
`withdraw`, `freeze`, `unfreeze` and `close` calls the balance is at least `-35`; and a call
takes a non-negative balance `b` below zero only when it is a `withdraw(a)` with a finite
`a ≤ b` that leaves `b - a < 35`, less than the fee it is then charged. -/
theorem balance_at_least_minus_fee (s : Account) (h : Reachable s) :
    -35 ≤ s.balance ∧
      ∀ op : Op, 0 ≤ s.balance → (op.run s).2.balance < 0 →
        ∃ now feeStamp stamp a description,
          op = .withdraw now feeStamp stamp (.finite a) description ∧
            a ≤ s.balance ∧ s.balance - a < 35 := by
  constructor
  · induction h with
    | create createdAt lastUpdated stamp accountNumber owner initialBalance acc hc =>
      obtain ⟨a, ha, _, rfl⟩ := create_outcome _ _ _ _ _ _ _ hc
      simp only; linarith
    | step op s _ ih =>
      rcases run_step op s with hsame | ⟨_, _, _, _, hle | ⟨_, hlow, _⟩⟩
      · rw [hsame]; exact ih
      · linarith
      · exact hlow
  · intro op h0 hneg
    rcases run_step op s with hsame | ⟨_, _, _, _, hle | ⟨_, _, now, feeStamp, stamp, a,
      description, hop, hcase⟩⟩
    · rw [hsame] at hneg; linarith
    · linarith
    · refine ⟨now, feeStamp, stamp, a, description, hop, ?_, ?_⟩
      · subst hop
        simp only [Op.run] at hneg
        rcases withdraw_outcome s now feeStamp stamp (.finite a) description with
          ⟨_, h2⟩ | ⟨a', _, hab, hfin, _⟩
        · rw [h2] at hneg; linarith
        · cases hfin; exact hab
      · rcases hcase with hnn | h35
        · linarith
        · exact h35

theorem balance_at_least_minus_fee_witness :
    Reachable ⟨"12345", "Al", 1000,
        [⟨"TXN-0", .DEPOSIT, 1000, "Initial deposit", 0, 1000⟩], .ACTIVE, 0, 0⟩ ∧
      (-35 ≤ (⟨"12345", "Al", 1000, [⟨"TXN-0", .DEPOSIT, 1000, "Initial deposit", 0, 1000⟩],
          .ACTIVE, 0, 0⟩ : Account).balance ∧
        ∀ op : Op,
          0 ≤ (⟨"12345", "Al", 1000, [⟨"TXN-0", .DEPOSIT, 1000, "Initial deposit", 0, 1000⟩],
            .ACTIVE, 0, 0⟩ : Account).balance →
          (op.run ⟨"12345", "Al", 1000,
            [⟨"TXN-0", .DEPOSIT, 1000, "Initial deposit", 0, 1000⟩], .ACTIVE, 0, 0⟩).2.balance
              < 0 →
          ∃ now feeStamp stamp a description,
            op = .withdraw now feeStamp stamp (.finite a) description ∧
              a ≤ (⟨"12345", "Al", 1000,
                [⟨"TXN-0", .DEPOSIT, 1000, "Initial deposit", 0, 1000⟩], .ACTIVE, 0,
                0⟩ : Account).balance ∧
              (⟨"12345", "Al", 1000, [⟨"TXN-0", .DEPOSIT, 1000, "Initial deposit", 0, 1000⟩],
                .ACTIVE, 0, 0⟩ : Account).balance - a < 35) :=
  ⟨Reachable.create 0 0 ⟨"TXN-0", 0⟩ "12345" "Al" (some (.finite 1000)) _ rfl,
    balance_at_least_minus_fee _
      (Reachable.create 0 0 ⟨"TXN-0", 0⟩ "12345" "Al" (some (.finite 1000)) _ rfl)⟩

/-! ## Strings that pass validation -/

/-- A string whose characters all lie in the basic plane has as many code units as
characters. -/
lemma jsLength_eq_length (s : String) (h : ∀ c ∈ s.data, c.toNat < 65536) :
    jsLength s = s.length := by
  unfold jsLength
  show _ = s.data.length
  generalize s.data = l at h
  induction l with
  | nil => rfl
  | cons c t ih =>
    have hc := h c (List.mem_cons_self _ _)
    have ht := ih (fun d hd => h d (List.mem_cons_of_mem _ hd))
    simp only [List.map_cons, List.sum_cons, List.length_cons, hc, if_true, ht]
    omega

/-- The pattern `\d` matches the characters that `Char.isDigit` accepts. -/
lemma digit_code (c : Char) : (48 ≤ c.toNat ∧ c.toNat ≤ 57) ↔ c.isDigit = true := by
  simp only [Char.isDigit, Char.toNat, Bool.and_eq_true, decide_eq_true_eq, ge_iff_le]
  rfl

/-- The check `#validateAccountNumber` passes exactly on strings of five or more
decimal digits. -/
lemma validateAccountNumber_ok_iff (s : String) :
    Account.validateAccountNumber s = .ok () ↔
      5 ≤ s.length ∧ ∀ c ∈ s.data, c.isDigit = true := by
  have hall : testDigits s = true ↔ s.data ≠ [] ∧ ∀ c ∈ s.data, c.isDigit = true := by
    simp only [testDigits, Bool.and_eq_true, Bool.not_eq_true', List.isEmpty_eq_false,
      List.all_eq_true, decide_eq_true_eq, ← digit_code, ne_eq]
  constructor
  · intro h
    unfold Account.validateAccountNumber at h
    split at h
    · cases h
    · rename_i hcond
      simp only [Bool.or_eq_true, List.isEmpty_iff, decide_eq_true_eq, Bool.not_eq_true',
        not_or, not_lt, Bool.not_eq_false] at hcond
      obtain ⟨⟨_, hlen⟩, hd⟩ := hcond
      have hd' := (hall.mp hd).2
      have hbmp : ∀ c ∈ s.data, c.toNat < 65536 := by
        intro c hc
        have := (digit_code c).mpr (hd' c hc)
        omega
      rw [jsLength_eq_length s hbmp] at hlen
      exact ⟨hlen, hd'⟩
  · rintro ⟨hlen, hd⟩
    have hbmp : ∀ c ∈ s.data, c.toNat < 65536 := by
      intro c hc
      have := (digit_code c).mpr (hd c hc)
      omega
    have hne : s.data ≠ [] := by
      intro h0
      have : s.length = 0 := by show s.data.length = 0; rw [h0]; rfl
      omega
    have htest : testDigits s = true := hall.mpr ⟨hne, hd⟩
    unfold Account.validateAccountNumber
    rw [jsLength_eq_length s hbmp]
    have hlt : ¬ s.length < 5 := by omega
    simp [htest, hlt, hne]

/-- The class `[a-zA-Z\s-']` holds the letters, the white space of `\s`, the hyphen (code 45)
and the apostrophe (code 39). -/
lemma isOwnerChar_iff (c : Char) :
    isOwnerChar c = true ↔
      c.isAlpha = true ∨ isJSWhiteSpace c = true ∨ c.toNat = 45 ∨ c.toNat = 39 := by
  have halpha : c.isAlpha = true ↔
      (65 ≤ c.toNat ∧ c.toNat ≤ 90) ∨ (97 ≤ c.toNat ∧ c.toNat ≤ 122) := by
    simp only [Char.isAlpha, Char.isUpper, Char.isLower, Char.toNat, Bool.or_eq_true,
      Bool.and_eq_true, decide_eq_true_eq, ge_iff_le]
    rfl
  rw [halpha]
  simp only [isOwnerChar, Bool.or_eq_true, Bool.and_eq_true, decide_eq_true_eq, beq_iff_eq]
  tauto

/-- Every character the owner pattern accepts lies in the basic plane. -/
lemma isOwnerChar_bmp (c : Char) (h : isOwnerChar c = true) : c.toNat < 65536 := by
  simp only [isOwnerChar, isJSWhiteSpace, Bool.or_eq_true, Bool.and_eq_true,
    decide_eq_true_eq, beq_iff_eq] at h
  omega

/-- What `trim()` keeps are characters of the string. -/
lemma mem_of_mem_jsTrim (s : String) (c : Char) (h : c ∈ (jsTrim s).data) : c ∈ s.data := by
  simp only [jsTrim, List.mem_reverse] at h
  have h1 := (List.dropWhile_sublist isJSWhiteSpace).subset h
  exact (List.dropWhile_sublist isJSWhiteSpace).subset (List.mem_reverse.mp h1)

/-- The check `#validateOwner` passes exactly on strings made of letters, white space, hyphens
and apostrophes that keep two or more characters when trimmed. -/
lemma validateOwner_ok_iff (o : String) :
    Account.validateOwner o = .ok () ↔
      2 ≤ (jsTrim o).length ∧
        ∀ c ∈ o.data,
          c.isAlpha = true ∨ isJSWhiteSpace c = true ∨ c.toNat = 45 ∨ c.toNat = 39 := by
  have hall : (∀ c ∈ o.data, isOwnerChar c = true) ↔
      ∀ c ∈ o.data,
        c.isAlpha = true ∨ isJSWhiteSpace c = true ∨ c.toNat = 45 ∨ c.toNat = 39 :=
    forall₂_congr (fun c _ => isOwnerChar_iff c)
  rw [← hall]
  have hlen : (∀ c ∈ o.data, isOwnerChar c = true) → jsLength (jsTrim o) = (jsTrim o).length :=
    fun h => jsLength_eq_length _
      (fun c hc => isOwnerChar_bmp c (h c (mem_of_mem_jsTrim o c hc)))
  constructor
  · intro h
    unfold Account.validateOwner at h
    split at h
    · cases h
    · rename_i hcond
      simp only [Bool.or_eq_true, List.isEmpty_iff, decide_eq_true_eq, Bool.not_eq_true',
        not_or, not_lt, Bool.not_eq_false, testOwner, Bool.and_eq_true, List.all_eq_true]
        at hcond
      obtain ⟨⟨_, hl⟩, _, hd⟩ := hcond
      rw [hlen hd] at hl
      exact ⟨hl, hd⟩
  · rintro ⟨hl, hd⟩
    have hne : o.data ≠ [] := by
      intro h0
      have : (jsTrim o).length = 0 := by
        show (jsTrim o).data.length = 0
        simp [jsTrim, h0]
      omega
    unfold Account.validateOwner
    rw [hlen hd]
    have hlt : ¬ (jsTrim o).length < 2 := by omega
    have htest : testOwner o = true := by
      simp only [testOwner, Bool.and_eq_true, Bool.not_eq_true', List.isEmpty_eq_false,
        List.all_eq_true]
      exact ⟨by simpa using hne, hd⟩
    simp [htest, hlt, hne]

/-- The constructor succeeds exactly when its three checks pass. -/
lemma create_succeeds_iff (createdAt lastUpdated : Int) (stamp : Stamp)
    (accountNumber owner : String) (initialBalance : Option JSNumber) :
    failed (Account.create createdAt lastUpdated stamp accountNumber owner initialBalance)
        = false ↔
      Account.validateAccountNumber accountNumber = .ok () ∧
        Account.validateOwner owner = .ok () ∧
        ∃ a : ℚ, 0 ≤ a ∧ initialBalance.getD (.finite 0) = .finite a := by
  constructor
  · intro h
    cases hc : Account.create createdAt lastUpdated stamp accountNumber owner initialBalance with
    | error e => rw [hc] at h; cases h
    | ok acc =>
      obtain ⟨a, ha, hfin, _⟩ := create_outcome _ _ _ _ _ _ _ hc
      refine ⟨?_, ?_, a, ha, hfin⟩
      · unfold Account.create at hc
        split at hc
        · cases hc
        · assumption
      · unfold Account.create at hc
        split at hc
        · cases hc
        · split at hc
          · cases hc
          · assumption
  · rintro ⟨hn, ho, a, ha, hfin⟩
    by_cases hpos : 0 < a <;>
      simp [Account.create, hn, ho, hfin, Account.validateAmount, not_lt.mpr ha, hpos, failed]

/-! ## What the constructor accepts -/

/-- C11: with a valid owner and a valid initial balance, the constructor accepts a string as
the account number exactly when it has length at least 5 and consists of the digits 0-9 only;
and it throws for every initial balance that is negative or not finite. -/
theorem create_account_number_accepted (createdAt lastUpdated : Int) (stamp : Stamp)
    (s owner : String) (a : ℚ) (ho : Account.validateOwner owner = .ok ()) (ha : 0 ≤ a) :
    (failed (Account.create createdAt lastUpdated stamp s owner (some (.finite a))) = false ↔
        5 ≤ s.length ∧ ∀ c ∈ s.data, c.isDigit = true) ∧
      ∀ b : JSNumber,
        (b = .nan ∨ b = .posInf ∨ b = .negInf ∨ ∃ q : ℚ, b = .finite q ∧ q < 0) →
        failed (Account.create createdAt lastUpdated stamp s owner (some b)) = true := by
  constructor
  · rw [create_succeeds_iff, validateAccountNumber_ok_iff]
    constructor
    · exact fun h => h.1
    · exact fun h => ⟨h, ho, a, ha, rfl⟩
  · intro b hb
    cases hf : failed (Account.create createdAt lastUpdated stamp s owner (some b)) with
    | true => rfl
    | false =>
      obtain ⟨_, _, q, hq, hfin⟩ := (create_succeeds_iff _ _ _ _ _ _).mp hf
      simp only [Option.getD_some] at hfin
      subst hfin
      rcases hb with h | h | h | ⟨q', h, hneg⟩
      · cases h
      · cases h
      · cases h
      · cases h; linarith

theorem create_account_number_accepted_witness :
    (failed (Account.create 0 0 ⟨"TXN-0", 0⟩ "12345" "Al" (some (.finite 1000))) = false ↔
        5 ≤ "12345".length ∧ ∀ c ∈ "12345".data, c.isDigit = true) ∧
      ∀ b : JSNumber,
        (b = .nan ∨ b = .posInf ∨ b = .negInf ∨ ∃ q : ℚ, b = .finite q ∧ q < 0) →
        failed (Account.create 0 0 ⟨"TXN-0", 0⟩ "12345" "Al" (some b)) = true :=
  create_account_number_accepted 0 0 ⟨"TXN-0", 0⟩ "12345" "Al" 1000 rfl (by norm_num)

/-- C12, as stated, fails both ways.  The owner `"a "` has length 2 and only a letter and a
space, yet the constructor throws, because the trimmed name has length 1; the owner with a
tab between `a` and `b` has a character that is none of letter, space, hyphen or apostrophe,
yet the constructor accepts it, because `\s` matches the tab. -/
theorem owner_rule_as_stated_fails :
    (2 ≤ "a ".length ∧
        (∀ c ∈ "a ".data, c.isAlpha = true ∨ c.toNat = 32 ∨ c.toNat = 45 ∨ c.toNat = 39) ∧
        failed (Account.create 0 0 ⟨"TXN-0", 0⟩ "12345" "a " (some (.finite 0))) = true) ∧
      (¬ (∀ c ∈ "a\tb".data, c.isAlpha = true ∨ c.toNat = 32 ∨ c.toNat = 45 ∨ c.toNat = 39) ∧
        failed (Account.create 0 0 ⟨"TXN-0", 0⟩ "12345" "a\tb" (some (.finite 0))) = false) := by
  refine ⟨⟨by decide, by decide, rfl⟩, by decide, rfl⟩

/-- C12, amended: with a valid account number and a valid initial balance, the constructor
accepts a string as the owner exactly when the string keeps at least 2 characters once its
leading and trailing white space is removed and every character of it is a letter (a-z, A-Z),
a white-space character as matched by `\s`, a hyphen or an apostrophe. -/
theorem create_owner_accepted (createdAt lastUpdated : Int) (stamp : Stamp)
    (accountNumber o : String) (a : ℚ)
    (hn : Account.validateAccountNumber accountNumber = .ok ()) (ha : 0 ≤ a) :
    failed (Account.create createdAt lastUpdated stamp accountNumber o (some (.finite a)))
        = false ↔
      2 ≤ (jsTrim o).length ∧
        ∀ c ∈ o.data,
          c.isAlpha = true ∨ isJSWhiteSpace c = true ∨ c.toNat = 45 ∨ c.toNat = 39 := by
  rw [create_succeeds_iff, validateOwner_ok_iff]
  constructor
  · exact fun h => h.2.1
  · exact fun h => ⟨hn, h, a, ha, rfl⟩

theorem create_owner_accepted_witness :
    failed (Account.create 0 0 ⟨"TXN-0", 0⟩ "12345" "a\tb" (some (.finite 1000))) = false ↔
      2 ≤ (jsTrim "a\tb").length ∧
        ∀ c ∈ "a\tb".data,
          c.isAlpha = true ∨ isJSWhiteSpace c = true ∨ c.toNat = 45 ∨ c.toNat = 39 :=
  create_owner_accepted 0 0 ⟨"TXN-0", 0⟩ "12345" "a\tb" 1000 rfl (by norm_num)

/-! ## Status changes -/

/-- What a call can do to the status: nothing at all, or one of the moves of the methods. -/
lemma run_status (op : Op) (s : Account) :
    (op.run s).2 = s ∨
      (s.status = AccountStatus.ACTIVE ∧ (op.run s).2.status = AccountStatus.ACTIVE) ∨
      (s.status = AccountStatus.ACTIVE ∧ (op.run s).2.status = AccountStatus.FROZEN ∧
        (op.run s).2.balance = s.balance) ∨
      (s.status = AccountStatus.FROZEN ∧ (op.run s).2.status = AccountStatus.ACTIVE ∧
        (op.run s).2.balance = s.balance) ∨
      (s.balance = 0 ∧ (op.run s).2.status = AccountStatus.CLOSED ∧
        (op.run s).2.balance = 0) := by
  cases op with
  | deposit now stamp amount description =>
    simp only [Op.run]
    rcases deposit_outcome s now stamp amount description with ⟨_, h2⟩ | ⟨a, _, _, hs, _, h2⟩
    · exact Or.inl h2
    · right; left; rw [h2]; exact ⟨hs, hs⟩
  | withdraw now feeStamp stamp amount description =>
    simp only [Op.run]
    rcases withdraw_outcome s now feeStamp stamp amount description with
      ⟨_, h2⟩ | ⟨a, _, _, _, hs, _, ⟨_, h2⟩ | ⟨_, h2⟩⟩
    · exact Or.inl h2
    · right; left; rw [h2]; exact ⟨hs, hs⟩
    · right; left; rw [h2]; exact ⟨hs, hs⟩
  | freeze stamp reason =>
    simp only [Op.run]
    rcases freeze_outcome s stamp reason with ⟨_, h2⟩ | ⟨h1, h2⟩
    · exact Or.inl h2
    · right; right; left
      have hs : s.status = AccountStatus.ACTIVE := by
        by_contra hne
        simp [Account.freeze, hne, failed] at h1
      rw [h2]; exact ⟨hs, rfl, rfl⟩
  | unfreeze stamp reason =>
    simp only [Op.run]
    rcases unfreeze_outcome s stamp reason with ⟨_, h2⟩ | ⟨h1, h2⟩
    · exact Or.inl h2
    · right; right; right; left
      have hs : s.status = AccountStatus.FROZEN := by
        by_contra hne
        simp [Account.unfreeze, hne, failed] at h1
      rw [h2]; exact ⟨hs, rfl, rfl⟩
  | close stamp reason =>
    simp only [Op.run]
    rcases close_outcome s stamp reason with ⟨_, h2⟩ | ⟨h0, _, h2⟩
    · exact Or.inl h2
    · right; right; right; right
      rw [h2]; exact ⟨h0, rfl, h0⟩

/-- A call on a Closed account leaves it Closed and leaves its balance. -/
lemma closed_step (op : Op) (s : Account) (hc : s.status = AccountStatus.CLOSED) :
    (op.run s).2.status = AccountStatus.CLOSED ∧ (op.run s).2.balance = s.balance := by
  rcases run_status op s with h | ⟨h, _⟩ | ⟨h, _⟩ | ⟨h, _⟩ | ⟨h0, h1, h2⟩
  · rw [h]; exact ⟨hc, rfl⟩
  · rw [hc] at h; cases h
  · rw [hc] at h; cases h
  · rw [hc] at h; cases h
  · exact ⟨h1, by rw [h2, h0]⟩

/-- Calls on a Closed account, however many, leave it Closed and leave its balance. -/
lemma closed_runAll (ops : List Op) (s : Account) (hc : s.status = AccountStatus.CLOSED) :
    (runAll ops s).status = AccountStatus.CLOSED ∧ (runAll ops s).balance = s.balance := by
  induction ops generalizing s with
  | nil => exact ⟨hc, rfl⟩
  | cons op rest ih =>
    have h1 := closed_step op s hc
    have h2 := ih (op.run s).2 h1.1
    simp only [runAll, List.foldl_cons] at h2 ⊢
    exact ⟨h2.1, by rw [h2.2, h1.2]⟩

/-- A reachable account that is Closed has balance 0. -/
lemma closed_balance_zero (s : Account) (h : Reachable s)
    (hc : s.status = AccountStatus.CLOSED) : s.balance = 0 := by
  induction h with
  | create createdAt lastUpdated stamp accountNumber owner initialBalance acc hcr =>
    obtain ⟨a, _, _, rfl⟩ := create_outcome _ _ _ _ _ _ _ hcr
    cases hc
  | step op s _ ih =>
    rcases run_status op s with h | ⟨_, h⟩ | ⟨_, h, _⟩ | ⟨_, h, _⟩ | ⟨_, _, h2⟩
    · rw [h] at hc ⊢; exact ih hc
    · rw [hc] at h; cases h
    · rw [hc] at h; cases h
    · rw [hc] at h; cases h
    · exact h2

/-- C13: `close(reason)` throws exactly when the balance is not 0, and the account, its status
included, is then as it was; when the balance is 0 the call sets the status to Closed, leaves
the balance at 0 and puts exactly one entry at the end of the log, of amount 0 and with the
description "Account closed: " followed by the reason. -/
theorem close_iff_zero_balance (self : Account) (stamp : Stamp) (reason : String) :
    (failed (self.close stamp reason).1 = true ↔ self.balance ≠ 0) ∧
      (self.balance ≠ 0 → (self.close stamp reason).2 = self) ∧
      (self.balance = 0 →
        (self.close stamp reason).2 =
          { self with
            balance := 0
            status := AccountStatus.CLOSED
            transactions := self.transactions ++
              [⟨stamp.id, .FEE, 0, "Account closed: " ++ reason, stamp.date, 0⟩] }) := by
  by_cases hb : self.balance = 0
  · refine ⟨?_, fun h => absurd hb h, fun _ => ?_⟩
    · simp [Account.close, hb, failed]
    · simp [Account.close, hb, Account.recordTransaction]
  · refine ⟨?_, fun _ => ?_, fun h => absurd h hb⟩
    · simp [Account.close, hb, failed]
    · simp [Account.close, hb]

theorem close_iff_zero_balance_witness :
    ((⟨"12345", "Al", 100, [], .ACTIVE, 0, 0⟩ : Account).close ⟨"TXN-9", 9⟩ "moved").2 =
        ⟨"12345", "Al", 100, [], .ACTIVE, 0, 0⟩ ∧
      ((⟨"12345", "Al", 0, [], .FROZEN, 0, 0⟩ : Account).close ⟨"TXN-9", 9⟩ "moved").2 =
        ⟨"12345", "Al", 0, [⟨"TXN-9", .FEE, 0, "Account closed: " ++ "moved", 9, 0⟩],
          .CLOSED, 0, 0⟩ :=
  ⟨(close_iff_zero_balance ⟨"12345", "Al", 100, [], .ACTIVE, 0, 0⟩ ⟨"TXN-9", 9⟩ "moved").2.1
      (by norm_num),
    (close_iff_zero_balance ⟨"12345", "Al", 0, [], .FROZEN, 0, 0⟩ ⟨"TXN-9", 9⟩ "moved").2.2
      rfl⟩

/-- C14: Closed is terminal.  A reachable account whose status is Closed has balance 0, and
after any sequence of `deposit`, `withdraw`, `freeze`, `unfreeze` and `close` calls, failing
or not, its status is still Closed and its balance still 0.  On any account a single call
either keeps the status or moves it from Active to Frozen, from Frozen to Active, or from
Active or Frozen to Closed, the last only with balance 0. -/
theorem closed_is_terminal (s : Account) (op : Op) (ops : List Op) :
    (Reachable s → s.status = AccountStatus.CLOSED →
        s.balance = 0 ∧ (runAll ops s).status = AccountStatus.CLOSED ∧
          (runAll ops s).balance = 0) ∧
      ((op.run s).2.status = s.status ∨
        (s.status = AccountStatus.ACTIVE ∧ (op.run s).2.status = AccountStatus.FROZEN) ∨
        (s.status = AccountStatus.FROZEN ∧ (op.run s).2.status = AccountStatus.ACTIVE) ∨
        ((s.status = AccountStatus.ACTIVE ∨ s.status = AccountStatus.FROZEN) ∧
          (op.run s).2.status = AccountStatus.CLOSED ∧ s.balance = 0 ∧
          (op.run s).2.balance = 0)) := by
  constructor
  · intro hr hc
    have h0 := closed_balance_zero s hr hc
    have h := closed_runAll ops s hc
    exact ⟨h0, h.1, by rw [h.2, h0]⟩
  · rcases run_status op s with h | ⟨h, h'⟩ | ⟨h, h', _⟩ | ⟨h, h', _⟩ | ⟨h0, h1, h2⟩
    · left; rw [h]
    · left; rw [h, h']
    · right; left; exact ⟨h, h'⟩
    · right; right; left; exact ⟨h, h'⟩
    · cases hs : s.status with
      | ACTIVE => right; right; right; exact ⟨Or.inl rfl, h1, h0, h2⟩
      | FROZEN => right; right; right; exact ⟨Or.inr rfl, h1, h0, h2⟩
      | CLOSED => left; exact h1

theorem closed_is_terminal_witness :
    ((⟨"12345", "Al", 0, [⟨"TXN-0", .FEE, 0, "Account closed: " ++ "done", 0, 0⟩], .CLOSED,
        0, 0⟩ : Account).balance = 0 ∧
      (runAll [.deposit 1 ⟨"TXN-1", 1⟩ (.finite 50) none, .unfreeze ⟨"TXN-2", 2⟩ "appeal",
          .close ⟨"TXN-3", 3⟩ "again"]
        ⟨"12345", "Al", 0, [⟨"TXN-0", .FEE, 0, "Account closed: " ++ "done", 0, 0⟩], .CLOSED,
          0, 0⟩).status = AccountStatus.CLOSED ∧
      (runAll [.deposit 1 ⟨"TXN-1", 1⟩ (.finite 50) none, .unfreeze ⟨"TXN-2", 2⟩ "appeal",
          .close ⟨"TXN-3", 3⟩ "again"]
        ⟨"12345", "Al", 0, [⟨"TXN-0", .FEE, 0, "Account closed: " ++ "done", 0, 0⟩], .CLOSED,
          0, 0⟩).balance = 0) :=
  (closed_is_terminal
    ⟨"12345", "Al", 0, [⟨"TXN-0", .FEE, 0, "Account closed: " ++ "done", 0, 0⟩], .CLOSED, 0, 0⟩
    (.close ⟨"TXN-3", 3⟩ "again")
    [.deposit 1 ⟨"TXN-1", 1⟩ (.finite 50) none, .unfreeze ⟨"TXN-2", 2⟩ "appeal",
      .close ⟨"TXN-3", 3⟩ "again"]).1
    (Reachable.step (.close ⟨"TXN-0", 0⟩ "done") ⟨"12345", "Al", 0, [], .ACTIVE, 0, 0⟩
      (Reachable.create 0 0 ⟨"TXN-0", 0⟩ "12345" "Al" none _ rfl))
    rfl

/-- C15: `freeze(reason)` succeeds exactly when the status is Active and then sets it to
Frozen; `unfreeze(reason)` succeeds exactly when the status is Frozen and then sets it to
Active; each successful call leaves the balance and puts exactly one entry at the end of the
log, of type fee and amount 0, whose description is "Account frozen: " or
"Account unfrozen: " followed by the reason. -/
theorem freeze_unfreeze_flip (self : Account) (stamp : Stamp) (reason : String) :
    (failed (self.freeze stamp reason).1 = false ↔ self.status = AccountStatus.ACTIVE) ∧
      (self.status = AccountStatus.ACTIVE →
        (self.freeze stamp reason).2 =
          { self with
            status := AccountStatus.FROZEN
            transactions := self.transactions ++
              [⟨stamp.id, .FEE, 0, "Account frozen: " ++ reason, stamp.date,
                self.balance⟩] }) ∧
      (failed (self.unfreeze stamp reason).1 = false ↔ self.status = AccountStatus.FROZEN) ∧
      (self.status = AccountStatus.FROZEN →
        (self.unfreeze stamp reason).2 =
          { self with
            status := AccountStatus.ACTIVE
            transactions := self.transactions ++
              [⟨stamp.id, .FEE, 0, "Account unfrozen: " ++ reason, stamp.date,
                self.balance⟩] }) := by
  refine ⟨?_, fun hs => ?_, ?_, fun hs => ?_⟩
  · by_cases hs : self.status = AccountStatus.ACTIVE <;> simp [Account.freeze, hs, failed]
  · simp [Account.freeze, hs, Account.recordTransaction]
  · by_cases hs : self.status = AccountStatus.FROZEN <;> simp [Account.unfreeze, hs, failed]
  · simp [Account.unfreeze, hs, Account.recordTransaction]

theorem freeze_unfreeze_flip_witness :
    ((⟨"12345", "Al", 100, [], .ACTIVE, 0, 0⟩ : Account).freeze ⟨"TXN-9", 9⟩ "audit").2 =
        ⟨"12345", "Al", 100, [⟨"TXN-9", .FEE, 0, "Account frozen: " ++ "audit", 9, 100⟩],
          .FROZEN, 0, 0⟩ ∧
      ((⟨"12345", "Al", 100, [], .FROZEN, 0, 0⟩ : Account).unfreeze ⟨"TXN-9", 9⟩ "cleared").2 =
        ⟨"12345", "Al", 100, [⟨"TXN-9", .FEE, 0, "Account unfrozen: " ++ "cleared", 9, 100⟩],
          .ACTIVE, 0, 0⟩ :=
  ⟨(freeze_unfreeze_flip ⟨"12345", "Al", 100, [], .ACTIVE, 0, 0⟩ ⟨"TXN-9", 9⟩ "audit").2.1 rfl,
    (freeze_unfreeze_flip ⟨"12345", "Al", 100, [], .FROZEN, 0, 0⟩ ⟨"TXN-9", 9⟩
      "cleared").2.2.2 rfl⟩

/-! ## Interest and statements -/

/-- The check `#validateInterestParams` passes exactly on a finite rate in `[0, 1]`, finite
positive years and a finite whole frequency of at least 1, and hands these values back. -/
lemma validateInterestParams_ok_iff (rate years frequency : JSNumber) (r y n : ℚ) :
    Account.validateInterestParams rate years frequency = .ok (r, y, n) ↔
      rate = .finite r ∧ 0 ≤ r ∧ r ≤ 1 ∧ years = .finite y ∧ 0 < y ∧
        frequency = .finite n ∧ n.den = 1 ∧ 1 ≤ n := by
  cases rate with
  | finite r' =>
    cases years with
    | finite y' =>
      cases frequency with
      | finite n' =>
        simp only [Account.validateInterestParams]
        split_ifs with h1 h2 h3
        · simp only [Bool.or_eq_true, decide_eq_true_eq] at h1
          simp only [reduceCtorEq, JSNumber.finite.injEq, false_iff]
          rintro ⟨rfl, ha, hb, _⟩
          rcases h1 with h | h <;> linarith
        · simp only [reduceCtorEq, JSNumber.finite.injEq, false_iff]
          rintro ⟨_, _, _, rfl, hy, _⟩
          linarith
        · simp only [ne_eq, Bool.or_eq_true, decide_eq_true_eq, Bool.not_eq_true',
            decide_eq_false_iff_not] at h3
          simp only [reduceCtorEq, JSNumber.finite.injEq, false_iff]
          rintro ⟨_, _, _, _, _, rfl, hd, hn⟩
          rcases h3 with h | h
          · exact h hd
          · linarith
        · simp only [Bool.or_eq_true, decide_eq_true_eq, not_or, not_lt] at h1
          simp only [ne_eq, Bool.or_eq_true, decide_eq_true_eq, Bool.not_eq_true',
            decide_eq_false_iff_not, not_or, not_not, not_lt] at h3
          simp only [Except.ok.injEq, Prod.mk.injEq, JSNumber.finite.injEq]
          constructor
          · rintro ⟨rfl, rfl, rfl⟩
            exact ⟨rfl, h1.1, h1.2, rfl, not_le.mp h2, rfl, h3.1, h3.2⟩
          · rintro ⟨rfl, _, _, rfl, _, rfl, _⟩
            exact ⟨rfl, rfl, rfl⟩
      | nan => simp only [Account.validateInterestParams]; split_ifs <;> simp
      | posInf => simp only [Account.validateInterestParams]; split_ifs <;> simp
      | negInf => simp only [Account.validateInterestParams]; split_ifs <;> simp
    | nan => simp only [Account.validateInterestParams]; split_ifs <;> simp
    | posInf => simp only [Account.validateInterestParams]; split_ifs <;> simp
    | negInf => simp only [Account.validateInterestParams]; split_ifs <;> simp
  | nan => simp [Account.validateInterestParams]
  | posInf => simp [Account.validateInterestParams]
  | negInf => simp [Account.validateInterestParams]

/-- The result of `calculateCompoundInterest` once the check has passed. -/
lemma calculateCompoundInterest_ok (mathPow : ℚ → ℚ → ℚ) (self : Account)
    (rate years : JSNumber) (frequency : Option JSNumber) (r y n : ℚ)
    (hv : Account.validateInterestParams rate years (frequency.getD (.finite 12))
      = .ok (r, y, n)) :
    self.calculateCompoundInterest mathPow rate years frequency =
      (.ok ⟨self.balance,
          Account.mathRound (self.balance *
            mathPow (1 + (if self.balance ≥ 10000 then r + 5 / 1000 else r) / n) (n * y)
              * 100) / 100,
          Account.mathRound ((self.balance *
            mathPow (1 + (if self.balance ≥ 10000 then r + 5 / 1000 else r) / n) (n * y)
              - self.balance) * 100) / 100,
          if self.balance ≥ 10000 then r + 5 / 1000 else r, y, n⟩, self) := by
  simp only [Account.calculateCompoundInterest, hv, interestSettings]

/-- When the check throws, so does `calculateCompoundInterest`, and the account is as it
was. -/
lemma calculateCompoundInterest_error (mathPow : ℚ → ℚ → ℚ) (self : Account)
    (rate years : JSNumber) (frequency : Option JSNumber) (e : JSError)
    (hv : Account.validateInterestParams rate years (frequency.getD (.finite 12))
      = .error e) :
    self.calculateCompoundInterest mathPow rate years frequency = (.error e, self) := by
  simp only [Account.calculateCompoundInterest, hv]

/-- A finite value is whole exactly when it is the image of an integer. -/
lemma den_one_iff_int (n : ℚ) : (n.den = 1 ∧ 1 ≤ n) ↔ ∃ k : ℤ, n = (k : ℚ) ∧ 1 ≤ k := by
  constructor
  · rintro ⟨hd, hn⟩
    have hnum : ((n.num : ℤ) : ℚ) = n := (Rat.den_eq_one_iff n).mp hd
    refine ⟨n.num, hnum.symm, ?_⟩
    rw [← hnum] at hn
    exact_mod_cast hn
  · rintro ⟨k, rfl, hk⟩
    exact ⟨Rat.den_intCast k, by exact_mod_cast hk⟩

/-- C16: `calculateCompoundInterest(rate, years, frequency)` throws exactly when the rate is
not a finite number in `[0, 1]`, or the years are not a finite number above 0, or the
frequency (12 when left out) is not an integer of at least 1.  In particular the rates 0
and 1 are accepted, and so are years that are positive and not whole. -/
theorem interest_params_checked (mathPow : ℚ → ℚ → ℚ) (self : Account) (rate years : JSNumber)
    (frequency : Option JSNumber) :
    (failed (self.calculateCompoundInterest mathPow rate years frequency).1 = true ↔
        (¬ ∃ r : ℚ, rate = .finite r ∧ 0 ≤ r ∧ r ≤ 1) ∨
          (¬ ∃ y : ℚ, years = .finite y ∧ 0 < y) ∨
          (¬ ∃ k : ℤ, frequency.getD (.finite 12) = .finite (k : ℚ) ∧ 1 ≤ k)) ∧
      failed (self.calculateCompoundInterest mathPow (.finite 0) (.finite (1 / 2)) none).1
        = false ∧
      failed (self.calculateCompoundInterest mathPow (.finite 1) (.finite (5 / 2))
        (some (.finite 4))).1 = false := by
  refine ⟨?_, ?_, ?_⟩
  · cases hv : Account.validateInterestParams rate years (frequency.getD (.finite 12)) with
    | error e =>
      rw [calculateCompoundInterest_error _ _ _ _ _ e hv]
      simp only [failed, true_iff]
      by_contra hall
      simp only [not_or, not_not] at hall
      obtain ⟨⟨r, hr, hr0, hr1⟩, ⟨y, hy, hy0⟩, ⟨k, hk, hk1⟩⟩ := hall
      have hn := (den_one_iff_int (k : ℚ)).mpr ⟨k, rfl, hk1⟩
      have hok := (validateInterestParams_ok_iff rate years (frequency.getD (.finite 12))
        r y (k : ℚ)).mpr ⟨hr, hr0, hr1, hy, hy0, hk, hn.1, hn.2⟩
      rw [hok] at hv
      cases hv
    | ok v =>
      obtain ⟨r, y, n⟩ := v
      rw [calculateCompoundInterest_ok _ _ _ _ _ r y n hv]
      obtain ⟨hr, hr0, hr1, hy, hy0, hf, hd, hn⟩ :=
        (validateInterestParams_ok_iff _ _ _ r y n).mp hv
      obtain ⟨k, hk, hk1⟩ := (den_one_iff_int n).mp ⟨hd, hn⟩
      simp only [failed, Bool.false_eq_true, false_iff, not_or, not_not]
      exact ⟨⟨r, hr, hr0, hr1⟩, ⟨y, hy, hy0⟩, ⟨k, by rw [hf, hk], hk1⟩⟩
  · have hok := (validateInterestParams_ok_iff (.finite 0) (.finite (1 / 2)) (.finite 12)
      0 (1 / 2) 12).mpr ⟨rfl, by norm_num, by norm_num, rfl, by norm_num, rfl, rfl,
        by norm_num⟩
    rw [calculateCompoundInterest_ok mathPow self _ _ none 0 (1 / 2) 12 hok]
    rfl
  · have hok := (validateInterestParams_ok_iff (.finite 1) (.finite (5 / 2)) (.finite 4)
      1 (5 / 2) 4).mpr ⟨rfl, by norm_num, by norm_num, rfl, by norm_num, rfl, rfl,
        by norm_num⟩
    rw [calculateCompoundInterest_ok mathPow self _ _ (some (.finite 4)) 1 (5 / 2) 4 hok]
    rfl

/-- C17: for valid arguments, the `effectiveRate` returned by `calculateCompoundInterest` is
the rate plus 0.005 when the balance is at least 10000, 10000 itself included, and is the
rate when the balance is below 10000. -/
theorem effective_rate_bonus (mathPow : ℚ → ℚ → ℚ) (self : Account) (r y : ℚ) (k : ℤ)
    (frequency : Option JSNumber) (hr0 : 0 ≤ r) (hr1 : r ≤ 1) (hy : 0 < y) (hk : 1 ≤ k)
    (hf : frequency.getD (.finite 12) = .finite (k : ℚ)) :
    ∃ res : Account.InterestResult,
      (self.calculateCompoundInterest mathPow (.finite r) (.finite y) frequency).1 = .ok res ∧
        (10000 ≤ self.balance → res.effectiveRate = r + 5 / 1000) ∧
        (self.balance < 10000 → res.effectiveRate = r) := by
  have hn := (den_one_iff_int (k : ℚ)).mpr ⟨k, rfl, hk⟩
  have hok := (validateInterestParams_ok_iff (.finite r) (.finite y)
    (frequency.getD (.finite 12)) r y (k : ℚ)).mpr ⟨rfl, hr0, hr1, rfl, hy, hf, hn.1, hn.2⟩
  rw [calculateCompoundInterest_ok mathPow self _ _ frequency r y k hok]
  refine ⟨_, rfl, fun h => ?_, fun h => ?_⟩
  · simp only [ge_iff_le, h, if_true]
  · simp only [ge_iff_le, not_le.mpr h, if_false]

theorem effective_rate_bonus_witness :
    ∃ res : Account.InterestResult,
      ((⟨"12345", "Al", 10000, [], .ACTIVE, 0, 0⟩ : Account).calculateCompoundInterest
          (fun x p => x ^ p.num.toNat) (.finite (5 / 100)) (.finite 1) none).1 = .ok res ∧
        (10000 ≤ (⟨"12345", "Al", 10000, [], .ACTIVE, 0, 0⟩ : Account).balance →
          res.effectiveRate = 5 / 100 + 5 / 1000) ∧
        ((⟨"12345", "Al", 10000, [], .ACTIVE, 0, 0⟩ : Account).balance < 10000 →
          res.effectiveRate = 5 / 100) :=
  effective_rate_bonus (fun x p => x ^ p.num.toNat) ⟨"12345", "Al", 10000, [], .ACTIVE, 0, 0⟩
    (5 / 100) 1 12 none (by norm_num) (by norm_num) (by norm_num) (by norm_num) rfl

/-- C18, as stated, fails: the operators round to doubles.  On the account made by
`new Account('12345', 'Al', 1.25)` the call `calculateCompoundInterest(0.02, 1, 1)` returns
`finalAmount` 1.27 and `interestEarned` 0.02, whatever `Math.pow` is as long as
`Math.pow(x, 1)` is `x`: the product `1.25 * 1.02` is rounded to the double just below 1.275,
so `Math.round` sees 127.49999999999999.  The formula of the claim gives 1.28 and 0.03, both
at the double that the literal `0.02` denotes, `5764607523034235 / 2 ^ 58`, and at the
fraction `2 / 100`; the doubles 1.27 and 1.28 differ, and so do 0.02 and 0.03. -/
theorem compound_interest_rounds_down :
    (Binary64.Account.create 0 0 ⟨"TXN-0", 0⟩ "12345" "Al" (some (.finite (5 / 4)))).toOption =
        some ⟨"12345", "Al", .finite (5 / 4),
          [⟨"TXN-0", .DEPOSIT, 5 / 4, "Initial deposit", 0, .finite (5 / 4)⟩], .ACTIVE, 0, 0⟩ ∧
      (∀ mathPow : JSNumber → JSNumber → JSNumber, (∀ x, mathPow x (.finite 1) = x) →
        ((⟨"12345", "Al", .finite (5 / 4),
            [⟨"TXN-0", .DEPOSIT, 5 / 4, "Initial deposit", 0, .finite (5 / 4)⟩], .ACTIVE, 0,
            0⟩ : Binary64.Account).calculateCompoundInterest mathPow
            (Binary64.toDouble (2 / 100)) (.finite 1) (some (.finite 1))).1 =
          .ok ⟨.finite (5 / 4), Binary64.toDouble (127 / 100), Binary64.toDouble (2 / 100),
            Binary64.toDouble (2 / 100), 1, 1⟩) ∧
      Binary64.toDouble (2 / 100) = .finite (5764607523034235 / 2 ^ 58) ∧
      Account.mathRound (100 * (5 / 4 * (1 + (5764607523034235 / 2 ^ 58 : ℚ) / 1) ^ (1 * 1)))
          / 100 = 128 / 100 ∧
      Account.mathRound
          (100 * (5 / 4 * (1 + (5764607523034235 / 2 ^ 58 : ℚ) / 1) ^ (1 * 1) - 5 / 4))
          / 100 = 3 / 100 ∧
      Account.mathRound (100 * (5 / 4 * (1 + (2 / 100 : ℚ) / 1) ^ (1 * 1))) / 100 = 128 / 100 ∧
      Account.mathRound (100 * (5 / 4 * (1 + (2 / 100 : ℚ) / 1) ^ (1 * 1) - 5 / 4)) / 100 =
        3 / 100 ∧
      Binary64.toDouble (127 / 100) ≠ Binary64.toDouble (128 / 100) ∧
      Binary64.toDouble (2 / 100) ≠ Binary64.toDouble (3 / 100) := by
  refine ⟨by decide!, ?_, by decide!, by decide!, by decide!, by decide!, by decide!,
    by decide!, by decide!⟩
  intro mathPow h
  have hd : Binary64.toDouble (2 / 100) = .finite (5764607523034235 / 2 ^ 58) := by decide!
  have hv : Account.validateInterestParams (.finite (5764607523034235 / 2 ^ 58)) (.finite 1)
      (.finite 1) = .ok (5764607523034235 / 2 ^ 58, 1, 1) :=
    (validateInterestParams_ok_iff _ _ _ _ _ _).mpr
      ⟨rfl, by norm_num, by norm_num, rfl, by norm_num, rfl, rfl, le_refl _⟩
  have hle : Binary64.le (.finite interestSettings.highBalanceThreshold) (.finite (5 / 4))
      = false := by decide!
  have hbase : Binary64.add (.finite 1)
      (Binary64.div (.finite (5764607523034235 / 2 ^ 58)) (.finite 1)) =
        .finite (2296835809958953 / 2 ^ 51) := by decide!
  have hexp : Binary64.mul (.finite 1) (.finite 1) = .finite 1 := by decide!
  simp only [Binary64.Account.calculateCompoundInterest, Option.getD_some, hd, hv, hle, hbase,
    hexp, h, Bool.false_eq_true, if_false]
  refine congrArg Except.ok ?_
  decide!

/-- C18, amended: in exact arithmetic, for valid arguments with a whole positive number of
years `t`, frequency `k` and balance `B`, `calculateCompoundInterest` returns
`initialBalance = B`, `finalAmount = round2 (B * (1 + e / k) ^ (k * t))` and
`interestEarned = round2 (B * (1 + e / k) ^ (k * t) - B)`, where `e` is the effective rate
and `round2 x` is `Math.round (100 * x) / 100`.  Exact arithmetic means that every number is
a rational, no operator rounds, and `Math.pow` gives the exact power at whole exponents. -/
theorem compound_interest_formula (mathPow : ℚ → ℚ → ℚ) (self : Account) (r e : ℚ)
    (t k : ℕ) (frequency : Option JSNumber)
    (hpow : ∀ (x : ℚ) (m : ℕ), mathPow x (m : ℚ) = x ^ m)
    (hr0 : 0 ≤ r) (hr1 : r ≤ 1) (ht : 0 < t) (hk : 1 ≤ k)
    (hf : frequency.getD (.finite 12) = .finite (k : ℚ))
    (he : e = if self.balance ≥ 10000 then r + 5 / 1000 else r) :
    (self.calculateCompoundInterest mathPow (.finite r) (.finite (t : ℚ)) frequency).1 =
      .ok ⟨self.balance,
        Account.mathRound (100 * (self.balance * (1 + e / k) ^ (k * t))) / 100,
        Account.mathRound (100 * (self.balance * (1 + e / k) ^ (k * t) - self.balance)) / 100,
        e, t, k⟩ := by
  have hn := (den_one_iff_int (k : ℚ)).mpr ⟨(k : ℤ), by norm_cast, by exact_mod_cast hk⟩
  have hok := (validateInterestParams_ok_iff (.finite r) (.finite (t : ℚ))
    (frequency.getD (.finite 12)) r t (k : ℚ)).mpr
    ⟨rfl, hr0, hr1, rfl, by exact_mod_cast ht, hf, hn.1, hn.2⟩
  rw [calculateCompoundInterest_ok mathPow self _ _ frequency r t k hok, ← he]
  have hexp : ((k : ℚ) * (t : ℚ)) = ((k * t : ℕ) : ℚ) := by push_cast; ring
  rw [hexp, hpow]
  simp only [mul_comm (100 : ℚ)]

theorem compound_interest_formula_witness :
    ((⟨"12345", "Al", 1000, [], .ACTIVE, 0, 0⟩ : Account).calculateCompoundInterest
        (fun x p => x ^ p.num.toNat) (.finite (6 / 100)) (.finite ((2 : ℕ) : ℚ)) none).1 =
      .ok ⟨1000,
        Account.mathRound (100 * (1000 * (1 + (6 / 100 : ℚ) / (12 : ℕ)) ^ (12 * 2))) / 100,
        Account.mathRound (100 * (1000 * (1 + (6 / 100 : ℚ) / (12 : ℕ)) ^ (12 * 2) - 1000))
          / 100,
        6 / 100, (2 : ℕ), (12 : ℕ)⟩ :=
  compound_interest_formula (fun x p => x ^ p.num.toNat)
    ⟨"12345", "Al", 1000, [], .ACTIVE, 0, 0⟩ (6 / 100) (6 / 100) 2 12 none
    (fun x m => by simp) (by norm_num) (by norm_num) (by norm_num) (by norm_num) rfl
    (by norm_num)

/-- C19: `calculateCompoundInterest` is pure: whether it returns or throws, the account
(balance, status and log included) is as it was, and a second call with the same arguments,
made on the account the first call left, gives the same outcome. -/
theorem compound_interest_pure (mathPow : ℚ → ℚ → ℚ) (self : Account) (rate years : JSNumber)
    (frequency : Option JSNumber) :
    (self.calculateCompoundInterest mathPow rate years frequency).2 = self ∧
      ((self.calculateCompoundInterest mathPow rate years
          frequency).2.calculateCompoundInterest mathPow rate years frequency).1 =
        (self.calculateCompoundInterest mathPow rate years frequency).1 := by
  have h : (self.calculateCompoundInterest mathPow rate years frequency).2 = self := by
    unfold Account.calculateCompoundInterest
    split <;> rfl
  exact ⟨h, by rw [h]⟩

/-- C20: the `transactions` of `getStatement(startDate, endDate)` are exactly the log entries
whose date is at or after the start bound, when there is one, and at or before the end bound,
when there is one, kept in log order; with both bounds absent they are the full log. -/
theorem statement_filters_by_date (self : Account) (startDate endDate : Option Int) :
    (∃ keep : LogEntry → Bool,
        (∀ e : LogEntry, keep e = true ↔
          (∀ d, startDate = some d → d ≤ e.date) ∧ (∀ d, endDate = some d → e.date ≤ d)) ∧
        (self.getStatement startDate endDate).1.transactions =
          self.transactions.filter keep) ∧
      (self.getStatement none none).1.transactions = self.transactions := by
  refine ⟨⟨fun e => startDate.all (fun d => decide (e.date ≥ d)) &&
      endDate.all (fun d => decide (e.date ≤ d)), fun e => ?_, ?_⟩, rfl⟩
  · cases startDate <;> cases endDate <;> simp
  · cases hs : startDate with
    | some d => simp [Account.getStatement]
    | none =>
      cases he : endDate with
      | some d => simp [Account.getStatement]
      | none => simp [Account.getStatement]

/-! ## Statement statistics -/

/-- One step of the `forEach` of `#calculateStatistics`, field by field. -/
lemma statisticsStep_fields (acc : Account.Statistics) (t : LogEntry) :
    (Account.statisticsStep acc t).totalDeposits =
        acc.totalDeposits + (if t.type = .DEPOSIT then |t.amount| else 0) ∧
      (Account.statisticsStep acc t).totalWithdrawals =
        acc.totalWithdrawals + (if t.type = .WITHDRAWAL then |t.amount| else 0) ∧
      (Account.statisticsStep acc t).largestDeposit =
        (if t.type = .DEPOSIT then max acc.largestDeposit |t.amount| else acc.largestDeposit) ∧
      (Account.statisticsStep acc t).largestWithdrawal =
        (if t.type = .WITHDRAWAL then max acc.largestWithdrawal |t.amount|
          else acc.largestWithdrawal) ∧
      (Account.statisticsStep acc t).averageTransaction = acc.averageTransaction ∧
      (Account.statisticsStep acc t).totalFees =
        acc.totalFees + (if t.type = .FEE then |t.amount| else 0) := by
  unfold Account.statisticsStep
  cases t.type <;> simp

/-- The `forEach` of `#calculateStatistics`, from any non-negative running maxima: totals grow
by the sums of `|amount|` per type, maxima by the largest `|amount|` per type, and the
average is not touched. -/
lemma foldl_statisticsStep (txs : List LogEntry) (acc : Account.Statistics)
    (hd : 0 ≤ acc.largestDeposit) (hw : 0 ≤ acc.largestWithdrawal) :
    (txs.foldl Account.statisticsStep acc).totalDeposits =
        acc.totalDeposits +
          ((txs.filter (fun e => e.type = .DEPOSIT)).map (fun e => |e.amount|)).sum ∧
      (txs.foldl Account.statisticsStep acc).totalWithdrawals =
        acc.totalWithdrawals +
          ((txs.filter (fun e => e.type = .WITHDRAWAL)).map (fun e => |e.amount|)).sum ∧
      (txs.foldl Account.statisticsStep acc).largestDeposit =
        max acc.largestDeposit
          (((txs.filter (fun e => e.type = .DEPOSIT)).map (fun e => |e.amount|)).foldr max 0) ∧
      (txs.foldl Account.statisticsStep acc).largestWithdrawal =
        max acc.largestWithdrawal
          (((txs.filter (fun e => e.type = .WITHDRAWAL)).map
            (fun e => |e.amount|)).foldr max 0) ∧
      (txs.foldl Account.statisticsStep acc).averageTransaction = acc.averageTransaction ∧
      (txs.foldl Account.statisticsStep acc).totalFees =
        acc.totalFees +
          ((txs.filter (fun e => e.type = .FEE)).map (fun e => |e.amount|)).sum := by
  induction txs generalizing acc with
  | nil => simp [max_eq_left hd, max_eq_left hw]
  | cons t rest ih =>
    obtain ⟨f1, f2, f3, f4, f5, f6⟩ := statisticsStep_fields acc t
    have hd1 : 0 ≤ (Account.statisticsStep acc t).largestDeposit := by
      rw [f3]; split_ifs
      · exact le_max_of_le_left hd
      · exact hd
    have hw1 : 0 ≤ (Account.statisticsStep acc t).largestWithdrawal := by
      rw [f4]; split_ifs
      · exact le_max_of_le_left hw
      · exact hw
    obtain ⟨g1, g2, g3, g4, g5, g6⟩ := ih (Account.statisticsStep acc t) hd1 hw1
    rw [List.foldl_cons, g1, g2, g3, g4, g5, g6, f1, f2, f3, f4, f5, f6]
    refine ⟨?_, ?_, ?_, ?_, rfl, ?_⟩
    · by_cases h : t.type = .DEPOSIT <;> simp [h, List.filter_cons, add_assoc]
    · by_cases h : t.type = .WITHDRAWAL <;> simp [h, List.filter_cons, add_assoc]
    · by_cases h : t.type = .DEPOSIT <;> simp [h, List.filter_cons, max_assoc]
    · by_cases h : t.type = .WITHDRAWAL <;> simp [h, List.filter_cons, max_assoc]
    · by_cases h : t.type = .FEE <;> simp [h, List.filter_cons, add_assoc]

/-- The `reduce` of `#calculateStatistics` is the sum of `|amount|` over the entries. -/
lemma foldl_abs_sum (txs : List LogEntry) (acc : ℚ) :
    txs.foldl (fun sum t => sum + |t.amount|) acc =
      acc + (txs.map (fun e => |e.amount|)).sum := by
  induction txs generalizing acc with
  | nil => simp
  | cons t rest ih => rw [List.foldl_cons, ih]; simp [add_assoc]

/-- The statistics of a list of entries, as sums and maxima. -/
lemma calculateStatistics_eq (txs : List LogEntry) :
    Account.calculateStatistics txs =
      ⟨((txs.filter (fun e => e.type = .DEPOSIT)).map (fun e => |e.amount|)).sum,
        ((txs.filter (fun e => e.type = .WITHDRAWAL)).map (fun e => |e.amount|)).sum,
        ((txs.filter (fun e => e.type = .DEPOSIT)).map (fun e => |e.amount|)).foldr max 0,
        ((txs.filter (fun e => e.type = .WITHDRAWAL)).map (fun e => |e.amount|)).foldr max 0,
        if txs = [] then 0 else (txs.map (fun e => |e.amount|)).sum / txs.length,
        ((txs.filter (fun e => e.type = .FEE)).map (fun e => |e.amount|)).sum⟩ := by
  have hmax : ∀ l : List ℚ, (∀ x ∈ l, 0 ≤ x) → 0 ≤ l.foldr max 0 := by
    intro l hl
    induction l with
    | nil => simp
    | cons x r ih => simp only [List.foldr_cons]; exact le_max_of_le_left (hl x (by simp))
  cases txs with
  | nil => simp [Account.calculateStatistics]
  | cons t rest =>
    have hne : (t :: rest).length ≠ 0 := by simp
    obtain ⟨g1, g2, g3, g4, g5, g6⟩ :=
      foldl_statisticsStep (t :: rest) ⟨0, 0, 0, 0, 0, 0⟩ le_rfl le_rfl
    have h1 := hmax (((t :: rest).filter (fun e => e.type = .DEPOSIT)).map (fun e => |e.amount|))
      (by intro x hx; simp only [List.mem_map] at hx; obtain ⟨e, _, rfl⟩ := hx; exact abs_nonneg _)
    have h2 := hmax
      (((t :: rest).filter (fun e => e.type = .WITHDRAWAL)).map (fun e => |e.amount|))
      (by intro x hx; simp only [List.mem_map] at hx; obtain ⟨e, _, rfl⟩ := hx; exact abs_nonneg _)
    rw [max_eq_right h1] at g3
    rw [max_eq_right h2] at g4
    simp only [zero_add] at g1 g2 g6
    simp only [Account.calculateStatistics, hne, if_false, reduceCtorEq]
    rw [foldl_abs_sum, zero_add, Account.Statistics.mk.injEq]
    exact ⟨g1, g2, g3, g4, rfl, g6⟩

/-- C21: the statistics of `getStatement` are those of the filtered entries it returns:
`totalDeposits`, `totalWithdrawals` and `totalFees` are the sums of `|amount|` over the entries
of type deposit, withdrawal and fee; `largestDeposit` and `largestWithdrawal` are the largest
`|amount|` among the deposit and the withdrawal entries, 0 when there are none;
`averageTransaction` is the sum of `|amount|` over all the entries divided by their number,
and 0 when there is no entry. -/
theorem statement_statistics (self : Account) (startDate endDate : Option Int)
    (txs : List LogEntry) :
    (self.getStatement startDate endDate).1.statistics =
        Account.calculateStatistics (self.getStatement startDate endDate).1.transactions ∧
      Account.calculateStatistics txs =
        ⟨((txs.filter (fun e => e.type = .DEPOSIT)).map (fun e => |e.amount|)).sum,
          ((txs.filter (fun e => e.type = .WITHDRAWAL)).map (fun e => |e.amount|)).sum,
          ((txs.filter (fun e => e.type = .DEPOSIT)).map (fun e => |e.amount|)).foldr max 0,
          ((txs.filter (fun e => e.type = .WITHDRAWAL)).map (fun e => |e.amount|)).foldr max 0,
          if txs = [] then 0 else (txs.map (fun e => |e.amount|)).sum / txs.length,
          ((txs.filter (fun e => e.type = .FEE)).map (fun e => |e.amount|)).sum⟩ :=
  ⟨rfl, calculateStatistics_eq txs⟩

/-! ## Transactions -/

/-- The types `#validateParams` lets through: the five keys of `CONFIG.TRANSACTION.TYPES` and
the names inherited from `Object.prototype`. -/
lemma truthyAt_types_iff (type : String) :
    truthyAt CONFIG.TRANSACTION.TYPES type = true ↔
      type ∈ ["DEPOSIT", "WITHDRAWAL", "TRANSFER", "INTEREST", "FEE"] ∨
        type ∈ objectPrototypeKeys := by
  by_cases h1 : type = "DEPOSIT"
  · subst h1; simp [truthyAt, CONFIG.TRANSACTION.TYPES, List.lookup]
  by_cases h2 : type = "WITHDRAWAL"
  · subst h2; simp [truthyAt, CONFIG.TRANSACTION.TYPES, List.lookup]
  by_cases h3 : type = "TRANSFER"
  · subst h3; simp [truthyAt, CONFIG.TRANSACTION.TYPES, List.lookup]
  by_cases h4 : type = "INTEREST"
  · subst h4; simp [truthyAt, CONFIG.TRANSACTION.TYPES, List.lookup]
  by_cases h5 : type = "FEE"
  · subst h5; simp [truthyAt, CONFIG.TRANSACTION.TYPES, List.lookup]
  have hl : CONFIG.TRANSACTION.TYPES.lookup type = none := by
    have e1 : (type == "DEPOSIT") = false := by simpa using h1
    have e2 : (type == "WITHDRAWAL") = false := by simpa using h2
    have e3 : (type == "TRANSFER") = false := by simpa using h3
    have e4 : (type == "INTEREST") = false := by simpa using h4
    have e5 : (type == "FEE") = false := by simpa using h5
    simp only [CONFIG.TRANSACTION.TYPES, List.lookup, e1, e2, e3, e4, e5]
  simp [truthyAt, hl, h1, h2, h3, h4, h5]

/-- A string that starts with `REVERSAL_` is no key of `CONFIG.TRANSACTION.TYPES` and no name
inherited from `Object.prototype`. -/
lemma reversal_type_rejected (type : String) :
    truthyAt CONFIG.TRANSACTION.TYPES ("REVERSAL_" ++ type) = false := by
  have hhead : ("REVERSAL_" ++ type).data.head? = some 'R' := by
    simp [String.data_append]
  have hne : ∀ k : String, k.data.head? ≠ some 'R' → "REVERSAL_" ++ type ≠ k := by
    intro k hk h
    rw [h] at hhead
    exact hk hhead
  cases hb : truthyAt CONFIG.TRANSACTION.TYPES ("REVERSAL_" ++ type) with
  | false => rfl
  | true =>
    exfalso
    rcases (truthyAt_types_iff _).mp hb with h | h
    · simp only [List.mem_cons, List.mem_singleton, List.not_mem_nil, or_false] at h
      rcases h with h | h | h | h | h <;> exact hne _ (by decide) h
    · simp only [objectPrototypeKeys, List.mem_cons, List.mem_singleton, List.not_mem_nil,
        or_false] at h
      rcases h with h | h | h | h | h | h | h | h | h | h | h | h <;>
        exact hne _ (by decide) h

/-- The check `#validateParams` passes exactly on a non-empty type with a truthy entry in the
type table, a finite amount above 0 and at most the maximum, and a non-empty source
account. -/
lemma validateParams_ok_iff (type : String) (amount : JSNumber) (fromAccount : Option String)
    (a : ℚ) (f : String) :
    Transaction.validateParams type amount fromAccount = .ok (a, f) ↔
      type ≠ "" ∧ truthyAt CONFIG.TRANSACTION.TYPES type = true ∧ amount = .finite a ∧
        0 < a ∧ a ≤ 1000000 ∧ fromAccount = some f ∧ f ≠ "" := by
  unfold Transaction.validateParams
  split_ifs with h1
  · simp only [Bool.or_eq_true, decide_eq_true_eq, Bool.not_eq_true'] at h1
    simp only [reduceCtorEq, false_iff]
    rintro ⟨hne, ht, _⟩
    rcases h1 with h | h
    · exact hne h
    · rw [ht] at h; cases h
  · simp only [Bool.or_eq_true, decide_eq_true_eq, Bool.not_eq_true', not_or,
      Bool.not_eq_false] at h1
    cases amount with
    | finite q =>
      simp only [CONFIG.TRANSACTION.MAX_AMOUNT]
      split_ifs with h2 h3
      · simp only [reduceCtorEq, JSNumber.finite.injEq, false_iff]
        rintro ⟨_, _, rfl, hpos, _⟩
        linarith
      · simp only [reduceCtorEq, JSNumber.finite.injEq, false_iff]
        rintro ⟨_, _, rfl, _, hle, _⟩
        linarith
      · cases fromAccount with
        | none => simp
        | some g =>
          by_cases hg : g = ""
          · simp only [hg, if_true, reduceCtorEq, JSNumber.finite.injEq, Option.some.injEq,
              false_iff]
            rintro ⟨_, _, _, _, _, rfl, hf⟩
            exact hf rfl
          · simp only [hg, if_false, Except.ok.injEq, Prod.mk.injEq, JSNumber.finite.injEq,
              Option.some.injEq]
            constructor
            · rintro ⟨rfl, rfl⟩
              exact ⟨h1.1, h1.2, rfl, not_le.mp h2, not_lt.mp h3, rfl, hg⟩
            · rintro ⟨_, _, rfl, _, _, rfl, _⟩
              exact ⟨rfl, rfl⟩
    | nan => simp
    | posInf => simp
    | negInf => simp

/-- A successful constructor call has passed `#validateParams`, and gives a Pending
transaction with the fields of the call. -/
lemma transaction_create_ok (env : TransactionEnv) (params : TransactionParams)
    (t : Transaction) (h : Transaction.create env params = .ok t) :
    ∃ a f, Transaction.validateParams params.type params.amount params.fromAccount
        = .ok (a, f) ∧
      t = { id := env.id
            timestamp := env.timestamp
            status := TransactionStatus.PENDING
            type := params.type
            amount := a
            fromAccount := f
            toAccount := params.toAccount
            description := params.description.getD ""
            category := Transaction.determineCategory params.category params.type
            metadata :=
              (Metadata.set (params.metadata.getD []) "deviceInfo" env.deviceInfo).set
                "location" MetaValue.null } := by
  unfold Transaction.create at h
  split at h
  · cases h
  · rename_i a f hv
    cases h
    exact ⟨a, f, hv, rfl⟩

/-- Whatever the status, `reverse` throws: from the guard when the status is not Completed,
and otherwise from the nested constructor call, after the status and the metadata have been
assigned. -/
lemma reverse_outcome (t : Transaction) (now : Int) (env : TransactionEnv) (reason : String) :
    (t.status ≠ TransactionStatus.COMPLETED ∧
        t.reverse now env reason =
          (.error ⟨"Transaction cannot be reversed. Current status: " ++ t.status.value⟩, t)) ∨
      (t.status = TransactionStatus.COMPLETED ∧
        t.reverse now env reason =
          (.error ⟨"Invalid transaction type"⟩,
            { t with
              status := TransactionStatus.REVERSED
              metadata := (t.metadata.set "reversedAt" (.date now)).set "reversalReason"
                (.text reason) })) := by
  by_cases hs : t.status = TransactionStatus.COMPLETED
  · right
    refine ⟨hs, ?_⟩
    simp only [Transaction.reverse, hs, ne_eq, not_true_eq_false, if_false,
      Transaction.create, Transaction.validateParams, reversal_type_rejected,
      Bool.not_false, Bool.or_true, if_true]
  · left
    exact ⟨hs, by simp only [Transaction.reverse, ne_eq, hs, not_false_eq_true, if_true]⟩

/-- C22: a newly constructed `Transaction` is Pending; on a Pending transaction `complete`
returns `true` and sets the status to Completed, `fail` sets it to Failed and `cancel` sets it
to Cancelled, each recording its time and arguments in the metadata. -/
theorem pending_transaction_moves (env : TransactionEnv) (params : TransactionParams)
    (t0 t : Transaction) (now : Int) (result details : Option MetaValue) (reason : String)
    (hs : t.status = TransactionStatus.PENDING) :
    (Transaction.create env params = .ok t0 → t0.status = TransactionStatus.PENDING) ∧
      t.complete now result =
        (.ok true,
          { t with
            status := TransactionStatus.COMPLETED
            metadata := (t.metadata.set "completedAt" (.date now)).set "result"
              (result.getD (.record [])) }) ∧
      t.fail now reason details =
        (.ok (),
          { t with
            status := TransactionStatus.FAILED
            metadata := ((t.metadata.set "failedAt" (.date now)).set "failureReason"
              (.text reason)).set "failureDetails" (details.getD (.record [])) }) ∧
      t.cancel now reason =
        (.ok (),
          { t with
            status := TransactionStatus.CANCELLED
            metadata := (t.metadata.set "cancelledAt" (.date now)).set "cancellationReason"
              (.text reason) }) := by
  refine ⟨fun h => ?_, ?_, ?_, ?_⟩
  · obtain ⟨a, f, _, rfl⟩ := transaction_create_ok env params t0 h
    rfl
  · simp [Transaction.complete, hs]
  · simp [Transaction.fail, hs]
  · simp [Transaction.cancel, hs]

theorem pending_transaction_moves_witness :
    ((⟨"TXN1", 5, .PENDING, [], "DEPOSIT", 100, "ACC-1", none, "", .null⟩ :
        Transaction).complete 9 none).1 = .ok true ∧
      ((⟨"TXN1", 5, .PENDING, [], "DEPOSIT", 100, "ACC-1", none, "", .null⟩ :
        Transaction).complete 9 none).2.status = TransactionStatus.COMPLETED :=
  ⟨congrArg Prod.fst (pending_transaction_moves ⟨"TXN2", 6, .null⟩
      ⟨"DEPOSIT", .finite 100, some "ACC-1", none, none, none, none⟩
      ⟨"TXN1", 5, .PENDING, [], "DEPOSIT", 100, "ACC-1", none, "", .null⟩
      ⟨"TXN1", 5, .PENDING, [], "DEPOSIT", 100, "ACC-1", none, "", .null⟩ 9 none none "r"
      rfl).2.1,
    congrArg (fun r => r.2.status) (pending_transaction_moves ⟨"TXN2", 6, .null⟩
      ⟨"DEPOSIT", .finite 100, some "ACC-1", none, none, none, none⟩
      ⟨"TXN1", 5, .PENDING, [], "DEPOSIT", 100, "ACC-1", none, "", .null⟩
      ⟨"TXN1", 5, .PENDING, [], "DEPOSIT", 100, "ACC-1", none, "", .null⟩ 9 none none "r"
      rfl).2.1⟩

/-- C23: on a transaction whose status is not Pending, `complete`, `fail` and `cancel` throw
and leave the transaction as it was; on one whose status is not Completed, `reverse` throws
and leaves it as it was.  So from Failed, Cancelled and Reversed none of the four calls
changes the status. -/
theorem wrong_status_rejected (t : Transaction) (now : Int) (env : TransactionEnv)
    (result details : Option MetaValue) (reason : String) :
    (t.status ≠ TransactionStatus.PENDING →
        t.complete now result =
            (.error ⟨"Transaction cannot be completed. Current status: " ++ t.status.value⟩,
              t) ∧
          t.fail now reason details =
            (.error ⟨"Transaction cannot be failed. Current status: " ++ t.status.value⟩, t) ∧
          t.cancel now reason =
            (.error ⟨"Transaction cannot be cancelled. Current status: " ++ t.status.value⟩,
              t)) ∧
      (t.status ≠ TransactionStatus.COMPLETED →
        t.reverse now env reason =
          (.error ⟨"Transaction cannot be reversed. Current status: " ++ t.status.value⟩,
            t)) ∧
      (t.status = TransactionStatus.FAILED ∨ t.status = TransactionStatus.CANCELLED ∨
          t.status = TransactionStatus.REVERSED →
        (t.complete now result).2 = t ∧ (t.fail now reason details).2 = t ∧
          (t.cancel now reason).2 = t ∧ (t.reverse now env reason).2 = t) := by
  have hp : t.status ≠ TransactionStatus.PENDING →
      t.complete now result =
          (.error ⟨"Transaction cannot be completed. Current status: " ++ t.status.value⟩,
            t) ∧
        t.fail now reason details =
          (.error ⟨"Transaction cannot be failed. Current status: " ++ t.status.value⟩, t) ∧
        t.cancel now reason =
          (.error ⟨"Transaction cannot be cancelled. Current status: " ++ t.status.value⟩,
            t) := by
    intro hs
    simp [Transaction.complete, Transaction.fail, Transaction.cancel, hs]
  have hc : t.status ≠ TransactionStatus.COMPLETED →
      t.reverse now env reason =
        (.error ⟨"Transaction cannot be reversed. Current status: " ++ t.status.value⟩, t) := by
    intro hs
    simp [Transaction.reverse, hs]
  refine ⟨hp, hc, fun h => ?_⟩
  have h1 : t.status ≠ TransactionStatus.PENDING := by
    rcases h with h | h | h <;> simp [h]
  have h2 : t.status ≠ TransactionStatus.COMPLETED := by
    rcases h with h | h | h <;> simp [h]
  obtain ⟨e1, e2, e3⟩ := hp h1
  rw [e1, e2, e3, hc h2]
  exact ⟨rfl, rfl, rfl, rfl⟩

theorem wrong_status_rejected_witness :
    (⟨"TXN1", 5, .FAILED, [], "DEPOSIT", 100, "ACC-1", none, "", .null⟩ :
        Transaction).reverse 9 ⟨"TXN2", 9, .null⟩ "oops" =
      (.error ⟨"Transaction cannot be reversed. Current status: " ++
          TransactionStatus.FAILED.value⟩,
        ⟨"TXN1", 5, .FAILED, [], "DEPOSIT", 100, "ACC-1", none, "", .null⟩) :=
  (wrong_status_rejected ⟨"TXN1", 5, .FAILED, [], "DEPOSIT", 100, "ACC-1", none, "", .null⟩ 9
    ⟨"TXN2", 9, .null⟩ none none "oops").2.1 (by decide)

/-- C24 does not hold of the code: on every Completed transaction `reverse` sets the status to
Reversed and records the reversal in the metadata, and then throws "Invalid transaction type"
from the constructor call for the new transaction, whose type `REVERSAL_` followed by the
old type is not in the type table.  No call of `reverse` returns a transaction. -/
theorem reverse_of_completed_throws (t : Transaction) (now : Int) (env : TransactionEnv)
    (reason : String) (hs : t.status = TransactionStatus.COMPLETED) :
    t.reverse now env reason =
        (.error ⟨"Invalid transaction type"⟩,
          { t with
            status := TransactionStatus.REVERSED
            metadata := (t.metadata.set "reversedAt" (.date now)).set "reversalReason"
              (.text reason) }) ∧
      ∀ (t1 : Transaction) (now1 : Int) (env1 : TransactionEnv) (reason1 : String),
        failed (t1.reverse now1 env1 reason1).1 = true := by
  constructor
  · rcases reverse_outcome t now env reason with ⟨h, _⟩ | ⟨_, h⟩
    · exact absurd hs h
    · exact h
  · intro t1 now1 env1 reason1
    rcases reverse_outcome t1 now1 env1 reason1 with ⟨_, h⟩ | ⟨_, h⟩ <;> rw [h] <;> rfl

theorem reverse_of_completed_throws_witness :
    (⟨"TXN1", 5, .COMPLETED, [], "DEPOSIT", 100, "ACC-1", some "ACC-2", "rent", .null⟩ :
        Transaction).reverse 9 ⟨"TXN2", 9, .null⟩ "oops" =
      (.error ⟨"Invalid transaction type"⟩,
        ⟨"TXN1", 5, .REVERSED,
          (Metadata.set [] "reversedAt" (.date 9)).set "reversalReason" (.text "oops"),
          "DEPOSIT", 100, "ACC-1", some "ACC-2", "rent", .null⟩) :=
  (reverse_of_completed_throws
    ⟨"TXN1", 5, .COMPLETED, [], "DEPOSIT", 100, "ACC-1", some "ACC-2", "rent", .null⟩ 9
    ⟨"TXN2", 9, .null⟩ "oops" rfl).1

/-- C25 holds of `complete`, `fail` and `cancel`, whose only throw comes before any
assignment, and does not hold of `reverse`: on a Completed transaction it throws after the
status has become Reversed and the metadata has grown by `reversedAt` and
`reversalReason`. -/
theorem failed_transaction_call (t : Transaction) (now : Int) (env : TransactionEnv)
    (result details : Option MetaValue) (reason : String) :
    (failed (t.complete now result).1 = true → (t.complete now result).2 = t) ∧
      (failed (t.fail now reason details).1 = true → (t.fail now reason details).2 = t) ∧
      (failed (t.cancel now reason).1 = true → (t.cancel now reason).2 = t) ∧
      (t.status = TransactionStatus.COMPLETED →
        failed (t.reverse now env reason).1 = true ∧
          (t.reverse now env reason).2.status = TransactionStatus.REVERSED ∧
          (t.reverse now env reason).2.status ≠ t.status ∧
          (t.reverse now env reason).2.metadata =
            (t.metadata.set "reversedAt" (.date now)).set "reversalReason" (.text reason)) := by
  refine ⟨fun h => ?_, fun h => ?_, fun h => ?_, fun hs => ?_⟩
  · by_cases hs : t.status = TransactionStatus.PENDING
    · simp [Transaction.complete, hs, failed] at h
    · simp [Transaction.complete, hs]
  · by_cases hs : t.status = TransactionStatus.PENDING
    · simp [Transaction.fail, hs, failed] at h
    · simp [Transaction.fail, hs]
  · by_cases hs : t.status = TransactionStatus.PENDING
    · simp [Transaction.cancel, hs, failed] at h
    · simp [Transaction.cancel, hs]
  · rcases reverse_outcome t now env reason with ⟨h, _⟩ | ⟨_, h⟩
    · exact absurd hs h
    · rw [h]
      exact ⟨rfl, rfl, by simp [hs], rfl⟩

theorem failed_transaction_call_witness :
    failed ((⟨"TXN1", 5, .COMPLETED, [], "DEPOSIT", 100, "ACC-1", none, "", .null⟩ :
        Transaction).reverse 9 ⟨"TXN2", 9, .null⟩ "oops").1 = true ∧
      ((⟨"TXN1", 5, .COMPLETED, [], "DEPOSIT", 100, "ACC-1", none, "", .null⟩ :
        Transaction).reverse 9 ⟨"TXN2", 9, .null⟩ "oops").2.status =
        TransactionStatus.REVERSED ∧
      ((⟨"TXN1", 5, .COMPLETED, [], "DEPOSIT", 100, "ACC-1", none, "", .null⟩ :
        Transaction).reverse 9 ⟨"TXN2", 9, .null⟩ "oops").2.status ≠
        (⟨"TXN1", 5, .COMPLETED, [], "DEPOSIT", 100, "ACC-1", none, "", .null⟩ :
          Transaction).status ∧
      ((⟨"TXN1", 5, .COMPLETED, [], "DEPOSIT", 100, "ACC-1", none, "", .null⟩ :
        Transaction).reverse 9 ⟨"TXN2", 9, .null⟩ "oops").2.metadata =
        (Metadata.set [] "reversedAt" (.date 9)).set "reversalReason" (.text "oops") :=
  (failed_transaction_call
    ⟨"TXN1", 5, .COMPLETED, [], "DEPOSIT", 100, "ACC-1", none, "", .null⟩ 9
    ⟨"TXN2", 9, .null⟩ none none "oops").2.2.2 rfl

/-- C26 does not hold of the code.  The constructor looks the type up among the property
names of the type table, not among its values: it succeeds exactly when the type is one of
the keys `DEPOSIT`, `WITHDRAWAL`, `TRANSFER`, `INTEREST`, `FEE` or a name inherited from
`Object.prototype`, the amount is finite with `0 < amount ≤ 1000000`, and the source account
is a non-empty string.  So the configured type `deposit` is refused and the type `toString`
is accepted. -/
theorem transaction_construction_accepts (env : TransactionEnv) (params : TransactionParams) :
    (failed (Transaction.create env params) = false ↔
        (params.type ∈ ["DEPOSIT", "WITHDRAWAL", "TRANSFER", "INTEREST", "FEE"] ∨
            params.type ∈ objectPrototypeKeys) ∧
          (∃ a : ℚ, params.amount = .finite a ∧ 0 < a ∧ a ≤ 1000000) ∧
          ∃ f : String, params.fromAccount = some f ∧ f ≠ "") ∧
      Transaction.create env ⟨"deposit", .finite 100, some "ACC-1", none, none, none, none⟩ =
        .error ⟨"Invalid transaction type"⟩ ∧
      failed (Transaction.create env
        ⟨"toString", .finite 100, some "ACC-1", none, none, none, none⟩) = false ∧
      failed (Transaction.create env
        ⟨"DEPOSIT", .finite 1000000, some "ACC-1", none, none, none, none⟩) = false := by
  refine ⟨?_, ?_, ?_, ?_⟩
  · constructor
    · intro h
      cases hc : Transaction.create env params with
      | error e => rw [hc] at h; cases h
      | ok t =>
        obtain ⟨a, f, hv, _⟩ := transaction_create_ok env params t hc
        obtain ⟨_, ht, ha, h0, h1, hf, hne⟩ := (validateParams_ok_iff _ _ _ a f).mp hv
        exact ⟨(truthyAt_types_iff _).mp ht, ⟨a, ha, h0, h1⟩, ⟨f, hf, hne⟩⟩
    · rintro ⟨ht, ⟨a, ha, h0, h1⟩, ⟨f, hf, hne⟩⟩
      have hty : params.type ≠ "" := by
        intro h0
        rw [h0] at ht
        revert ht
        decide
      have hv := (validateParams_ok_iff params.type params.amount params.fromAccount a f).mpr
        ⟨hty, (truthyAt_types_iff _).mpr ht, ha, h0, h1, hf, hne⟩
      simp only [Transaction.create, hv, failed]
  · have hno : truthyAt CONFIG.TRANSACTION.TYPES "deposit" = false := by decide
    simp [Transaction.create, Transaction.validateParams, hno]
  · have hv := (validateParams_ok_iff "toString" (.finite 100) (some "ACC-1") 100 "ACC-1").mpr
      ⟨by decide, by decide, rfl, by norm_num, by norm_num, rfl, by decide⟩
    simp only [Transaction.create, hv, failed]
  · have hv := (validateParams_ok_iff "DEPOSIT" (.finite 1000000) (some "ACC-1") 1000000
      "ACC-1").mpr ⟨by decide, by decide, rfl, by norm_num, by norm_num, rfl, by decide⟩
    simp only [Transaction.create, hv, failed]

/-- C27 does not hold of the code in its first part.  A type that passes the constructor is a
key of the type table or a name of `Object.prototype`, while `#determineCategory` compares the
type with the values `deposit`, `withdrawal`, `transfer`, `interest`, `fee`; so with no
category supplied every constructed transaction has category `null`.  The second part
holds: a supplied category that is a key of `TransactionCategory` is kept. -/
theorem category_of_constructed (env : TransactionEnv) (params : TransactionParams)
    (t : Transaction) (h : Transaction.create env params = .ok t) :
    (params.category = none → t.category = OptString.null) ∧
      (∀ c : String, params.category = some c →
        c ∈ ["INCOME", "EXPENSE", "TRANSFER", "INVESTMENT", "SAVINGS", "BILLS"] →
        t.category = OptString.str c) := by
  obtain ⟨a, f, hv, rfl⟩ := transaction_create_ok env params t h
  obtain ⟨_, ht, _⟩ := (validateParams_ok_iff _ _ _ a f).mp hv
  constructor
  · intro hc
    simp only [hc]
    rcases (truthyAt_types_iff _).mp ht with hk | hk
    · simp only [List.mem_cons, List.mem_singleton, List.not_mem_nil, or_false] at hk
      rcases hk with hk | hk | hk | hk | hk <;> rw [hk] <;> rfl
    · simp only [objectPrototypeKeys, List.mem_cons, List.mem_singleton, List.not_mem_nil,
        or_false] at hk
      rcases hk with hk | hk | hk | hk | hk | hk | hk | hk | hk | hk | hk | hk <;>
        rw [hk] <;> rfl
  · intro c hc hmem
    simp only [hc]
    simp only [List.mem_cons, List.mem_singleton, List.not_mem_nil, or_false] at hmem
    rcases hmem with hk | hk | hk | hk | hk | hk <;> subst hk <;> rfl

theorem category_of_constructed_witness :
    Transaction.create ⟨"TXN1", 5, .null⟩
        ⟨"DEPOSIT", .finite 100, some "ACC-1", none, none, none, none⟩ =
      .ok ⟨"TXN1", 5, TransactionStatus.PENDING,
        (Metadata.set [] "deviceInfo" MetaValue.null).set "location" MetaValue.null,
        "DEPOSIT", 100, "ACC-1", none, "", OptString.null⟩ ∧
    (⟨"TXN1", 5, TransactionStatus.PENDING,
        (Metadata.set [] "deviceInfo" MetaValue.null).set "location" MetaValue.null,
        "DEPOSIT", 100, "ACC-1", none, "", OptString.null⟩ : Transaction).category =
      OptString.null :=
  ⟨rfl, (category_of_constructed ⟨"TXN1", 5, .null⟩
    ⟨"DEPOSIT", .finite 100, some "ACC-1", none, none, none, none⟩
    ⟨"TXN1", 5, TransactionStatus.PENDING,
      (Metadata.set [] "deviceInfo" MetaValue.null).set "location" MetaValue.null,
      "DEPOSIT", 100, "ACC-1", none, "", OptString.null⟩ rfl).1 rfl⟩

/-! ## Loans -/

/-- The loop of `calculateAmortizationSchedule` adds one row per iteration, each computed
from the balance the iterations before it have left. -/
lemma scheduleLoop_eq (m : ℚ) (mp : JSNumber) (k : Nat) :
    ∀ (i : Nat) (b : JSNumber) (acc : List ScheduleRow),
      Utils.scheduleLoop m mp k i b acc =
        acc ++ (List.range k).map (fun j =>
          (⟨i + j, mp,
            jsSub mp (jsMul ((fun x => jsSub x (jsSub mp (jsMul x (.finite m))))^[j] b)
              (.finite m)),
            jsMul ((fun x => jsSub x (jsSub mp (jsMul x (.finite m))))^[j] b) (.finite m),
            mathMax (.finite 0)
              ((fun x => jsSub x (jsSub mp (jsMul x (.finite m))))^[j + 1] b)⟩ :
            ScheduleRow)) := by
  induction k with
  | zero => intro i b acc; simp [Utils.scheduleLoop]
  | succ k ih =>
    intro i b acc
    rw [Utils.scheduleLoop, ih, List.range_succ_eq_map, List.map_cons, List.map_map,
      List.append_assoc]
    congr 1
    simp only [List.singleton_append, Function.iterate_zero, id_eq, Nat.add_zero,
      Function.iterate_succ, Function.comp_apply, List.cons.injEq, true_and]
    apply List.map_congr_left
    intro j _
    simp only [Function.comp_apply, Nat.succ_eq_add_one, Function.iterate_succ]
    congr 1
    omega

/-- The running balance is the balance the loop has reached. -/
lemma runningBalance_eq_iterate (m : ℚ) (mp : JSNumber) (P : ℚ) (j : Nat) :
    Utils.runningBalance m mp P j =
      (fun x => jsSub x (jsSub mp (jsMul x (.finite m))))^[j] (.finite P) := by
  induction j with
  | zero => rfl
  | succ j ih => rw [Utils.runningBalance, ih, Function.iterate_succ_apply']

/-- C28, as stated, fails: the operators round to doubles.  The rate `2 ^ (-53)` is a double
above 0, and with it `1 + rate / 12` is rounded to 1.  Whatever `Math.pow` is as long as
`Math.pow(1, 12)` is 1, the denominator that `calculateLoanPayment(1000, 2 ^ (-53), 1)`
computes is 0 and the call returns `Infinity`, which is not the quotient of the claim: that
quotient has a denominator other than 0. -/
theorem loan_payment_zero_denominator :
    (∀ mathPow : JSNumber → JSNumber → JSNumber,
      mathPow (.finite 1) (.finite 12) = .finite 1 →
        Binary64.sub
            (mathPow (Binary64.add (.finite 1) (Binary64.div (.finite (1 / 2 ^ 53)) (.finite 12)))
              (Binary64.mul (.finite 1) (.finite 12))) (.finite 1) = .finite 0 ∧
          Binary64.Utils.calculateLoanPayment mathPow (.finite 1000) (.finite (1 / 2 ^ 53))
            (.finite 1) = .posInf) ∧
      Binary64.toDouble (1 / 2 ^ 53) = .finite (1 / 2 ^ 53) ∧
      (0 : ℚ) < 1 / 2 ^ 53 ∧
      (1 + (1 / 2 ^ 53 : ℚ) / 12) ^ (12 * 1) - 1 ≠ 0 := by
  refine ⟨?_, by decide!, by decide!, by decide!⟩
  intro mathPow h
  have hbase : Binary64.add (.finite 1) (Binary64.div (.finite (1 / 2 ^ 53)) (.finite 12)) =
      .finite 1 := by decide!
  have hexp : Binary64.mul (.finite 1) (.finite 12) = .finite 12 := by decide!
  have hden : Binary64.sub (.finite 1) (.finite 1) = .finite 0 := by decide!
  have hnum : Binary64.div
      (Binary64.mul (Binary64.mul (.finite 1000)
        (Binary64.div (.finite (1 / 2 ^ 53)) (.finite 12))) (.finite 1)) (.finite 0) =
      .posInf := by decide!
  simp only [Binary64.Utils.calculateLoanPayment, hbase, hexp, h, hden, hnum, and_self]

/-- C28, amended: in exact arithmetic, for a principal `P`, an annual rate `r > 0` and a whole
positive number of years, with `m = r / 12` and `n = 12 * years`, the denominator
`(1 + m) ^ n - 1` is not zero and `calculateLoanPayment` is
`P * m * (1 + m) ^ n / ((1 + m) ^ n - 1)`.  Exact arithmetic means that every number is a
rational, no operator rounds, and `Math.pow` gives the exact power at whole exponents. -/
theorem loan_payment_formula (mathPow : ℚ → ℚ → ℚ) (P r : ℚ) (t : ℕ)
    (hpow : ∀ (x : ℚ) (k : ℕ), mathPow x (k : ℚ) = x ^ k) (hr : 0 < r) (ht : 0 < t) :
    (1 + r / 12) ^ (12 * t) - 1 ≠ 0 ∧
      Utils.calculateLoanPayment mathPow P r t =
        .finite (P * (r / 12) * (1 + r / 12) ^ (12 * t) / ((1 + r / 12) ^ (12 * t) - 1)) := by
  have hbase : (1 : ℚ) < 1 + r / 12 := by linarith [div_pos hr (by norm_num : (0 : ℚ) < 12)]
  have hgt : (1 : ℚ) < (1 + r / 12) ^ (12 * t) := one_lt_pow₀ hbase (by omega)
  have hden : (1 + r / 12) ^ (12 * t) - 1 ≠ 0 := by
    intro h0
    linarith
  refine ⟨hden, ?_⟩
  have hexp : ((t : ℚ) * 12) = ((12 * t : ℕ) : ℚ) := by push_cast; ring
  simp only [Utils.calculateLoanPayment, hexp, hpow, jsDiv, hden, if_false]

theorem loan_payment_formula_witness :
    (1 + (12 / 100 : ℚ) / 12) ^ (12 * 1) - 1 ≠ 0 ∧
      Utils.calculateLoanPayment (fun x p => x ^ p.num.toNat) 1200 (12 / 100) ((1 : ℕ) : ℚ) =
        .finite (1200 * ((12 / 100 : ℚ) / 12) * (1 + (12 / 100 : ℚ) / 12) ^ (12 * 1) /
          ((1 + (12 / 100 : ℚ) / 12) ^ (12 * 1) - 1)) :=
  loan_payment_formula (fun x p => x ^ p.num.toNat) 1200 (12 / 100) 1 (fun x k => by simp)
    (by norm_num) (by norm_num)

/-- C29, as stated, fails: the code has no case for a zero rate.  With principal 1200, rate 0
and 1 year the payment is `0 / 0`, that is `NaN`, not `1200 / 12`. -/
theorem zero_rate_payment_is_nan :
    Utils.calculateLoanPayment (fun x p => x ^ p.num.toNat) 1200 0 ((1 : ℕ) : ℚ) = .nan ∧
      Utils.calculateLoanPayment (fun x p => x ^ p.num.toNat) 1200 0 ((1 : ℕ) : ℚ) ≠
        .finite (1200 / (12 * 1)) := by
  have h : Utils.calculateLoanPayment (fun x p => x ^ p.num.toNat) 1200 0 ((1 : ℕ) : ℚ)
      = .nan := by
    simp [Utils.calculateLoanPayment, jsDiv, infOfSign]
  rw [h]
  exact ⟨rfl, by simp⟩

/-- C29, amended: for every principal and every whole number of years the payment of a
zero-rate loan is `NaN`: the numerator `P * 0 * 1` and the denominator `1 - 1` are both 0, and
the code divides them.  Arithmetic is exact, and `Math.pow` is taken to give the exact power
at whole exponents. -/
theorem zero_rate_payment (mathPow : ℚ → ℚ → ℚ) (P : ℚ) (t : ℕ)
    (hpow : ∀ (x : ℚ) (k : ℕ), mathPow x (k : ℚ) = x ^ k) :
    Utils.calculateLoanPayment mathPow P 0 t = .nan := by
  have hexp : ((t : ℚ) * 12) = ((12 * t : ℕ) : ℚ) := by push_cast; ring
  unfold Utils.calculateLoanPayment
  simp only [hexp, hpow]
  simp [jsDiv, infOfSign]

theorem zero_rate_payment_witness :
    Utils.calculateLoanPayment (fun x p => x ^ p.num.toNat) 1200 0 ((1 : ℕ) : ℚ) = .nan :=
  zero_rate_payment (fun x p => x ^ p.num.toNat) 1200 1 (fun x k => by simp)

/-- C30: for a principal `P`, an annual rate `r` and a whole number of years,
`calculateAmortizationSchedule` returns `12 * years` rows; row `i`, counted from 1, has payment
index `i`, `monthlyPayment = calculateLoanPayment(P, r, years)`, interest the running balance
before the row times `r / 12`, principal the payment less that interest, and balance
`Math.max(0, ·)` of the running balance after the row, where the running balance starts at `P`
and each row takes its principal portion. -/
theorem schedule_rows (mathPow : ℚ → ℚ → ℚ) (P r : ℚ) (t : ℕ) :
    (Utils.calculateAmortizationSchedule mathPow P r t).length = 12 * t ∧
      ∀ j : ℕ, j < 12 * t →
        (Utils.calculateAmortizationSchedule mathPow P r t)[j]? =
          some ⟨j + 1, Utils.calculateLoanPayment mathPow P r t,
            jsSub (Utils.calculateLoanPayment mathPow P r t)
              (jsMul (Utils.runningBalance (r / 12) (Utils.calculateLoanPayment mathPow P r t)
                P j) (.finite (r / 12))),
            jsMul (Utils.runningBalance (r / 12) (Utils.calculateLoanPayment mathPow P r t)
              P j) (.finite (r / 12)),
            mathMax (.finite 0)
              (Utils.runningBalance (r / 12) (Utils.calculateLoanPayment mathPow P r t) P
                (j + 1))⟩ := by
  have hcount : ⌊(t : ℚ) * 12⌋.toNat = 12 * t := by
    have : ((t : ℚ) * 12) = (((12 * t : ℕ) : ℤ) : ℚ) := by push_cast; ring
    rw [this, Int.floor_intCast, Int.toNat_natCast]
  constructor
  · simp only [Utils.calculateAmortizationSchedule, hcount, scheduleLoop_eq, List.nil_append,
      List.length_map, List.length_range]
  · intro j hj
    simp only [Utils.calculateAmortizationSchedule, hcount, scheduleLoop_eq, List.nil_append,
      List.getElem?_map, List.getElem?_range hj, Option.map_some', runningBalance_eq_iterate]
    rw [Nat.add_comm 1 j]

/-! ## Schedules in closed form -/

/-- Row `j`, counted from 0, of a schedule over a whole number of years. -/
lemma schedule_getElem (mathPow : ℚ → ℚ → ℚ) (P r : ℚ) (t j : ℕ) (hj : j < 12 * t) :
    (Utils.calculateAmortizationSchedule mathPow P r t)[j]? =
      some ⟨j + 1, Utils.calculateLoanPayment mathPow P r t,
        jsSub (Utils.calculateLoanPayment mathPow P r t)
          (jsMul (Utils.runningBalance (r / 12) (Utils.calculateLoanPayment mathPow P r t)
            P j) (.finite (r / 12))),
        jsMul (Utils.runningBalance (r / 12) (Utils.calculateLoanPayment mathPow P r t)
          P j) (.finite (r / 12)),
        mathMax (.finite 0)
          (Utils.runningBalance (r / 12) (Utils.calculateLoanPayment mathPow P r t) P
            (j + 1))⟩ := by
  have hcount : ⌊(t : ℚ) * 12⌋.toNat = 12 * t := by
    have : ((t : ℚ) * 12) = (((12 * t : ℕ) : ℤ) : ℚ) := by push_cast; ring
    rw [this, Int.floor_intCast, Int.toNat_natCast]
  simp only [Utils.calculateAmortizationSchedule, hcount, scheduleLoop_eq, List.nil_append,
    List.getElem?_map, List.getElem?_range hj, Option.map_some', runningBalance_eq_iterate]
  rw [Nat.add_comm 1 j]

/-- The number of rows of a schedule over a whole number of years. -/
lemma schedule_length (mathPow : ℚ → ℚ → ℚ) (P r : ℚ) (t : ℕ) :
    (Utils.calculateAmortizationSchedule mathPow P r t).length = 12 * t := by
  have hcount : ⌊(t : ℚ) * 12⌋.toNat = 12 * t := by
    have : ((t : ℚ) * 12) = (((12 * t : ℕ) : ℤ) : ℚ) := by push_cast; ring
    rw [this, Int.floor_intCast, Int.toNat_natCast]
  simp only [Utils.calculateAmortizationSchedule, hcount, scheduleLoop_eq, List.nil_append,
    List.length_map, List.length_range]

/-- The payment of a zero-rate loan is `NaN` once `Math.pow` is exact at whole exponents. -/
lemma zero_rate_payment_nan (mathPow : ℚ → ℚ → ℚ) (P : ℚ) (t : ℕ)
    (hpow : ∀ (x : ℚ) (k : ℕ), mathPow x (k : ℚ) = x ^ k) :
    Utils.calculateLoanPayment mathPow P 0 t = .nan := by
  have hexp : ((t : ℚ) * 12) = ((12 * t : ℕ) : ℚ) := by push_cast; ring
  unfold Utils.calculateLoanPayment
  simp only [hexp, hpow]
  simp [jsDiv, infOfSign]

/-- A difference with `NaN` on the left is `NaN`. -/
lemma jsSub_nan_left (x : JSNumber) : jsSub .nan x = .nan := by
  cases x <;> rfl

/-- A difference with `NaN` on the right is `NaN`. -/
lemma jsSub_nan_right (x : JSNumber) : jsSub x .nan = .nan := by
  cases x <;> rfl

/-- With a `NaN` payment the running balance is `NaN` after the first row. -/
lemma runningBalance_nan (m P : ℚ) (j : ℕ) :
    Utils.runningBalance m .nan P (j + 1) = .nan := by
  rw [Utils.runningBalance, jsSub_nan_left, jsSub_nan_right]

/-- C31, as stated, fails: with principal 1200, rate 0 and 1 year the first row has payment
`NaN`, interest 0, principal `NaN` and balance `NaN`, not payment 100, principal 100 and
balance 1100. -/
theorem zero_rate_schedule_first_row :
    (Utils.calculateAmortizationSchedule (fun x p => x ^ p.num.toNat) 1200 0
        ((1 : ℕ) : ℚ))[0]? = some ⟨1, .nan, .nan, .finite 0, .nan⟩ ∧
      (Utils.calculateAmortizationSchedule (fun x p => x ^ p.num.toNat) 1200 0
        ((1 : ℕ) : ℚ))[0]? ≠
        some ⟨1, .finite 100, .finite 100, .finite 0, .finite 1100⟩ := by
  have h : (Utils.calculateAmortizationSchedule (fun x p => x ^ p.num.toNat) 1200 0
      ((1 : ℕ) : ℚ))[0]? = some ⟨1, .nan, .nan, .finite 0, .nan⟩ := by
    rw [schedule_getElem _ _ _ 1 0 (by norm_num),
      zero_rate_payment_nan _ _ 1 (fun x k => by simp), runningBalance_nan]
    simp [Utils.runningBalance, jsSub, jsAdd, jsNeg, jsMul, mathMax]
  rw [h]
  exact ⟨rfl, by simp⟩

/-- C31, amended: for every principal and every whole number of years the schedule of a
zero-rate loan has `12 * years` rows, each with payment `NaN`, principal `NaN` and balance
`NaN`; the interest is 0 in the first row and `NaN` in the rows after it.  Arithmetic is
exact, and `Math.pow` is taken to give the exact power at whole exponents. -/
theorem zero_rate_schedule (mathPow : ℚ → ℚ → ℚ) (P : ℚ) (t : ℕ)
    (hpow : ∀ (x : ℚ) (k : ℕ), mathPow x (k : ℚ) = x ^ k) :
    (Utils.calculateAmortizationSchedule mathPow P 0 t).length = 12 * t ∧
      ∀ j : ℕ, j < 12 * t →
        (Utils.calculateAmortizationSchedule mathPow P 0 t)[j]? =
          some ⟨j + 1, .nan, .nan, if j = 0 then .finite 0 else .nan, .nan⟩ := by
  refine ⟨schedule_length mathPow P 0 t, fun j hj => ?_⟩
  rw [schedule_getElem _ _ _ t j hj, zero_rate_payment_nan _ _ t hpow, runningBalance_nan]
  cases j with
  | zero => simp [Utils.runningBalance, jsSub, jsAdd, jsNeg, jsMul, mathMax]
  | succ i => rw [runningBalance_nan]; simp [jsSub, jsAdd, jsNeg, jsMul, mathMax]

theorem zero_rate_schedule_witness :
    (Utils.calculateAmortizationSchedule (fun x p => x ^ p.num.toNat) 1200 0
        ((1 : ℕ) : ℚ)).length = 12 * 1 ∧
      ∀ j : ℕ, j < 12 * 1 →
        (Utils.calculateAmortizationSchedule (fun x p => x ^ p.num.toNat) 1200 0
          ((1 : ℕ) : ℚ))[j]? =
          some ⟨j + 1, .nan, .nan, if j = 0 then .finite 0 else .nan, .nan⟩ :=
  zero_rate_schedule (fun x p => x ^ p.num.toNat) 1200 1 (fun x k => by simp)

/-! ## Ledger conservation -/

/-- Every call either leaves the account as it was or appends entries whose signed amounts
add up to the change of the balance; an appended deposit entry has a non-negative amount, an
appended withdrawal or fee entry a non-positive one, and none has type interest. -/
lemma run_entries (op : Op) (s : Account) :
    (op.run s).2 = s ∨
      ∃ added : List LogEntry,
        (op.run s).2.transactions = s.transactions ++ added ∧
        (op.run s).2.balance = s.balance + (added.map (fun e => e.amount)).sum ∧
        ∀ e ∈ added, e.type ≠ .INTEREST ∧
          |e.amount| = if e.type = .DEPOSIT then e.amount else -e.amount := by
  cases op with
  | deposit now stamp amount description =>
    simp only [Op.run]
    rcases deposit_outcome s now stamp amount description with
      ⟨_, h2⟩ | ⟨a, ha, _, _, _, h2⟩
    · exact Or.inl h2
    · right
      rw [h2]
      refine ⟨[⟨stamp.id, .DEPOSIT, a, description.getD "Deposit", stamp.date,
        s.balance + a⟩], rfl, by simp, ?_⟩
      intro e he
      simp only [List.mem_singleton] at he
      subst he
      simp [abs_of_nonneg ha]
  | withdraw now feeStamp stamp amount description =>
    simp only [Op.run]
    rcases withdraw_outcome s now feeStamp stamp amount description with
      ⟨_, h2⟩ | ⟨a, ha, _, _, _, _, ⟨_, h2⟩ | ⟨_, h2⟩⟩
    · exact Or.inl h2
    · right
      rw [h2]
      refine ⟨[⟨stamp.id, .WITHDRAWAL, -a, description.getD "Withdrawal", stamp.date,
        s.balance - a⟩], rfl, by simp [sub_eq_add_neg], ?_⟩
      intro e he
      simp only [List.mem_singleton] at he
      subst he
      simp [abs_of_nonneg ha]
    · right
      rw [h2]
      refine ⟨[⟨feeStamp.id, .FEE, -35, "Overdraft fee", feeStamp.date, s.balance - a - 35⟩,
        ⟨stamp.id, .WITHDRAWAL, -a, description.getD "Withdrawal", stamp.date,
          s.balance - a - 35⟩], rfl, by simp; ring, ?_⟩
      intro e he
      simp only [List.mem_cons, List.mem_singleton, List.not_mem_nil, or_false] at he
      rcases he with rfl | rfl
      · simp
      · simp [abs_of_nonneg ha]
  | freeze stamp reason =>
    simp only [Op.run]
    rcases freeze_outcome s stamp reason with ⟨_, h2⟩ | ⟨_, h2⟩
    · exact Or.inl h2
    · right
      rw [h2]
      refine ⟨[⟨stamp.id, .FEE, 0, "Account frozen: " ++ reason, stamp.date, s.balance⟩],
        rfl, by simp, ?_⟩
      intro e he
      simp only [List.mem_singleton] at he
      subst he
      simp
  | unfreeze stamp reason =>
    simp only [Op.run]
    rcases unfreeze_outcome s stamp reason with ⟨_, h2⟩ | ⟨_, h2⟩
    · exact Or.inl h2
    · right
      rw [h2]
      refine ⟨[⟨stamp.id, .FEE, 0, "Account unfrozen: " ++ reason, stamp.date, s.balance⟩],
        rfl, by simp, ?_⟩
      intro e he
      simp only [List.mem_singleton] at he
      subst he
      simp
  | close stamp reason =>
    simp only [Op.run]
    rcases close_outcome s stamp reason with ⟨_, h2⟩ | ⟨_, _, h2⟩
    · exact Or.inl h2
    · right
      rw [h2]
      refine ⟨[⟨stamp.id, .FEE, 0, "Account closed: " ++ reason, stamp.date, s.balance⟩],
        rfl, by simp, ?_⟩
      intro e he
      simp only [List.mem_singleton] at he
      subst he
      simp

/-- In a reachable account the signed amounts of the log add up to the balance, deposit
entries are non-negative, withdrawal and fee entries non-positive, and no entry has type
interest. -/
lemma reachable_ledger (s : Account) (h : Reachable s) :
    (s.transactions.map (fun e => e.amount)).sum = s.balance ∧
      ∀ e ∈ s.transactions, e.type ≠ .INTEREST ∧
        |e.amount| = if e.type = .DEPOSIT then e.amount else -e.amount := by
  induction h with
  | create createdAt lastUpdated stamp accountNumber owner initialBalance acc hc =>
    obtain ⟨a, ha, _, rfl⟩ := create_outcome _ _ _ _ _ _ _ hc
    by_cases hpos : 0 < a
    · simp [hpos, abs_of_nonneg ha]
    · have h0 : a = 0 := le_antisymm (not_lt.mp hpos) ha
      simp [h0]
  | step op s _ ih =>
    rcases run_entries op s with hsame | ⟨added, hlog, hbal, hsign⟩
    · rw [hsame]; exact ih
    · rw [hlog, hbal]
      constructor
      · rw [List.map_append, List.sum_append, ih.1]
      · intro e he
        rcases List.mem_append.mp he with h1 | h1
        · exact ih.2 e h1
        · exact hsign e h1

/-- On a list of entries with the signs of a ledger, deposits less withdrawals less fees, each
taken as `|amount|`, is the sum of the signed amounts. -/
lemma signed_totals (txs : List LogEntry)
    (hsign : ∀ e ∈ txs, e.type ≠ .INTEREST ∧
      |e.amount| = if e.type = .DEPOSIT then e.amount else -e.amount) :
    ((txs.filter (fun e => e.type = .DEPOSIT)).map (fun e => |e.amount|)).sum -
        ((txs.filter (fun e => e.type = .WITHDRAWAL)).map (fun e => |e.amount|)).sum -
        ((txs.filter (fun e => e.type = .FEE)).map (fun e => |e.amount|)).sum =
      (txs.map (fun e => e.amount)).sum := by
  induction txs with
  | nil => simp
  | cons t rest ih =>
    have ih' := ih (fun e he => hsign e (List.mem_cons_of_mem _ he))
    obtain ⟨hni, habs⟩ := hsign t (List.mem_cons_self _ _)
    cases ht : t.type with
    | DEPOSIT =>
      simp only [ht, if_true] at habs
      simp only [List.filter_cons, ht, decide_True, if_true, reduceCtorEq, decide_False,
        if_false, List.map_cons, List.sum_cons, habs]
      linarith
    | WITHDRAWAL =>
      simp only [ht, reduceCtorEq, if_false] at habs
      simp only [List.filter_cons, ht, decide_True, if_true, reduceCtorEq, decide_False,
        if_false, List.map_cons, List.sum_cons, habs]
      linarith
    | FEE =>
      simp only [ht, reduceCtorEq, if_false] at habs
      simp only [List.filter_cons, ht, decide_True, if_true, reduceCtorEq, decide_False,
        if_false, List.map_cons, List.sum_cons, habs]
      linarith
    | INTEREST => exact absurd ht hni

/-- C34, as stated, fails: the operators round to doubles.  After
`new Account('12345', 'Al', 1000.1)`, `withdraw(0.1)`, `withdraw(0.2)` and `deposit(0.3)`, all
successful, the statement has `currentBalance` 1000.0999999999999, `totalDeposits` 1000.4,
`totalWithdrawals` 0.30000000000000004 and `totalFees` 0.  Deposits less withdrawals less
fees is 1000.1 when subtracted in doubles, and is not the balance when subtracted exactly
either; nor is the exact sum of the four signed amounts of the log. -/
theorem ledger_rounding_drift :
    (Binary64.Account.create 0 0 ⟨"TXN-0", 0⟩ "12345" "Al"
        (some (Binary64.toDouble (10001 / 10)))).toOption =
      some ⟨"12345", "Al", .finite (8796972631510221 / 2 ^ 43),
        [⟨"TXN-0", .DEPOSIT, 8796972631510221 / 2 ^ 43, "Initial deposit", 0,
          .finite (8796972631510221 / 2 ^ 43)⟩], .ACTIVE, 0, 0⟩ ∧
      (((((⟨"12345", "Al", .finite (8796972631510221 / 2 ^ 43),
        [⟨"TXN-0", .DEPOSIT, 8796972631510221 / 2 ^ 43, "Initial deposit", 0,
          .finite (8796972631510221 / 2 ^ 43)⟩], .ACTIVE, 0, 0⟩ : Binary64.Account).withdraw 1
        ⟨"TXN-1", 1⟩ ⟨"TXN-2", 1⟩ (Binary64.toDouble (1 / 10)) none).2.withdraw 2
        ⟨"TXN-3", 2⟩ ⟨"TXN-4", 2⟩ (Binary64.toDouble (2 / 10)) none).2.deposit 3
        ⟨"TXN-5", 3⟩ (Binary64.toDouble (3 / 10)) none).2.getStatement none none).1 =
      ⟨"12345", "Al", .finite (2199243157877555 / 2 ^ 41), .ACTIVE,
        [⟨"TXN-0", .DEPOSIT, 8796972631510221 / 2 ^ 43, "Initial deposit", 0,
          .finite (8796972631510221 / 2 ^ 43)⟩,
         ⟨"TXN-2", .WITHDRAWAL, -(3602879701896397 / 2 ^ 55), "Withdrawal", 1, .finite 1000⟩,
         ⟨"TXN-4", .WITHDRAWAL, -(3602879701896397 / 2 ^ 54), "Withdrawal", 2,
          .finite (4397166901801779 / 2 ^ 42)⟩,
         ⟨"TXN-5", .DEPOSIT, 5404319552844595 / 2 ^ 54, "Deposit", 3,
          .finite (2199243157877555 / 2 ^ 41)⟩], 0, 3,
        .finite (5764607523034235 / 2 ^ 58),
        ⟨.finite (8799611459416883 / 2 ^ 43), .finite (1351079888211149 / 2 ^ 52),
          .finite (8796972631510221 / 2 ^ 43), .finite (3602879701896397 / 2 ^ 54),
          .finite (4401125143661773 / 2 ^ 44), .finite 0⟩⟩ ∧
      Binary64.sub (Binary64.sub (.finite (8799611459416883 / 2 ^ 43))
          (.finite (1351079888211149 / 2 ^ 52))) (.finite 0) =
        .finite (8796972631510221 / 2 ^ 43) ∧
      (8796972631510221 / 2 ^ 43 : ℚ) ≠ 2199243157877555 / 2 ^ 41 ∧
      (8799611459416883 / 2 ^ 43 - 1351079888211149 / 2 ^ 52 - 0 : ℚ) ≠
        2199243157877555 / 2 ^ 41 ∧
      ([8796972631510221 / 2 ^ 43, -(3602879701896397 / 2 ^ 55),
          -(3602879701896397 / 2 ^ 54), 5404319552844595 / 2 ^ 54] : List ℚ).sum ≠
        2199243157877555 / 2 ^ 41 := by
  refine ⟨by decide!, by decide!, by decide!, by decide!, by decide!, by decide!⟩

/-- C34, amended: in exact arithmetic, in every account reached from a successful constructor
call by `deposit`, `withdraw`, `freeze`, `unfreeze` and `close` calls, the signed amounts of
all log entries add up to the balance; and the statement with no bounds has
`totalDeposits - totalWithdrawals - totalFees = currentBalance`.  Exact arithmetic means that
every number is a rational and no operator rounds. -/
theorem ledger_conservation (s : Account) (h : Reachable s) :
    (s.transactions.map (fun e => e.amount)).sum = s.balance ∧
      (s.getStatement none none).1.statistics.totalDeposits -
          (s.getStatement none none).1.statistics.totalWithdrawals -
          (s.getStatement none none).1.statistics.totalFees =
        (s.getStatement none none).1.currentBalance := by
  obtain ⟨hsum, hsign⟩ := reachable_ledger s h
  refine ⟨hsum, ?_⟩
  have hst : (s.getStatement none none).1.statistics =
      Account.calculateStatistics s.transactions := rfl
  have hcb : (s.getStatement none none).1.currentBalance = s.balance := rfl
  rw [hst, hcb, calculateStatistics_eq, ← hsum]
  exact signed_totals s.transactions hsign

theorem ledger_conservation_witness :
    ((⟨"12345", "Al", 1000, [⟨"TXN-0", .DEPOSIT, 1000, "Initial deposit", 0, 1000⟩], .ACTIVE,
        0, 0⟩ : Account).transactions.map (fun e => e.amount)).sum =
        (⟨"12345", "Al", 1000, [⟨"TXN-0", .DEPOSIT, 1000, "Initial deposit", 0, 1000⟩],
          .ACTIVE, 0, 0⟩ : Account).balance ∧
      ((⟨"12345", "Al", 1000, [⟨"TXN-0", .DEPOSIT, 1000, "Initial deposit", 0, 1000⟩],
          .ACTIVE, 0, 0⟩ : Account).getStatement none none).1.statistics.totalDeposits -
          ((⟨"12345", "Al", 1000, [⟨"TXN-0", .DEPOSIT, 1000, "Initial deposit", 0, 1000⟩],
            .ACTIVE, 0, 0⟩ : Account).getStatement none none).1.statistics.totalWithdrawals -
          ((⟨"12345", "Al", 1000, [⟨"TXN-0", .DEPOSIT, 1000, "Initial deposit", 0, 1000⟩],
            .ACTIVE, 0, 0⟩ : Account).getStatement none none).1.statistics.totalFees =
        ((⟨"12345", "Al", 1000, [⟨"TXN-0", .DEPOSIT, 1000, "Initial deposit", 0, 1000⟩],
          .ACTIVE, 0, 0⟩ : Account).getStatement none none).1.currentBalance :=
  ledger_conservation _
    (Reachable.create 0 0 ⟨"TXN-0", 0⟩ "12345" "Al" (some (.finite 1000)) _ rfl)

/-- C35: in every account reached from a successful constructor call by `deposit`, `withdraw`,
`freeze`, `unfreeze` and `close` calls the balance is at least `-35`.  On any account a
`withdraw` call that succeeds leaves a balance of at least `-35`, and on any account whose
balance is negative every `withdraw` call throws and leaves the account as it was. -/
theorem overdraft_at_most_one_fee (s : Account) (now : Int) (feeStamp stamp : Stamp)
    (amount : JSNumber) (description : Option String) :
    (Reachable s → -35 ≤ s.balance) ∧
      (failed (s.withdraw now feeStamp stamp amount description).1 = false →
        -35 ≤ (s.withdraw now feeStamp stamp amount description).2.balance) ∧
      (s.balance < 0 →
        failed (s.withdraw now feeStamp stamp amount description).1 = true ∧
          (s.withdraw now feeStamp stamp amount description).2 = s) := by
  refine ⟨fun h => ?_, fun hok => ?_, fun hneg => ?_⟩
  · induction h with
    | create createdAt lastUpdated stamp accountNumber owner initialBalance acc hc =>
      obtain ⟨a, ha, _, rfl⟩ := create_outcome _ _ _ _ _ _ _ hc
      simp only; linarith
    | step op s _ ih =>
      rcases run_step op s with hsame | ⟨_, _, _, _, hle | ⟨_, hlow, _⟩⟩
      · rw [hsame]; exact ih
      · linarith
      · exact hlow
  · rcases withdraw_outcome s now feeStamp stamp amount description with
      ⟨h1, _⟩ | ⟨a, _, hab, _, _, _, ⟨hmin, h2⟩ | ⟨_, h2⟩⟩
    · rw [h1] at hok; cases hok
    · rw [h2]; simp only; linarith
    · rw [h2]; simp only; linarith
  · rcases withdraw_outcome s now feeStamp stamp amount description with
      h | ⟨a, ha, hab, _⟩
    · exact h
    · linarith

theorem overdraft_at_most_one_fee_witness :
    failed ((⟨"12345", "Al", -35, [], .ACTIVE, 0, 0⟩ : Account).withdraw 9 ⟨"TXN-8", 8⟩
        ⟨"TXN-9", 9⟩ (.finite 0) none).1 = true ∧
      ((⟨"12345", "Al", -35, [], .ACTIVE, 0, 0⟩ : Account).withdraw 9 ⟨"TXN-8", 8⟩
        ⟨"TXN-9", 9⟩ (.finite 0) none).2 = ⟨"12345", "Al", -35, [], .ACTIVE, 0, 0⟩ :=
  (overdraft_at_most_one_fee ⟨"12345", "Al", -35, [], .ACTIVE, 0, 0⟩ 9 ⟨"TXN-8", 8⟩
    ⟨"TXN-9", 9⟩ (.finite 0) none).2.2 (by norm_num)

/-! ## Full repayment -/

/-- With a positive rate and exact powers the running balance after `j` rows is
`P * (q ^ n - q ^ j) / (q ^ n - 1)`, where `q = 1 + r / 12` and `n = 12 * years`. -/
lemma runningBalance_closed (mathPow : ℚ → ℚ → ℚ) (P r : ℚ) (t : ℕ)
    (hpow : ∀ (x : ℚ) (k : ℕ), mathPow x (k : ℚ) = x ^ k) (hr : 0 < r) (ht : 0 < t) (j : ℕ) :
    Utils.runningBalance (r / 12) (Utils.calculateLoanPayment mathPow P r t) P j =
      .finite (P * ((1 + r / 12) ^ (12 * t) - (1 + r / 12) ^ j) /
        ((1 + r / 12) ^ (12 * t) - 1)) := by
  have hbase : (1 : ℚ) < 1 + r / 12 := by linarith [div_pos hr (by norm_num : (0 : ℚ) < 12)]
  have hgt : (1 : ℚ) < (1 + r / 12) ^ (12 * t) := one_lt_pow₀ hbase (by omega)
  have hden : (1 + r / 12) ^ (12 * t) - 1 ≠ 0 := by
    intro h0
    linarith
  have hexp : ((t : ℚ) * 12) = ((12 * t : ℕ) : ℚ) := by push_cast; ring
  have hpay : Utils.calculateLoanPayment mathPow P r t =
      .finite (P * (r / 12) * (1 + r / 12) ^ (12 * t) / ((1 + r / 12) ^ (12 * t) - 1)) := by
    simp only [Utils.calculateLoanPayment, hexp, hpow, jsDiv, hden, if_false]
  have key : ∀ (A m Qn Qj : ℚ), Qn - 1 ≠ 0 →
      A * (Qn - Qj) / (Qn - 1) + -(A * m * Qn / (Qn - 1) + -(A * (Qn - Qj) / (Qn - 1) * m)) =
        A * (Qn - Qj * (1 + m)) / (Qn - 1) := by
    intro A m Qn Qj h
    field_simp
    ring
  rw [hpay]
  induction j with
  | zero =>
    simp only [Utils.runningBalance, pow_zero, JSNumber.finite.injEq]
    rw [mul_div_assoc, div_self hden, mul_one]
  | succ j ih =>
    rw [Utils.runningBalance, ih]
    simp only [jsSub, jsMul, jsNeg, jsAdd, JSNumber.finite.injEq]
    rw [key P (r / 12) _ _ hden, pow_succ]

/-- C36: in exact arithmetic, for a principal `P > 0`, an annual rate `r > 0` and a whole
positive number of years, the schedule repays the loan: with `p j` the principal portion and
`B j` the balance of row `j` (counted from 0), every `p j` is positive, the balances strictly
decrease from row to row, the balance of the last row is exactly 0, and the principal
portions add up to `P`.  `Math.pow` is taken to give the exact power at whole exponents. -/
theorem schedule_repays (mathPow : ℚ → ℚ → ℚ) (P r : ℚ) (t : ℕ)
    (hpow : ∀ (x : ℚ) (k : ℕ), mathPow x (k : ℚ) = x ^ k)
    (hP : 0 < P) (hr : 0 < r) (ht : 0 < t) :
    ∃ p B : ℕ → ℚ,
      (∀ j : ℕ, j < 12 * t →
        ∃ row : ScheduleRow,
          (Utils.calculateAmortizationSchedule mathPow P r t)[j]? = some row ∧
            row.principal = .finite (p j) ∧ row.balance = .finite (B j)) ∧
        (∀ j : ℕ, j < 12 * t → 0 < p j) ∧
        (∀ j : ℕ, j + 1 < 12 * t → B (j + 1) < B j) ∧
        B (12 * t - 1) = 0 ∧
        (Finset.range (12 * t)).sum p = P := by
  have hbase : (1 : ℚ) < 1 + r / 12 := by linarith [div_pos hr (by norm_num : (0 : ℚ) < 12)]
  have hq0 : (0 : ℚ) < 1 + r / 12 := by linarith
  have hgt : (1 : ℚ) < (1 + r / 12) ^ (12 * t) := one_lt_pow₀ hbase (by omega)
  have hD : (0 : ℚ) < (1 + r / 12) ^ (12 * t) - 1 := by linarith
  have hden : (1 + r / 12) ^ (12 * t) - 1 ≠ 0 := hD.ne'
  have hexp : ((t : ℚ) * 12) = ((12 * t : ℕ) : ℚ) := by push_cast; ring
  have hpay : Utils.calculateLoanPayment mathPow P r t =
      .finite (P * (r / 12) * (1 + r / 12) ^ (12 * t) / ((1 + r / 12) ^ (12 * t) - 1)) := by
    simp only [Utils.calculateLoanPayment, hexp, hpow, jsDiv, hden, if_false]
  -- the balance after `j` rows
  have hbal := runningBalance_closed mathPow P r t hpow hr ht
  -- the principal portion of row `j`, in closed form
  have hprin : ∀ (A m Qn Qj : ℚ), Qn - 1 ≠ 0 →
      A * m * Qn / (Qn - 1) + -(A * (Qn - Qj) / (Qn - 1) * m) = A * m * Qj / (Qn - 1) := by
    intro A m Qn Qj h
    field_simp
    ring
  refine ⟨fun j => P * (r / 12) * (1 + r / 12) ^ j / ((1 + r / 12) ^ (12 * t) - 1),
    fun j => P * ((1 + r / 12) ^ (12 * t) - (1 + r / 12) ^ (j + 1)) /
      ((1 + r / 12) ^ (12 * t) - 1), ?_, ?_, ?_, ?_, ?_⟩
  · intro j hj
    refine ⟨_, schedule_getElem mathPow P r t j hj, ?_, ?_⟩
    · simp only [hbal j]
      rw [hpay]
      simp only [jsSub, jsMul, jsNeg, jsAdd, JSNumber.finite.injEq]
      exact hprin P (r / 12) _ _ hden
    · simp only [hbal (j + 1), mathMax, JSNumber.finite.injEq]
      apply max_eq_right
      apply div_nonneg _ hD.le
      apply mul_nonneg hP.le
      have : (1 + r / 12) ^ (j + 1) ≤ (1 + r / 12) ^ (12 * t) :=
        pow_le_pow_right₀ hbase.le (by omega)
      linarith
  · intro j _
    have hm : (0 : ℚ) < r / 12 := div_pos hr (by norm_num)
    exact div_pos (mul_pos (mul_pos hP hm) (pow_pos hq0 j)) hD
  · intro j _
    have hlt : (1 + r / 12) ^ (j + 1) < (1 + r / 12) ^ (j + 1 + 1) :=
      pow_lt_pow_right₀ hbase (by omega)
    apply div_lt_div_of_pos_right _ hD
    apply mul_lt_mul_of_pos_left _ hP
    linarith
  · have h1 : 12 * t - 1 + 1 = 12 * t := by omega
    simp only [h1, sub_self, mul_zero, zero_div]
  · have hstep : ∀ (A m Qn Qk : ℚ), Qn - 1 ≠ 0 →
        A * (Qk - 1) / (Qn - 1) + A * m * Qk / (Qn - 1) = A * (Qk * (1 + m) - 1) / (Qn - 1) := by
      intro A m Qn Qk h
      field_simp
      ring
    have htel : ∀ n : ℕ,
        (Finset.range n).sum
            (fun j => P * (r / 12) * (1 + r / 12) ^ j / ((1 + r / 12) ^ (12 * t) - 1)) =
          P * ((1 + r / 12) ^ n - 1) / ((1 + r / 12) ^ (12 * t) - 1) := by
      intro n
      induction n with
      | zero => simp
      | succ n ih =>
        rw [Finset.sum_range_succ, ih, pow_succ]
        exact hstep P (r / 12) _ _ hden
    rw [htel, mul_div_assoc, div_self hden, mul_one]

theorem schedule_repays_witness :
    ∃ p B : ℕ → ℚ,
      (∀ j : ℕ, j < 12 * 1 →
        ∃ row : ScheduleRow,
          (Utils.calculateAmortizationSchedule (fun x p => x ^ p.num.toNat) 1200 (12 / 100)
            ((1 : ℕ) : ℚ))[j]? = some row ∧
            row.principal = .finite (p j) ∧ row.balance = .finite (B j)) ∧
        (∀ j : ℕ, j < 12 * 1 → 0 < p j) ∧
        (∀ j : ℕ, j + 1 < 12 * 1 → B (j + 1) < B j) ∧
        B (12 * 1 - 1) = 0 ∧
        (Finset.range (12 * 1)).sum p = 1200 :=
  schedule_repays (fun x p => x ^ p.num.toNat) 1200 (12 / 100) 1 (fun x k => by simp)
    (by norm_num) (by norm_num) (by norm_num)

end Banking

namespace Books

open Banking

/-! ## Books keep their category -/

/-- The loop of `update` keeps a category that matches a positive page count. -/
lemma updateLoop_invariant (parseInt : JSValue → Option Int) (updates : List (String × JSValue)) :
    ∀ b : Book, b.category = Book.categorizeBook b.pages ∧ 0 < b.pages →
      (Book.updateLoop parseInt updates b).2.category =
          Book.categorizeBook (Book.updateLoop parseInt updates b).2.pages ∧
        0 < (Book.updateLoop parseInt updates b).2.pages := by
  induction updates with
  | nil => intro b hb; exact hb
  | cons kv rest ih =>
    intro b hb
    obtain ⟨key, value⟩ := kv
    unfold Book.updateLoop
    split_ifs with h1 h2 h3
    · cases hv : Book.validateAndFormat value key with
      | error e => simpa [hv] using hb
      | ok t => simpa [hv] using ih { b with title := t } hb
    · cases hv : Book.validateAndFormat value key with
      | error e => simpa [hv] using hb
      | ok a => simpa [hv] using ih { b with author := a } hb
    · cases hv : Book.validatePages parseInt value with
      | error e => simpa [hv] using hb
      | ok p =>
        have hp : 0 < p := by
          unfold Book.validatePages at hv
          split at hv
          · cases hv
          · split_ifs at hv with hle
            cases hv
            exact not_le.mp hle
        simpa [hv] using
          ih { b with pages := p, category := Book.categorizeBook p } ⟨rfl, hp⟩
    · exact ih b hb

/-- A book from the constructor, whatever `update` calls follow, has a positive page count and
the category of that page count. -/
lemma reachable_invariant (parseInt : JSValue → Option Int) (b : Book)
    (h : Book.Reachable parseInt b) :
    b.category = Book.categorizeBook b.pages ∧ 0 < b.pages := by
  induction h with
  | create env title author pages b hc =>
    unfold Book.create at hc
    split at hc
    · cases hc
    · split at hc
      · cases hc
      · split at hc
        · cases hc
        · rename_i p hv
          cases hc
          refine ⟨rfl, ?_⟩
          unfold Book.validatePages at hv
          split at hv
          · cases hv
          · split_ifs at hv with hle
            cases hv
            exact not_le.mp hle
  | update b updates now _ ih =>
    have hl := updateLoop_invariant parseInt updates b ih
    unfold Book.update
    split
    · rename_i e s heq
      rw [heq] at hl; exact hl
    · rename_i u s heq
      rw [heq] at hl; exact hl

/-- C37: for every book made by the constructor and then changed by any `update` calls, the
category is `short` when the book has fewer than 100 pages, `medium` from 100 up to 299 and
`long` from 300 on, and the page count is a whole number above 0. -/
theorem category_follows_pages (parseInt : JSValue → Option Int) (b : Book)
    (h : Book.Reachable parseInt b) :
    0 < b.pages ∧ (b.pages < 100 → b.category = "short") ∧
      (100 ≤ b.pages → b.pages < 300 → b.category = "medium") ∧
      (300 ≤ b.pages → b.category = "long") := by
  obtain ⟨hc, hp⟩ := reachable_invariant parseInt b h
  refine ⟨hp, fun h1 => ?_, fun h1 h2 => ?_, fun h1 => ?_⟩
  · rw [hc]; simp [Book.categorizeBook, h1]
  · rw [hc]; simp [Book.categorizeBook, not_lt.mpr h1, h2]
  · rw [hc]
    have h2 : ¬ b.pages < 100 := by omega
    have h3 : ¬ b.pages < 300 := by omega
    simp [Book.categorizeBook, h2, h3]

theorem category_follows_pages_witness :
    (0 : Int) < (⟨"book_1", "Dune", "Frank Herbert", 412, "2024-01-01", "long",
        "2024-01-01"⟩ : Book).pages ∧
      ((⟨"book_1", "Dune", "Frank Herbert", 412, "2024-01-01", "long", "2024-01-01"⟩ :
          Book).pages < 100 →
        (⟨"book_1", "Dune", "Frank Herbert", 412, "2024-01-01", "long", "2024-01-01"⟩ :
          Book).category = "short") ∧
      (100 ≤ (⟨"book_1", "Dune", "Frank Herbert", 412, "2024-01-01", "long", "2024-01-01"⟩ :
          Book).pages →
        (⟨"book_1", "Dune", "Frank Herbert", 412, "2024-01-01", "long", "2024-01-01"⟩ :
          Book).pages < 300 →
        (⟨"book_1", "Dune", "Frank Herbert", 412, "2024-01-01", "long", "2024-01-01"⟩ :
          Book).category = "medium") ∧
      (300 ≤ (⟨"book_1", "Dune", "Frank Herbert", 412, "2024-01-01", "long", "2024-01-01"⟩ :
          Book).pages →
        (⟨"book_1", "Dune", "Frank Herbert", 412, "2024-01-01", "long", "2024-01-01"⟩ :
          Book).category = "long") :=
  category_follows_pages (fun _ => some 412)
    ⟨"book_1", "Dune", "Frank Herbert", 412, "2024-01-01", "long", "2024-01-01"⟩
    (Book.Reachable.create ⟨"book_1", "2024-01-01"⟩ (.str "Dune") (.str "Frank Herbert")
      (.num (.finite 412)) _ rfl)

/-! ## The library's list -/

/-- C32: `removeBook(id)` returns `true` exactly when some book of the library has that id;
afterwards no book has the id and the books left are the others, in their order; when it
returns `false` the library is as it was. -/
theorem remove_book (lib : Library) (bookId : String) :
    ((lib.removeBook bookId).1 = true ↔ ∃ b ∈ lib.books, b.id = bookId) ∧
      (∀ b ∈ (lib.removeBook bookId).2.books, b.id ≠ bookId) ∧
      (lib.removeBook bookId).2.books = lib.books.filter (fun b => b.id ≠ bookId) ∧
      ((lib.removeBook bookId).1 = false → (lib.removeBook bookId).2 = lib) := by
  have hlen : (lib.books.filter (fun b => decide (b.id ≠ bookId))).length = lib.books.length ↔
      ∀ b ∈ lib.books, b.id ≠ bookId := by
    rw [List.filter_length_eq_length]
    simp
  have hbooks : (lib.removeBook bookId).2.books =
      lib.books.filter (fun b => b.id ≠ bookId) := by
    simp only [Library.removeBook]
    split_ifs <;> rfl
  have hres : (lib.removeBook bookId).1 = true ↔ ¬ ∀ b ∈ lib.books, b.id ≠ bookId := by
    rw [← hlen]
    simp only [Library.removeBook]
    split_ifs with h
    · simpa using h
    · simpa using h
  refine ⟨?_, ?_, hbooks, ?_⟩
  · rw [hres]
    push_neg
    rfl
  · intro b hb
    rw [hbooks] at hb
    simpa using (List.mem_filter.mp hb).2
  · intro hfalse
    have hall : ∀ b ∈ lib.books, b.id ≠ bookId := by
      by_contra hne
      have := hres.mpr hne
      rw [hfalse] at this
      cases this
    have hb := hbooks
    rw [List.filter_eq_self.mpr (by simpa using hall)] at hb
    cases hl : lib.removeBook bookId with
    | mk r l =>
      rw [hl] at hb
      cases l
      cases lib
      simp only at hb
      simp [hb]

/-- The comparison by pages puts `a` not after `b` exactly when `a` has at most the pages
of `b`. -/
lemma pages_order (a b : Book) :
    isPositive (.finite ((a.pages : ℚ) - b.pages)) = false ↔ a.pages ≤ b.pages := by
  simp only [isPositive, decide_eq_false_iff_not, not_lt, sub_nonpos]
  exact_mod_cast Iff.rfl

/-- Sorting with a comparison function that finds every two books equal leaves the order. -/
lemma insertionSort_const (l : List Book) :
    l.insertionSort (fun _ _ => isPositive JSNumber.nan = false) = l := by
  apply List.Sorted.insertionSort_eq
  exact List.pairwise_of_forall (fun _ _ => rfl)

/-- C33 holds of the code in its first part and not in its second.  `sortBooks('pages')`
returns a permutation of the books in non-decreasing page count, and no call changes the
library.  A criteria that is none of the five names falls back to the title order only when
it is no name of `Object.prototype` either: `sortBooks('toString')` finds a function there,
which compares every two books as equal, and returns the books in their own order: for the
two books `b`, `a`, with titles compared by their first letter, the title order is `a`, `b`
and the order for `toString` is `b`, `a`. -/
theorem sort_books (localeCompare : String → String → Int) (dateTime : String → JSNumber)
    (lib : Library) (criteria : String) :
    (∃ l : List Book, (lib.sortBooks localeCompare dateTime "pages").1 = .ok l ∧
        l.Perm lib.books ∧ l.Sorted (fun a b => a.pages ≤ b.pages)) ∧
      (lib.sortBooks localeCompare dateTime criteria).2 = lib ∧
      (criteria ∈ ["title", "author", "pages", "date", "category"] ∨
        criteria ∈ objectPrototypeKeys ∨
        (lib.sortBooks localeCompare dateTime criteria).1 =
          (lib.sortBooks localeCompare dateTime "title").1) ∧
      (lib.sortBooks localeCompare dateTime "toString").1 = .ok lib.books ∧
      ((⟨[⟨"book_1", "b", "x", 10, "d", "short", "d"⟩,
            ⟨"book_2", "a", "y", 20, "d", "short", "d"⟩]⟩ : Library).sortBooks
          (fun x y => (x.front.toNat : Int) - y.front.toNat) (fun _ => .nan) "title").1 =
        .ok [⟨"book_2", "a", "y", 20, "d", "short", "d"⟩,
          ⟨"book_1", "b", "x", 10, "d", "short", "d"⟩] ∧
      ((⟨[⟨"book_1", "b", "x", 10, "d", "short", "d"⟩,
            ⟨"book_2", "a", "y", 20, "d", "short", "d"⟩]⟩ : Library).sortBooks
          (fun x y => (x.front.toNat : Int) - y.front.toNat) (fun _ => .nan) "toString").1 =
        .ok [⟨"book_1", "b", "x", 10, "d", "short", "d"⟩,
          ⟨"book_2", "a", "y", 20, "d", "short", "d"⟩] := by
  refine ⟨?_, ?_, ?_, ?_, rfl, rfl⟩
  · refine ⟨lib.books.insertionSort
      (fun a b => isPositive (.finite ((a.pages : ℚ) - b.pages)) = false), rfl,
      List.perm_insertionSort _ _, ?_⟩
    have htot : IsTotal Book
        (fun a b => isPositive (.finite ((a.pages : ℚ) - b.pages)) = false) :=
      ⟨fun a b => by
        rw [pages_order, pages_order]
        exact le_total _ _⟩
    have htr : IsTrans Book
        (fun a b => isPositive (.finite ((a.pages : ℚ) - b.pages)) = false) :=
      ⟨fun a b c => by
        rw [pages_order, pages_order, pages_order]
        exact le_trans⟩
    have hs := List.sorted_insertionSort
      (fun a b : Book => isPositive (.finite ((a.pages : ℚ) - b.pages)) = false) lib.books
    exact List.Pairwise.imp (fun {a b} h => (pages_order a b).mp h) hs
  · unfold Library.sortBooks
    split
    · rfl
    · split_ifs <;> rfl
    · rfl
  · by_cases h1 : criteria = "title"
    · left; simp [h1]
    by_cases h2 : criteria = "author"
    · left; simp [h2]
    by_cases h3 : criteria = "pages"
    · left; simp [h3]
    by_cases h4 : criteria = "date"
    · left; simp [h4]
    by_cases h5 : criteria = "category"
    · left; simp [h5]
    by_cases h6 : criteria ∈ objectPrototypeKeys
    · right; left; exact h6
    right; right
    have h7 : criteria ≠ "toString" := by
      intro h; apply h6; rw [h]; decide
    have h8 : criteria ≠ "constructor" := by
      intro h; apply h6; rw [h]; decide
    have h9 : criteria ≠ "__proto__" := by
      intro h; apply h6; rw [h]; decide
    have h10 : objectPrototypeKeys.contains criteria = false := by
      simpa using h6
    simp only [Library.sortBooks, Library.sorterFor, h1, h2, h3, h4, h5, h7, h8, h9, h10,
      if_false, if_true, Bool.or_self, decide_False, Bool.false_eq_true]
  · have hs : Library.sorterFor localeCompare dateTime "toString" =
        .compare (fun _ _ => .nan) := by
      simp [Library.sorterFor]
    simp only [Library.sortBooks, hs, insertionSort_const]

/-- Books whose category is one of the three names are counted once by the three counts. -/
lemma category_counts (l : List Book)
    (h : ∀ b ∈ l, b.category = "short" ∨ b.category = "medium" ∨ b.category = "long") :
    (l.filter (fun b => b.category = "short")).length +
        (l.filter (fun b => b.category = "medium")).length +
        (l.filter (fun b => b.category = "long")).length = l.length := by
  induction l with
  | nil => rfl
  | cons b rest ih =>
    have ih' := ih (fun x hx => h x (List.mem_cons_of_mem _ hx))
    rcases h b (List.mem_cons_self _ _) with hb | hb | hb <;>
      simp [List.filter_cons, hb] <;> omega

/-! ## Formatted strings -/

/-- The characters `trim()` keeps, as a list operation. -/
lemma jsTrim_data (s : String) :
    (jsTrim s).data = (s.data.dropWhile isJSWhiteSpace).rdropWhile isJSWhiteSpace := rfl

/-- A trimmed list is empty or starts with a character that is no white space. -/
lemma trimmed_head (l : List Char) :
    (l.dropWhile isJSWhiteSpace).rdropWhile isJSWhiteSpace = [] ∨
      ∃ c cs, (l.dropWhile isJSWhiteSpace).rdropWhile isJSWhiteSpace = c :: cs ∧
        isJSWhiteSpace c = false := by
  cases hu : (l.dropWhile isJSWhiteSpace).rdropWhile isJSWhiteSpace with
  | nil => exact Or.inl rfl
  | cons c cs =>
    right
    refine ⟨c, cs, rfl, ?_⟩
    have hpre : (c :: cs) <+: l.dropWhile isJSWhiteSpace := by
      rw [← hu]; exact List.rdropWhile_prefix _ _
    obtain ⟨rest, hrest⟩ := hpre
    have hhead := List.head?_dropWhile_not isJSWhiteSpace l
    rw [← hrest] at hhead
    simpa using hhead

/-- A trimmed list is empty or ends with a character that is no white space. -/
lemma trimmed_last (l : List Char) :
    (l.dropWhile isJSWhiteSpace).rdropWhile isJSWhiteSpace = [] ∨
      ∃ init x, (l.dropWhile isJSWhiteSpace).rdropWhile isJSWhiteSpace = init ++ [x] ∧
        isJSWhiteSpace x = false := by
  by_cases hu : (l.dropWhile isJSWhiteSpace).rdropWhile isJSWhiteSpace = []
  · exact Or.inl hu
  · right
    have hlast := List.rdropWhile_last_not isJSWhiteSpace (l.dropWhile isJSWhiteSpace) hu
    refine ⟨_, _, (List.dropLast_append_getLast hu).symm, ?_⟩
    simpa using hlast

/-- Replacing the runs of white space a second time changes nothing. -/
lemma collapseSpaces_idem (l : List Char) :
    ∀ a : Bool, collapseSpaces a (collapseSpaces a l) = collapseSpaces a l := by
  have hsp : isJSWhiteSpace (Char.ofNat 32) = true := by decide
  induction l with
  | nil => intro a; rfl
  | cons c cs ih =>
    intro a
    by_cases hc : isJSWhiteSpace c = true
    · cases a with
      | true => simp only [collapseSpaces, hc, if_true]; exact ih true
      | false =>
        simp only [collapseSpaces, hc, if_true, Bool.false_eq_true, if_false, hsp]
        rw [ih true]
    · simp only [collapseSpaces, hc, Bool.false_eq_true, if_false]
      rw [ih false]

/-- A last character that is no white space stays last. -/
lemma collapseSpaces_concat (l : List Char) (x : Char) (hx : isJSWhiteSpace x = false) :
    ∀ a : Bool, collapseSpaces a (l ++ [x]) = collapseSpaces a l ++ [x] := by
  induction l with
  | nil => intro a; simp [collapseSpaces, hx]
  | cons c cs ih =>
    intro a
    by_cases hc : isJSWhiteSpace c = true
    · cases a with
      | true => simp only [List.cons_append, collapseSpaces, hc, if_true]; exact ih true
      | false =>
        simp only [List.cons_append, collapseSpaces, hc, if_true, Bool.false_eq_true, if_false]
        exact congrArg _ (ih true)
    · simp only [List.cons_append, collapseSpaces, hc, Bool.false_eq_true, if_false]
      exact congrArg _ (ih false)

/-- Formatting a formatted string gives it back. -/
lemma format_idem (s : String) :
    collapseSpaces false
        (jsTrim ⟨collapseSpaces false (jsTrim s).data⟩).data =
      collapseSpaces false (jsTrim s).data := by
  have htrim : (jsTrim ⟨collapseSpaces false (jsTrim s).data⟩).data =
      collapseSpaces false (jsTrim s).data := by
    rw [jsTrim_data, jsTrim_data]
    rcases trimmed_head s.data with h0 | ⟨c, cs, hcs, hc⟩
    · rw [h0]; rfl
    · obtain ⟨init, x, hix, hx⟩ := (trimmed_last s.data).resolve_left (by rw [hcs]; simp)
      have hd : (collapseSpaces false
            ((s.data.dropWhile isJSWhiteSpace).rdropWhile isJSWhiteSpace)).dropWhile
            isJSWhiteSpace =
          collapseSpaces false ((s.data.dropWhile isJSWhiteSpace).rdropWhile isJSWhiteSpace) := by
        rw [hcs]
        simp only [collapseSpaces, hc, Bool.false_eq_true, if_false]
        exact List.dropWhile_cons_of_neg (by simp [hc])
      rw [hd, hix, collapseSpaces_concat init x hx false]
      exact List.rdropWhile_concat_neg _ _ _ (by simp [hx])
  rw [htrim, collapseSpaces_idem]

/-- What `#validateAndFormat` returns is the formatted form of a non-empty string. -/
lemma validateAndFormat_ok (value : JSValue) (field t : String)
    (h : Book.validateAndFormat value field = .ok t) :
    ∃ s : String, t = ⟨collapseSpaces false (jsTrim s).data⟩ := by
  unfold Book.validateAndFormat at h
  split at h
  · rename_i s
    split_ifs at h
    cases h
    exact ⟨s, rfl⟩
  · cases h

/-- The loop of `update` keeps the title and the author formatted. -/
lemma updateLoop_formatted (parseInt : JSValue → Option Int)
    (updates : List (String × JSValue)) :
    ∀ b : Book,
      ((∃ s : String, b.title = ⟨collapseSpaces false (jsTrim s).data⟩) ∧
        ∃ s : String, b.author = ⟨collapseSpaces false (jsTrim s).data⟩) →
      (∃ s : String, (Book.updateLoop parseInt updates b).2.title =
          ⟨collapseSpaces false (jsTrim s).data⟩) ∧
        ∃ s : String, (Book.updateLoop parseInt updates b).2.author =
          ⟨collapseSpaces false (jsTrim s).data⟩ := by
  induction updates with
  | nil => intro b hb; exact hb
  | cons kv rest ih =>
    intro b hb
    obtain ⟨key, value⟩ := kv
    unfold Book.updateLoop
    split_ifs with h1 h2 h3
    · cases hv : Book.validateAndFormat value key with
      | error e => simpa [hv] using hb
      | ok t =>
        simpa [hv] using
          ih { b with title := t } ⟨validateAndFormat_ok value key t hv, hb.2⟩
    · cases hv : Book.validateAndFormat value key with
      | error e => simpa [hv] using hb
      | ok a =>
        simpa [hv] using
          ih { b with author := a } ⟨hb.1, validateAndFormat_ok value key a hv⟩
    · cases hv : Book.validatePages parseInt value with
      | error e => simpa [hv] using hb
      | ok p =>
        simpa [hv] using ih { b with pages := p, category := Book.categorizeBook p } hb
    · exact ih b hb

/-- A book from the constructor, whatever `update` calls follow, has a formatted title and a
formatted author. -/
lemma reachable_formatted (parseInt : JSValue → Option Int) (b : Book)
    (h : Book.Reachable parseInt b) :
    (∃ s : String, b.title = ⟨collapseSpaces false (jsTrim s).data⟩) ∧
      ∃ s : String, b.author = ⟨collapseSpaces false (jsTrim s).data⟩ := by
  induction h with
  | create env title author pages b hc =>
    unfold Book.create at hc
    split at hc
    · cases hc
    · rename_i t ht
      split at hc
      · cases hc
      · rename_i a ha
        split at hc
        · cases hc
        · cases hc
          exact ⟨validateAndFormat_ok _ _ _ ht, validateAndFormat_ok _ _ _ ha⟩
  | update b updates now _ ih =>
    have hl := updateLoop_formatted parseInt updates b ih
    unfold Book.update
    split
    · rename_i e s heq
      rw [heq] at hl; exact hl
    · rename_i u s heq
      rw [heq] at hl; exact hl

/-- Formatting a non-empty formatted string passes and gives it back. -/
lemma validateAndFormat_formatted (t field : String) (hne : t ≠ "")
    (hf : ∃ s : String, t = ⟨collapseSpaces false (jsTrim s).data⟩) :
    Book.validateAndFormat (.str t) field = .ok t := by
  obtain ⟨s, rfl⟩ := hf
  simp only [Book.validateAndFormat, hne, if_false, format_idem]

/-! ## Storage and statistics -/

/-- C38 does not hold of the code for a book whose title or author is empty, which the
constructor gives for a title or author of white space only: `fromJSON(b.toJSON())` then
throws, as for the book made from the title of three blanks.  For a book from the constructor
and any `update` calls whose title and author are not empty, `fromJSON(b.toJSON())` succeeds
and gives a book equal to `b` in every field, `parseInt` being taken to give back every whole
number above 0. -/
theorem json_round_trip (parseInt : JSValue → Option Int) (env : BookEnv) (b : Book)
    (h : Book.Reachable parseInt b)
    (hnum : ∀ n : Int, 0 < n → parseInt (.num (.finite (n : ℚ))) = some n) :
    (b.title ≠ "" → b.author ≠ "" → Book.fromJSON parseInt env b.toJSON = .ok b) ∧
      (b.title = "" →
        Book.fromJSON parseInt env b.toJSON =
          .error ⟨"Invalid title: must be a non-empty string"⟩) ∧
      Book.create (fun _ => some 10) ⟨"book_1", "2024-01-01"⟩ (.str "   ") (.str "Ann")
          (.num (.finite 10)) =
        .ok ⟨"book_1", "", "Ann", 10, "2024-01-01", "short", "2024-01-01"⟩ ∧
      Book.fromJSON (fun _ => some 10) ⟨"book_2", "2024-02-02"⟩
          (Book.toJSON ⟨"book_1", "", "Ann", 10, "2024-01-01", "short", "2024-01-01"⟩) =
        .error ⟨"Invalid title: must be a non-empty string"⟩ := by
  obtain ⟨hcat, hpos⟩ := reachable_invariant parseInt b h
  obtain ⟨htitle, hauthor⟩ := reachable_formatted parseInt b h
  refine ⟨fun ht ha => ?_, fun ht => ?_, rfl, rfl⟩
  · have hp : Book.validatePages parseInt (.num (.finite (b.pages : ℚ))) = .ok b.pages := by
      simp only [Book.validatePages, hnum b.pages hpos, not_le.mpr hpos, if_false]
    simp only [Book.fromJSON, Book.toJSON, Book.create,
      validateAndFormat_formatted b.title "title" ht htitle,
      validateAndFormat_formatted b.author "author" ha hauthor, hp, ← hcat]
  · simp only [Book.fromJSON, Book.toJSON, Book.create, ht, Book.validateAndFormat, if_true]
    rfl

theorem json_round_trip_witness :
    Book.fromJSON (fun v => match v with
        | .num (.finite q) => some ⌊q⌋
        | _ => none) ⟨"book_2", "2024-02-02"⟩
        (Book.toJSON ⟨"book_1", "Dune", "Frank Herbert", 412, "2024-01-01", "long",
          "2024-01-01"⟩) =
      .ok ⟨"book_1", "Dune", "Frank Herbert", 412, "2024-01-01", "long", "2024-01-01"⟩ :=
  (json_round_trip (fun v => match v with
      | .num (.finite q) => some ⌊q⌋
      | _ => none) ⟨"book_2", "2024-02-02"⟩
    ⟨"book_1", "Dune", "Frank Herbert", 412, "2024-01-01", "long", "2024-01-01"⟩
    (Book.Reachable.create ⟨"book_1", "2024-01-01"⟩ (.str "Dune") (.str "Frank Herbert")
      (.num (.finite ((412 : Int) : ℚ))) _
      (by simp [Book.create, Book.validateAndFormat, Book.validatePages, Int.floor_intCast,
        Book.categorizeBook, jsTrim, collapseSpaces]; decide))
    (fun n _ => by simp)).1 (by decide) (by decide)

/-- C39: in a library whose books come from the constructor, whatever `update` calls follow,
the category counts of `getStatistics` add up to the number of books in the library, which is
also what `totalBooks` reports:
`categories.short + categories.medium + categories.long = books.length = totalBooks`. -/
theorem statistics_counts (parseInt : JSValue → Option Int) (lib : Library)
    (h : ∀ b ∈ lib.books, Book.Reachable parseInt b) :
    lib.getStatistics.short + lib.getStatistics.medium + lib.getStatistics.long =
        lib.books.length ∧
      lib.getStatistics.totalBooks = lib.books.length := by
  refine ⟨?_, rfl⟩
  apply category_counts
  intro b hb
  have hc := (reachable_invariant parseInt b (h b hb)).1
  rw [hc]
  unfold Book.categorizeBook
  split_ifs <;> simp

theorem statistics_counts_witness :
    (⟨[⟨"book_1", "Dune", "Frank Herbert", 412, "2024-01-01", "long",
          "2024-01-01"⟩]⟩ : Library).getStatistics.short +
        (⟨[⟨"book_1", "Dune", "Frank Herbert", 412, "2024-01-01", "long",
          "2024-01-01"⟩]⟩ : Library).getStatistics.medium +
        (⟨[⟨"book_1", "Dune", "Frank Herbert", 412, "2024-01-01", "long",
          "2024-01-01"⟩]⟩ : Library).getStatistics.long =
        (⟨[⟨"book_1", "Dune", "Frank Herbert", 412, "2024-01-01", "long",
          "2024-01-01"⟩]⟩ : Library).books.length ∧
      (⟨[⟨"book_1", "Dune", "Frank Herbert", 412, "2024-01-01", "long",
          "2024-01-01"⟩]⟩ : Library).getStatistics.totalBooks =
        (⟨[⟨"book_1", "Dune", "Frank Herbert", 412, "2024-01-01", "long",
          "2024-01-01"⟩]⟩ : Library).books.length :=
  statistics_counts (fun _ => some 412)
    ⟨[⟨"book_1", "Dune", "Frank Herbert", 412, "2024-01-01", "long", "2024-01-01"⟩]⟩
    (fun b hb => by
      rw [List.mem_singleton.mp hb]
      exact Book.Reachable.create ⟨"book_1", "2024-01-01"⟩ (.str "Dune")
        (.str "Frank Herbert") (.num (.finite 412)) _ rfl)

end Books
